import Mathlib

/-!
SLA print-processing pipeline and small-area flow compensation.

A shallow embedding of `src/libslic3r/SLAPrint.cpp` (the staged driver
`SLAPrint::process`, its stage lambdas, the layer aggregator and the
rasterizer) and of `src/libslic3r/GCode/SmallAreaInfillFlowCompensator.cpp`
(the reading and the validation of the compensation table and the flow
modifier).

Conventions of the embedding.

* Mutable C++ objects become explicit state: every driver function returns the
  state it leaves behind together with an `Outcome`, because a C++ exception
  unwinds the call but keeps the mutations made so far.
* The cancellation flag is written by another thread.  The run is therefore
  parameterised by an environment `CancelEnv` that says, for the window that
  follows every driver checkpoint, whether a cancel request arrives there.
* The geometry collaborators (mesh slicer, support tree synthesis, pad, ...)
  are the fields of `Collaborators`; their data are tokens.
* Heights (`float`/`double` in the source) are exact rationals wherever the
  source does arithmetic on them; the table validation, which only compares
  doubles and takes `std::nextafter`, uses the order-exact model `Double`.
* Where the rounding of a `double` result decides a property, the operation is
  taken in binary64: `Double.ofRat` rounds a rational to the nearest double,
  ties to even, and the height key and the flow modifier have the binary64
  versions `Double.lyridx` and `Double.modify_flow` next to the exact ones.
* A ghost `log` records status reports and stage-function invocations.
-/

namespace Slic3r

/-! ## Step state machine -/

/-- Modelled from the spec: the three states of a stage of the step state
machine (its type is declared outside `src/`). -/
inductive StepState where
  | Pending
  | Started
  | Done
  deriving DecidableEq

/-- Object-level stages, `enum SLAPrintObjectStep`, in the order of `objectsteps`. -/
inductive SLAPrintObjectStep where
  | slaposObjectSlice
  | slaposSupportIslands
  | slaposSupportPoints
  | slaposSupportTree
  | slaposBasePool
  | slaposSliceSupports
  deriving DecidableEq

/-- Print-level stages, `enum SLAPrintStep`, in the order of `printsteps`. -/
inductive SLAPrintStep where
  | slapsRasterize
  | slapsValidate
  deriving DecidableEq

open SLAPrintObjectStep SLAPrintStep

/-- Table `OBJ_STEP_LEVELS` (lines 28-36). -/
def OBJ_STEP_LEVELS : SLAPrintObjectStep → Nat
  | slaposObjectSlice => 20
  | slaposSupportIslands => 30
  | slaposSupportPoints => 50
  | slaposSupportTree => 70
  | slaposBasePool => 80
  | slaposSliceSupports => 100

/-- Table `OBJ_STEP_LABELS` (lines 38-46). -/
def OBJ_STEP_LABELS : SLAPrintObjectStep → String
  | slaposObjectSlice => "Slicing model"
  | slaposSupportIslands => "Generating islands"
  | slaposSupportPoints => "Scanning model structure"
  | slaposSupportTree => "Generating support tree"
  | slaposBasePool => "Generating base pool"
  | slaposSliceSupports => "Slicing supports"

/-- Table `PRINT_STEP_LEVELS` (lines 48-52). -/
def PRINT_STEP_LEVELS : SLAPrintStep → Nat
  | slapsRasterize => 50
  | slapsValidate => 100

/-- Table `PRINT_STEP_LABELS` (lines 54-58). -/
def PRINT_STEP_LABELS : SLAPrintStep → String
  | slapsRasterize => "Rasterizing layers"
  | slapsValidate => "Validating"

/-- The array `objectsteps` of `process` (lines 340-347). -/
def objectsteps : List SLAPrintObjectStep :=
  [slaposObjectSlice, slaposSupportIslands, slaposSupportPoints,
   slaposSupportTree, slaposBasePool, slaposSliceSupports]

/-- The array `printsteps` of `process` (lines 385-387). -/
def printsteps : List SLAPrintStep := [slapsRasterize, slapsValidate]

/-! ## Data model -/

/-- A polygon with holes; a token, the geometry is not inspected. -/
abbrev ExPolygon := Nat

/-- One slice: a set of polygons. -/
abbrev ExPolygons := List ExPolygon

/-- Sliced support geometry, one polygon set per layer. -/
abbrev SlicedSupports := List ExPolygons

/-- A point of the scaled integer grid. -/
structure Point where
  x : Int
  y : Int
  deriving DecidableEq

/-- Raw triangle mesh: a token and the Z extent of its bounding box. -/
structure TriangleMesh where
  id : Nat
  bb_min_z : ℚ
  bb_max_z : ℚ
  deriving DecidableEq

/-- Index-triangle representation used by the support subsystem (token). -/
abbrev EigenMesh3D := Nat

/-- Resolved support points (token list). -/
abbrev PointSet := List Nat

/-- Handle to a synthesised support tree (token). -/
abbrev SLASupportTree := Nat

/-- One placed copy of a model object. -/
structure ModelInstance where
  id : Nat
  offset_x : ℚ
  offset_y : ℚ
  rotation_z : ℚ
  deriving DecidableEq

/-- Source geometry of one object with its support point hints and placements. -/
structure ModelObject where
  raw_mesh : TriangleMesh
  sla_support_points : List Nat
  instances : List ModelInstance
  deriving DecidableEq

/-- The model: its objects. -/
structure Model where
  objects : List ModelObject
  deriving DecidableEq

/-- Record `SLAPrintObject::Instance`. -/
structure Instance where
  instance_id : Nat
  shift : Point
  rotation : ℚ
  deriving DecidableEq

/-- Class `SLAPrintObject::SupportData` (lines 18-24). -/
structure SupportData where
  emesh : EigenMesh3D
  support_points : PointSet
  support_tree_ptr : Option SLASupportTree
  support_slices : SlicedSupports
  deriving DecidableEq

/-- The part of the object configuration that `process` reads. -/
structure SLAPrintObjectConfig where
  layer_height : ℚ
  pad_wall_thickness : ℚ
  pad_wall_height : ℚ
  pad_max_merge_distance : ℚ
  pad_edge_radius : ℚ
  deriving DecidableEq

/-- Class `SLAPrintObject`: per-object stage statuses, step mask and data. -/
structure SLAPrintObject where
  m_model_object : ModelObject
  m_config : SLAPrintObjectConfig
  m_state : SLAPrintObjectStep → StepState
  m_stepmask : SLAPrintObjectStep → Bool
  m_model_slices : List ExPolygons
  m_supportdata : Option SupportData
  m_instances : List Instance

/-- Modelled from the spec: member `is_step_done` of a print object (declared
outside `src/`): the stage has reached `Done`. -/
def SLAPrintObject.is_step_done (po : SLAPrintObject) (s : SLAPrintObjectStep) : Bool :=
  decide (po.m_state s = StepState.Done)

/-- Modelled from the spec: member `set_started` of a print object (declared
outside `src/`): the transition to `Started` on stage entry. -/
def SLAPrintObject.set_started (po : SLAPrintObject) (s : SLAPrintObjectStep) :
    SLAPrintObject :=
  { po with m_state := fun t => if t = s then StepState.Started else po.m_state t }

/-- Modelled from the spec: member `set_done` of a print object (declared
outside `src/`): the transition `Started → Done` "on stage completion without
cancellation".  `canceled` is the cancellation flag at the call: when it is
set, the status is left as it is and the cancellation signal is raised
(`none`), so that "a cancelled stage leaves its status at `Started`". -/
def SLAPrintObject.set_done (po : SLAPrintObject) (s : SLAPrintObjectStep)
    (canceled : Bool) : Option SLAPrintObject :=
  if canceled then none
  else some { po with m_state := fun t => if t = s then StepState.Done else po.m_state t }

/-! ## Collaborators, environment, outcomes -/

/-- The geometry algorithms that `process` calls and does not define. -/
structure Collaborators where
  /-- Macro constant `SCALING_FACTOR` of `libslic3r.h`: the size of one unit of
  the scaled integer grid. -/
  SCALING_FACTOR : ℚ
  /-- Call `TriangleMeshSlicer::slice(heights, &layers, ...)`. -/
  slice : TriangleMesh → List ℚ → List ExPolygons
  /-- Call `sla::to_eigenmesh(mo)`. -/
  to_eigenmesh : ModelObject → EigenMesh3D
  /-- Call `sla::support_points(mo)`. -/
  support_points : ModelObject → PointSet
  /-- Constructor `SLASupportTree(pts, emesh, scfg, ctl)` when it is not stopped. -/
  new_support_tree : PointSet → EigenMesh3D → SLASupportTree
  /-- Call `add_pad(wt, h, md, er)` on a tree. -/
  add_pad : SLASupportTree → ℚ → ℚ → ℚ → ℚ → SLASupportTree
  /-- Call `slice(lh, ilh)` on a tree. -/
  slice_tree : SLASupportTree → ℚ → ℚ → SlicedSupports

/-- What happens to the cancellation flag in the window between one driver
checkpoint and the next: nothing; a cancel request that arrives while the
stage function runs and that the running support algorithm sees at one of its
polls (`ctl.stopcondition`); a cancel request that arrives while the stage
function runs, after its last poll; or a cancel request that arrives after the
stage has been marked `Done` and before the next checkpoint.  In the window of
a stage that is skipped there is no stage function, and the three requests
only differ in name. -/
inductive CancelEvent where
  | quiet
  | stopSeen
  | late
  | afterDone
  deriving DecidableEq

/-- The cancel requests of one run, per driver window. -/
structure CancelEnv where
  obj : Nat → SLAPrintObjectStep → CancelEvent
  print : SLAPrintStep → CancelEvent

/-- How a driver call ends: it returns, the cancellation signal unwinds it
(`throw_if_canceled`), it accesses support data that is absent (a null
`m_supportdata` is dereferenced), or it takes `front()` of an empty object
collection. -/
inductive Outcome where
  | ok
  | canceled
  | nullSupportData
  | noObjects
  deriving DecidableEq

/-- Ghost events: status reports and invocations of stage functions. -/
inductive Event where
  | status (pct : Nat) (label : String)
  | objInvoked (obj : Nat) (step : SLAPrintObjectStep)
  | printInvoked (step : SLAPrintStep)
  deriving DecidableEq

/-- The state shared by all driver iterations: the cancellation flag and the
status sink together with the ghost record of invocations. -/
structure Shared where
  canceled : Bool
  log : List Event
  deriving DecidableEq

/-- Modelled from the spec: member `set_status(pct, label)` (declared outside
`src/`): the percentage and the label are reported to the status sink. -/
def Shared.set_status (sh : Shared) (pct : Nat) (label : String) : Shared :=
  { sh with log := sh.log ++ [Event.status pct label] }

/-- The flag after a window with the given cancel event. -/
def Shared.arrive (sh : Shared) (ev : CancelEvent) : Shared :=
  { sh with canceled := sh.canceled || decide (ev ≠ CancelEvent.quiet) }

/-- The flag when the stage function of the window has returned: it is set by
a cancel request that arrived while the stage function ran. -/
def Shared.arriveInStage (sh : Shared) (ev : CancelEvent) : Shared :=
  { sh with
    canceled := sh.canceled ||
      decide (ev = CancelEvent.stopSeen ∨ ev = CancelEvent.late) }

/-! ## Stage functions of `process` -/

/-- Loop `for(float h = ilh; h < H; h += lh) heights.emplace_back(h);` of
`slice_model` (line 142), with `fuel` bounding the number of iterations. -/
def heightsLoop (H lh : ℚ) : Nat → ℚ → List ℚ → List ℚ
  | 0, _, heights => heights
  | fuel + 1, h, heights =>
    if h < H then heightsLoop H lh fuel (h + lh) (heights ++ [h]) else heights

/-- A number of iterations within which the loop of `slice_model` has left
`h < H`, for a positive layer height (`heightsLoop_fuel_enough`). -/
def heightsFuel (ilh lh H : ℚ) : Nat := (Int.toNat ⌊(H - ilh) / lh⌋) + 1

/-- The vector `heights` that `slice_model` hands to the slicer (lines 140-142):
it starts as `{ilh}` and the loop appends.  For a layer height that is not
positive and `ilh < H` the loop of the source does not end; the model then
stops when the fuel is used up. -/
def slice_heights (ilh lh H : ℚ) : List ℚ :=
  heightsLoop H lh (heightsFuel ilh lh H) ilh [ilh]

/-- Lambda `slice_model` (lines 131-145). -/
def slice_model (G : Collaborators) (ilh : ℚ) (po : SLAPrintObject) : SLAPrintObject :=
  let lh := po.m_config.layer_height
  let mesh := po.m_model_object.raw_mesh
  let H := mesh.bb_max_z - mesh.bb_min_z
  let heights := slice_heights ilh lh H
  { po with m_model_slices := G.slice mesh heights }

/-- Lambda `support_points` (lines 147-162). -/
def support_points (G : Collaborators) (po : SLAPrintObject) : SLAPrintObject :=
  let mo := po.m_model_object
  if mo.sla_support_points ≠ [] then
    let sd : SupportData :=
      { emesh := G.to_eigenmesh mo
        support_points := G.support_points mo
        support_tree_ptr := none
        support_slices := [] }
    { po with m_supportdata := some sd }
  else po

/-- Lambda `support_tree` (lines 165-186).  The first two statements go through
`po.m_supportdata` without a test, so an absent support data is an invalid
access.  `stop` says whether a poll of `ctl.stopcondition` answers true: the
constructor then throws `SLASupportsStoppedException`, which is caught and not
rethrown, and the tree handle keeps its value. -/
def support_tree (G : Collaborators) (stop : Bool) (po : SLAPrintObject) :
    Option SLAPrintObject :=
  match po.m_supportdata with
  | none => none
  | some sd =>
    if stop then some po
    else
      let tree := G.new_support_tree sd.support_points sd.emesh
      let sd1 : SupportData := { sd with support_tree_ptr := some tree }
      some { po with m_supportdata := some sd1 }

/-- Lambda `base_pool` (lines 189-204). -/
def base_pool (G : Collaborators) (po : SLAPrintObject) : SLAPrintObject :=
  match po.is_step_done slaposSupportTree, po.m_supportdata with
  | true, some sd =>
    match sd.support_tree_ptr with
    | some tree =>
      let wt := po.m_config.pad_wall_thickness
      let h := po.m_config.pad_wall_height
      let md := po.m_config.pad_max_merge_distance
      let er := po.m_config.pad_edge_radius
      let sd1 : SupportData := { sd with support_tree_ptr := some (G.add_pad tree wt h md er) }
      { po with m_supportdata := some sd1 }
    | none => po
  | _, _ => po

/-- Lambda `slice_supports` (lines 209-215). -/
def slice_supports (G : Collaborators) (ilh : ℚ) (po : SLAPrintObject) : SLAPrintObject :=
  match po.m_supportdata with
  | some sd =>
    match sd.support_tree_ptr with
    | some tree =>
      let lh := po.m_config.layer_height
      let sd1 : SupportData := { sd with support_slices := G.slice_tree tree lh ilh }
      { po with m_supportdata := some sd1 }
    | none => po
  | none => po

/-- The array `pobj_program` (lines 349-357): the stage function of each object
stage.  `none` is the invalid access of `support_tree`. -/
def pobj_program (G : Collaborators) (ilh : ℚ) (stop : Bool) :
    SLAPrintObjectStep → SLAPrintObject → Option SLAPrintObject
  | slaposObjectSlice, po => some (slice_model G ilh po)
  | slaposSupportIslands, po => some po
  | slaposSupportPoints, po => some (support_points G po)
  | slaposSupportTree, po => support_tree G stop po
  | slaposBasePool, po => some (base_pool G po)
  | slaposSliceSupports, po => some (slice_supports G ilh po)

/-! ## Object-level driver loop -/

/-- Body of the inner loop of the object driver (lines 367-381) for object
number `i` and stage `s`; `ev` is what happens to the flag before the next
checkpoint.  The call `throw_if_canceled()` (declared outside `src/`) is
modelled from the spec: it raises the cancellation signal when the flag is
set.  An invalid access ends the run where it happens.  The call
`po->set_done(currentstep)` sees the flag as the stage function left it. -/
def objIter (G : Collaborators) (ilh : ℚ) (ev : CancelEvent) (i : Nat)
    (s : SLAPrintObjectStep) (sh : Shared) (po : SLAPrintObject) :
    Outcome × Shared × SLAPrintObject :=
  if sh.canceled then (Outcome.canceled, sh, po)  -- throw_if_canceled()
  else if po.m_stepmask s && !po.is_step_done s then
    let sh1 := sh.set_status (OBJ_STEP_LEVELS s) (OBJ_STEP_LABELS s)
    let po1 := po.set_started s
    let sh2 : Shared := { sh1 with log := sh1.log ++ [Event.objInvoked i s] }
    match pobj_program G ilh (decide (ev = CancelEvent.stopSeen)) s po1 with
    | none => (Outcome.nullSupportData, sh2, po1)
    | some po2 =>
      let sh3 := sh2.arriveInStage ev
      match po2.set_done s sh3.canceled with
      | none => (Outcome.canceled, sh3, po2)
      | some po3 => (Outcome.ok, sh3.arrive ev, po3)
  else (Outcome.ok, sh.arrive ev, po)

/-- Inner loop `for(size_t s = 0; s < pobj_program.size(); ++s)` over the
stages that remain for object `i` (line 366). -/
def objSteps (G : Collaborators) (ilh : ℚ) (env : CancelEnv) (i : Nat) :
    List SLAPrintObjectStep → Shared → SLAPrintObject → Outcome × Shared × SLAPrintObject
  | [], sh, po => (Outcome.ok, sh, po)
  | s :: ss, sh, po =>
    match objIter G ilh (env.obj i s) i s sh po with
    | (Outcome.ok, sh1, po1) => objSteps G ilh env i ss sh1 po1
    | r => r

/-- Outer loop `for(SLAPrintObject * po : m_objects)` (line 365) over the
objects that remain, the first of which has number `i`. -/
def objLoop (G : Collaborators) (ilh : ℚ) (env : CancelEnv) :
    Nat → List SLAPrintObject → Shared → Outcome × Shared × List SLAPrintObject
  | _, [], sh => (Outcome.ok, sh, [])
  | i, po :: rest, sh =>
    match objSteps G ilh env i objectsteps sh po with
    | (Outcome.ok, sh1, po1) =>
      match objLoop G ilh env (i + 1) rest sh1 with
      | (o, sh2, rest1) => (o, sh2, po1 :: rest1)
    | (o, sh1, po1) => (o, sh1, po1 :: rest)

/-! ## Layer aggregator and rasterizer -/

/-- Modelled from the spec: macro `scale_(val)` of `libslic3r.h` (outside
`src/`): a physical length in units of the scaled integer grid, that is
`val / SCALING_FACTOR`. -/
def scale_ (SCALING_FACTOR : ℚ) (val : ℚ) : ℚ := val / SCALING_FACTOR

/-- Conversion `static_cast<long long>(x)`: truncation toward zero.  The range
of `long long` is not modelled: the scaled heights of a build volume are far
inside it. -/
def toLongLong (x : ℚ) : Int := if 0 ≤ x then ⌊x⌋ else ⌈x⌉

/-- Height key `lyridx = static_cast<long long>(scale_(h))` (lines 241, 251). -/
def lyridx (SCALING_FACTOR : ℚ) (h : ℚ) : Int := toLongLong (scale_ SCALING_FACTOR h)

/-- Record `LayerRef` (lines 221-226): a polygon set and the instance list. -/
structure LayerRef where
  lref : ExPolygons
  copies : List Instance
  deriving DecidableEq

/-- The map `std::map<long long, LayerRefs> levels`: buckets in ascending key
order. -/
abbrev Levels := List (Int × List LayerRef)

/-- Statement pair `auto& lyrs = levels[lyridx]; lyrs.emplace_back(...)`
(lines 242-243): the bucket of `k` is created when it is new, and `r` is put at
its end. -/
def levelsEmplace (k : Int) (r : LayerRef) : Levels → Levels
  | [] => [(k, [r])]
  | (k1, b) :: rest =>
    if k < k1 then (k, [r]) :: (k1, b) :: rest
    else if k = k1 then (k1, b ++ [r]) :: rest
    else (k1, b) :: levelsEmplace k r rest

/-- Loop `for(int i = 0; i < slices.size(); ++i)` (lines 239-244 and 249-254)
from index `i` over the slices that remain. -/
def addSlices (SCALING_FACTOR ilh lh : ℚ) (copies : List Instance) :
    Nat → List ExPolygons → Levels → Levels
  | _, [], levels => levels
  | i, sl :: rest, levels =>
    let h := ilh + (i : ℚ) * lh
    let key := lyridx SCALING_FACTOR h
    addSlices SCALING_FACTOR ilh lh copies (i + 1) rest
      (levelsEmplace key { lref := sl, copies := copies } levels)

/-- Body of the loop over print objects in `rasterize` (lines 236-256). -/
def aggregateObject (SCALING_FACTOR ilh : ℚ) (levels : Levels) (o : SLAPrintObject) :
    Levels :=
  let lh := o.m_config.layer_height
  let levels1 := addSlices SCALING_FACTOR ilh lh o.m_instances 0 o.m_model_slices levels
  match o.m_supportdata with
  | some sd => addSlices SCALING_FACTOR ilh lh o.m_instances 0 sd.support_slices levels1
  | none => levels1

/-- The layer aggregator: the map `levels` after the loop over all print
objects (lines 231-276). -/
def aggregate (SCALING_FACTOR ilh : ℚ) (objs : List SLAPrintObject) : Levels :=
  objs.foldl (aggregateObject SCALING_FACTOR ilh) []

/-- Number of (polygon-set, instance-list) entries over all buckets. -/
def Levels.entryCount (levels : Levels) : Nat :=
  (levels.map (fun e => e.2.length)).sum

/-- A polygon as drawn on a canvas: the slice polygon after `translate` by the
shift of the copy and `rotate` by its rotation. -/
structure DrawnPolygon where
  poly : ExPolygon
  shift : Point
  rotation : ℚ
  deriving DecidableEq

/-- One call that the rasterizer makes on a canvas of the raster printer. -/
inductive CanvasCall where
  | begin_layer
  | draw_polygon (d : DrawnPolygon)
  | finish_layer
  deriving DecidableEq

/-- Modelled from the spec: the raster printer `SLAPrinter` (declared outside
`src/`): its construction parameters and one canvas per layer.  A canvas is
the record of the calls made on it, in their order; what a call does to the
pixels of the canvas is not modelled. -/
structure SLAPrinter where
  width : ℚ
  height : ℚ
  pixels_x : Nat
  pixels_y : Nat
  layer_height : ℚ
  exp_time : ℚ
  init_exp_time : ℚ
  layers : List (List CanvasCall)
  deriving DecidableEq

/-- Modelled from the spec: call `printer.begin_layer(level_id)` of the raster
printer (declared outside `src/`), recorded on canvas `level_id`. -/
def SLAPrinter.begin_layer (printer : SLAPrinter) (level_id : Nat) : SLAPrinter :=
  { printer with
    layers := printer.layers.modify (fun c => c ++ [CanvasCall.begin_layer]) level_id }

/-- Modelled from the spec: call `printer.draw_polygon(slice, level_id)` of the
raster printer (declared outside `src/`): the polygon is drawn on canvas
`level_id`. -/
def SLAPrinter.draw_polygon (printer : SLAPrinter) (d : DrawnPolygon) (level_id : Nat) :
    SLAPrinter :=
  { printer with
    layers := printer.layers.modify (fun c => c ++ [CanvasCall.draw_polygon d]) level_id }

/-- Modelled from the spec: call `printer.finish_layer(level_id)` of the raster
printer (declared outside `src/`), recorded on canvas `level_id`. -/
def SLAPrinter.finish_layer (printer : SLAPrinter) (level_id : Nat) : SLAPrinter :=
  { printer with
    layers := printer.layers.modify (fun c => c ++ [CanvasCall.finish_layer]) level_id }

/-- The polygons drawn for one entry of a bucket (lines 317-323): for every
copy, every polygon of the slice. -/
def drawnOfLayerRef (lyrref : LayerRef) : List DrawnPolygon :=
  lyrref.copies.flatMap (fun cp =>
    lyrref.lref.map (fun slice => { poly := slice, shift := cp.shift, rotation := cp.rotation }))

/-- Procedure `lvlfn` (lines 305-328): for every entry of bucket
`keys[level_id]` it calls `begin_layer(level_id)`, draws the polygons of the
entry onto canvas `level_id` and calls `finish_layer(level_id)`. -/
def lvlfn (keys : List Int) (levels : Levels) (printer : SLAPrinter) (level_id : Nat) :
    SLAPrinter :=
  let lrange := (levels.lookup (keys.getD level_id 0)).getD []
  lrange.foldl (fun pr lyrref =>
    ((drawnOfLayerRef lyrref).foldl (fun pr1 d => pr1.draw_polygon d level_id)
      (pr.begin_layer level_id)).finish_layer level_id) printer

/-- Material configuration read by `process`. -/
structure SLAMaterialConfig where
  initial_layer_height : ℚ
  exposure_time : ℚ
  initial_exposure_time : ℚ
  deriving DecidableEq

/-- Printer configuration read by `rasterize`. -/
structure SLAPrinterConfig where
  display_width : ℚ
  display_height : ℚ
  display_pixels_x : Int
  display_pixels_y : Int
  deriving DecidableEq

/-- Conversion of an `int` or a `size_t` to `unsigned`. -/
def toUnsigned (n : Int) : Nat := (n % 2 ^ 32).toNat

/-- Lambda `rasterize` (lines 218-335).  `none` is `m_objects.front()` on an
empty collection.  The parallel loop over `level_id` is run in index order. -/
def rasterize (SCALING_FACTOR ilh : ℚ) (objs : List SLAPrintObject)
    (matcfg : SLAMaterialConfig) (printcfg : SLAPrinterConfig) : Option SLAPrinter :=
  let levels := aggregate SCALING_FACTOR ilh objs
  let keys := levels.map (fun e => e.1)
  match objs with
  | [] => none
  | front :: _ =>
    let lvlcnt := toUnsigned levels.length
    let printer : SLAPrinter :=
      { width := printcfg.display_width
        height := printcfg.display_height
        pixels_x := toUnsigned printcfg.display_pixels_x
        pixels_y := toUnsigned printcfg.display_pixels_y
        layer_height := front.m_config.layer_height
        exp_time := matcfg.exposure_time
        init_exp_time := matcfg.initial_exposure_time
        layers := List.replicate lvlcnt [] }
    some ((List.range lvlcnt).foldl (lvlfn keys levels) printer)

/-! ## The print and `process` -/

/-- Class `SLAPrint`: the objects, the print-level statuses and mask, the
raster output handle, the configurations, and the flag and status sink. -/
structure SLAPrint where
  m_objects : List SLAPrintObject
  m_model : Model
  m_state : SLAPrintStep → StepState
  m_stepmask : SLAPrintStep → Bool
  m_printer : Option SLAPrinter
  m_material_config : SLAMaterialConfig
  m_printer_config : SLAPrinterConfig
  shared : Shared

/-- Modelled from the spec: member `is_step_done` of the print (declared
outside `src/`): the print-level stage has reached `Done`. -/
def SLAPrint.is_step_done (p : SLAPrint) (s : SLAPrintStep) : Bool :=
  decide (p.m_state s = StepState.Done)

/-- Modelled from the spec: member `set_started` of the print (declared outside
`src/`): the transition to `Started` on stage entry. -/
def SLAPrint.set_started (p : SLAPrint) (s : SLAPrintStep) : SLAPrint :=
  { p with m_state := fun t => if t = s then StepState.Started else p.m_state t }

/-- Modelled from the spec: member `set_done` of the print (declared outside
`src/`): the transition `Started → Done` "on stage completion without
cancellation".  `canceled` is the cancellation flag at the call: when it is
set, the status is left as it is and the cancellation signal is raised
(`none`). -/
def SLAPrint.set_done (p : SLAPrint) (s : SLAPrintStep) (canceled : Bool) : Option SLAPrint :=
  if canceled then none
  else some { p with m_state := fun t => if t = s then StepState.Done else p.m_state t }

/-- The array `print_program` (lines 359-363); `none` is the invalid access of
`rasterize`. -/
def print_program (G : Collaborators) : SLAPrintStep → SLAPrint → Option SLAPrint
  | slapsRasterize, p =>
    match rasterize G.SCALING_FACTOR p.m_material_config.initial_layer_height
        p.m_objects p.m_material_config p.m_printer_config with
    | none => none
    | some printer => some { p with m_printer := some printer }
  | slapsValidate, p => some p

/-- Body of the print-level driver loop (lines 393-404) for stage `s`. -/
def printIter (G : Collaborators) (ev : CancelEvent) (s : SLAPrintStep) (p : SLAPrint) :
    Outcome × SLAPrint :=
  if p.shared.canceled then (Outcome.canceled, p)  -- throw_if_canceled()
  else if p.m_stepmask s && !p.is_step_done s then
    let sh1 := p.shared.set_status (PRINT_STEP_LEVELS s) (PRINT_STEP_LABELS s)
    let sh2 : Shared := { sh1 with log := sh1.log ++ [Event.printInvoked s] }
    let p1 := { p.set_started s with shared := sh2 }
    match print_program G s p1 with
    | none => (Outcome.noObjects, p1)
    | some p2 =>
      let sh3 := p2.shared.arriveInStage ev
      match p2.set_done s sh3.canceled with
      | none => (Outcome.canceled, { p2 with shared := sh3 })
      | some p3 => (Outcome.ok, { p3 with shared := sh3.arrive ev })
  else (Outcome.ok, { p with shared := p.shared.arrive ev })

/-- Loop `for(size_t s = 0; s < print_program.size(); ++s)` (line 392) over
the print-level stages that remain. -/
def printLoop (G : Collaborators) (env : CancelEnv) :
    List SLAPrintStep → SLAPrint → Outcome × SLAPrint
  | [], p => (Outcome.ok, p)
  | s :: ss, p =>
    match printIter G (env.print s) s p with
    | (Outcome.ok, p1) => printLoop G env ss p1
    | r => r

/-- Method `SLAPrint::process` (lines 117-409): the object loop, the statement
`m_stepmask[slapsRasterize] = false`, the print-level loop and the final status
report. -/
def process (G : Collaborators) (env : CancelEnv) (p : SLAPrint) : Outcome × SLAPrint :=
  let ilh := p.m_material_config.initial_layer_height
  match objLoop G ilh env 0 p.m_objects p.shared with
  | (Outcome.ok, sh, objs) =>
    let p1 : SLAPrint :=
      { p with
        m_objects := objs
        shared := sh
        m_stepmask := fun t => if t = slapsRasterize then false else p.m_stepmask t }
    match printLoop G env printsteps p1 with
    | (Outcome.ok, p2) =>
      (Outcome.ok, { p2 with shared := p2.shared.set_status 100 "Slicing done" })
    | r => r
  | (o, sh, objs) => (o, { p with m_objects := objs, shared := sh })

/-! ## Small-area infill flow compensation: table validation -/

/-- An IEEE-754 binary64 value as far as comparison and `std::nextafter` see
it.  A value that is not NaN is given by its signed ordinal: the 63-bit
magnitude pattern of its encoding, negated when the sign bit is set, so that
both zeros have ordinal 0, the smallest subnormal has ordinal 1, 1.0 has
ordinal `0x3FF0000000000000` and infinity `0x7FF0000000000000`.  The order of
the values is the order of the ordinals, and the neighbouring values are the
neighbouring ordinals. -/
inductive Double where
  | nan
  | ofOrd (n : Int)
  deriving DecidableEq

/-- Ordinal of positive infinity. -/
def Double.infOrd : Int := 0x7FF0000000000000

/-- Constant `std::numeric_limits<double>::max()`. -/
def Double.max : Double := Double.ofOrd (Double.infOrd - 1)

/-- Constant `std::numeric_limits<double>::lowest()`. -/
def Double.lowest : Double := Double.ofOrd (-(Double.infOrd - 1))

/-- The literal `0.0`. -/
def Double.zero : Double := Double.ofOrd 0

/-- The literal `1.0`. -/
def Double.one : Double := Double.ofOrd 0x3FF0000000000000

/-- Comparison `a <= b` of doubles; false when an operand is NaN. -/
def Double.le : Double → Double → Bool
  | Double.ofOrd a, Double.ofOrd b => decide (a ≤ b)
  | _, _ => false

/-- Comparison `a >= b` of doubles; false when an operand is NaN. -/
def Double.ge (a b : Double) : Bool := Double.le b a

/-- Comparison `a == b` of doubles; false when an operand is NaN. -/
def Double.eq : Double → Double → Bool
  | Double.ofOrd a, Double.ofOrd b => decide (a = b)
  | _, _ => false

/-- Function `std::nextafter(x, y)`: NaN when an operand is NaN, `y` when the
two are equal, otherwise the neighbour of `x` in the direction of `y`. -/
def Double.nextafter : Double → Double → Double
  | Double.ofOrd a, Double.ofOrd b =>
    if a = b then Double.ofOrd b
    else if a < b then Double.ofOrd (a + 1)
    else Double.ofOrd (a - 1)
  | _, _ => Double.nan

/-- The rational value of a finite double given by its ordinal. -/
def Double.toRat : Double → Option ℚ
  | Double.nan => none
  | Double.ofOrd n =>
    let m : Nat := n.natAbs
    if 0x7FF0000000000000 ≤ m then none
    else
      let e : Nat := m / 2 ^ 52
      let f : Nat := m % 2 ^ 52
      let v : ℚ := if e = 0 then (f : ℚ) / 2 ^ 1074
        else ((2 ^ 52 + f : Nat) : ℚ) * 2 ^ e / 2 ^ 1075
      some (if n < 0 then -v else v)

/-- Function `nearly_equal_floating_point` (lines 7-10). -/
def nearly_equal_floating_point (a b : Double) : Bool :=
  Double.le (Double.nextafter a Double.lowest) b &&
    Double.ge (Double.nextafter a Double.max) b

/-- The two tables of class `SmallAreaInfillFlowCompensator`. -/
structure SmallAreaInfillFlowCompensator where
  extrusionLengths : List Double
  flowCompensationFactors : List Double
  deriving DecidableEq

/-- Loop `for (int i = 1; i < extrusionLengths.size(); i++)` of
`check_model_parameter_correctness` (lines 35-45): `prev` is
`extrusionLengths[i - 1]` and the list holds the lengths from index `i` on. -/
def checkLengthsLoop : Double → List Double → Except String Unit
  | _, [] => Except.ok ()
  | prev, len :: rest =>
    if nearly_equal_floating_point len Double.zero then
      Except.error ("Only the first extrusion length for small area " ++
        "infill compensation model can be 0")
    else if Double.le len prev then
      Except.error "Extrusion lengths for subsequent points must be in increasing order"
    else checkLengthsLoop len rest

/-- Method `check_model_parameter_correctness` (lines 12-52); an error is the
message of the `InvalidArgument` that is thrown. -/
def SmallAreaInfillFlowCompensator.check_model_parameter_correctness
    (c : SmallAreaInfillFlowCompensator) : Except String Unit :=
  match c.extrusionLengths, c.flowCompensationFactors with
  | [], _ =>
    Except.error
      "Small area infill compensation model is misconfigured: no lengths have been set"
  | _ :: _, [] =>
    Except.error ("Small area infill compensation model is misconfigured: " ++
      "no compensation factors have been set")
  | len0 :: lens, f0 :: fs =>
    if (len0 :: lens).length ≠ (f0 :: fs).length then
      Except.error ("Small area infill compensation model is misconfigured: " ++
        "Different size of lengths and compensation factors")
    else if !nearly_equal_floating_point len0 Double.zero then
      Except.error "First extrusion length for small area infill compensation model must be 0"
    else
      match checkLengthsLoop len0 lens with
      | Except.error msg => Except.error msg
      | Except.ok _ =>
        if !nearly_equal_floating_point ((f0 :: fs).getLast (List.cons_ne_nil f0 fs))
            Double.one then
          Except.error ("Final compensation factor for small area infill flow " ++
            "compensation model must be 1.0")
        else Except.ok ()

/-- The table validation accepts: it returns without throwing. -/
def SmallAreaInfillFlowCompensator.accepted (c : SmallAreaInfillFlowCompensator) : Bool :=
  match c.check_model_parameter_correctness with
  | Except.ok _ => true
  | Except.error _ => false

/-- The double literal `0.5`. -/
def Double.half : Double := Double.ofOrd 0x3FE0000000000000

/-- The double literal `2.0`. -/
def Double.two : Double := Double.ofOrd 0x4000000000000000

/-- The double nearest to `0.9`. -/
def Double.ninetenths : Double := Double.ofOrd 0x3FECCCCCCCCCCCCD

/-- The table made of the given (length, factor) points. -/
def tableOf (pts : List (Double × Double)) : SmallAreaInfillFlowCompensator :=
  { extrusionLengths := pts.map (fun q => q.1)
    flowCompensationFactors := pts.map (fun q => q.2) }

/-! ## Sample inputs -/

/-- Sample collaborators: one polygon per sampled height, a constant tree. -/
def sampleGeometry : Collaborators :=
  { SCALING_FACTOR := 1 / 1000000
    slice := fun _ heights => heights.map (fun _ => [1])
    to_eigenmesh := fun _ => 0
    support_points := fun mo => mo.sla_support_points
    new_support_tree := fun _ _ => 7
    add_pad := fun tree _ _ _ _ => tree + 1
    slice_tree := fun _ _ _ => [[2]] }

/-- Sample object configuration: layer height 1. -/
def sampleConfig : SLAPrintObjectConfig :=
  { layer_height := 1
    pad_wall_thickness := 2
    pad_wall_height := 5
    pad_max_merge_distance := 50
    pad_edge_radius := 1 }

/-- A freshly created print object (all stages pending, all mask bits on, as
the constructor of `SLAPrintObject` leaves it) for a mesh of height 1/2 with
the given support point hints. -/
def freshObject (pts : List Nat) : SLAPrintObject :=
  { m_model_object :=
      { raw_mesh := { id := 0, bb_min_z := 0, bb_max_z := 1 / 2 }
        sla_support_points := pts
        instances := [] }
    m_config := sampleConfig
    m_state := fun _ => StepState.Pending
    m_stepmask := fun _ => true
    m_model_slices := []
    m_supportdata := none
    m_instances := [] }

/-- A print holding the given objects, nothing done, both print-level mask
bits on, the flag clear. -/
def freshPrint (objs : List SLAPrintObject) : SLAPrint :=
  { m_objects := objs
    m_model := { objects := objs.map (fun o => o.m_model_object) }
    m_state := fun _ => StepState.Pending
    m_stepmask := fun _ => true
    m_printer := none
    m_material_config :=
      { initial_layer_height := 0, exposure_time := 8, initial_exposure_time := 15 }
    m_printer_config :=
      { display_width := 150, display_height := 100
        display_pixels_x := 2000, display_pixels_y := 1000 }
    shared := { canceled := false, log := [] } }

/-- The environment in which no cancel request arrives. -/
def quietEnv : CancelEnv :=
  { obj := fun _ _ => CancelEvent.quiet
    print := fun _ => CancelEvent.quiet }

/-- The environment in which one cancel request arrives while stage `s` of
object `i` runs and is seen by the running algorithm. -/
def cancelDuring (i : Nat) (s : SLAPrintObjectStep) : CancelEnv :=
  { obj := fun j t => if j = i ∧ t = s then CancelEvent.stopSeen else CancelEvent.quiet
    print := fun _ => CancelEvent.quiet }

/-- The environment in which one cancel request arrives after stage `s` of
object `i` has been marked `Done`, before the next checkpoint. -/
def cancelAfter (i : Nat) (s : SLAPrintObjectStep) : CancelEnv :=
  { obj := fun j t => if j = i ∧ t = s then CancelEvent.afterDone else CancelEvent.quiet
    print := fun _ => CancelEvent.quiet }

/-- The environment in which one cancel request arrives while stage `s` of
object `i` runs, after the last poll of the running algorithm. -/
def cancelLate (i : Nat) (s : SLAPrintObjectStep) : CancelEnv :=
  { obj := fun j t => if j = i ∧ t = s then CancelEvent.late else CancelEvent.quiet
    print := fun _ => CancelEvent.quiet }

/-! ## Specification-side predicates and further sample runs -/

/-- Number of contributors of one print object: its model slices, and its
support slices when it has support data. -/
def contributors (o : SLAPrintObject) : Nat :=
  o.m_model_slices.length +
    (match o.m_supportdata with
     | some sd => sd.support_slices.length
     | none => 0)

/-- Comparison `a < b` of doubles; false when an operand is NaN. -/
def Double.lt : Double → Double → Bool
  | Double.ofOrd a, Double.ofOrd b => decide (a < b)
  | _, _ => false

/-- The two doubles are numbers and are equal or neighbours: they are at most
one unit in the last place apart. -/
def Double.withinOneUlp : Double → Double → Bool
  | Double.ofOrd a, Double.ofOrd b => decide (a - 1 ≤ b ∧ b ≤ a + 1)
  | _, _ => false

/-- The acceptance condition in the words of the specification: both lists
non-empty and of equal size, the first length zero, every later length
non-zero and strictly greater than its predecessor, the last factor 1.0. -/
def claimedAcceptance (c : SmallAreaInfillFlowCompensator) : Prop :=
  c.extrusionLengths ≠ [] ∧ c.flowCompensationFactors ≠ [] ∧
  c.extrusionLengths.length = c.flowCompensationFactors.length ∧
  (∃ len0, c.extrusionLengths.head? = some len0 ∧ Double.eq len0 Double.zero = true) ∧
  List.Chain' (fun prev len => Double.eq len Double.zero = false ∧ Double.lt prev len = true)
    c.extrusionLengths ∧
  (∃ f, c.flowCompensationFactors.getLast? = some f ∧ Double.eq f Double.one = true)

/-- The acceptance condition with the tolerance of the code: zero and 1.0 are
met up to one unit in the last place, and a later length passes when it is not
within one unit in the last place of zero and the comparison `<=` with its
predecessor is false. -/
def toleratedAcceptance (c : SmallAreaInfillFlowCompensator) : Prop :=
  c.extrusionLengths ≠ [] ∧ c.flowCompensationFactors ≠ [] ∧
  c.extrusionLengths.length = c.flowCompensationFactors.length ∧
  (∃ len0, c.extrusionLengths.head? = some len0 ∧
    Double.withinOneUlp len0 Double.zero = true) ∧
  List.Chain' (fun prev len =>
      Double.withinOneUlp len Double.zero = false ∧ Double.le len prev = false)
    c.extrusionLengths ∧
  (∃ f, c.flowCompensationFactors.getLast? = some f ∧
    Double.withinOneUlp f Double.one = true)

/-- The double that follows `1.0`: `1.0000000000000002`. -/
def Double.oneNext : Double := Double.ofOrd 0x3FF0000000000001

/-- The sample print with one object that carries a support point hint. -/
def samplePrint : SLAPrint := freshPrint [freshObject [3]]

/-- The state of the sample run, with a cancel request that arrives after the
build-support-tree stage has been marked, when the driver arrives at the
checkpoint of the add-pad stage: the first four stages of object 0 have been
passed. -/
def sampleArrival : Outcome × Shared × SLAPrintObject :=
  objSteps sampleGeometry 0 (cancelAfter 0 slaposSupportTree) 0
    [slaposObjectSlice, slaposSupportIslands, slaposSupportPoints, slaposSupportTree]
    samplePrint.shared (freshObject [3])

/-- The environment in which one cancel request arrives in the window of the
print-level rasterize stage. -/
def cancelAtRasterize : CancelEnv :=
  { obj := fun _ _ => CancelEvent.quiet
    print := fun s => if s = slapsRasterize then CancelEvent.late else CancelEvent.quiet }

/-- The object loop of the sample run in which no cancel request arrives
before the print-level stages. -/
def sampleObjects : Outcome × Shared × List SLAPrintObject :=
  objLoop sampleGeometry 0 cancelAtRasterize 0 samplePrint.m_objects samplePrint.shared

/-- The state of that run when the driver arrives at the checkpoint of the
validate stage. -/
def sampleValidateArrival : Outcome × SLAPrint :=
  printLoop sampleGeometry cancelAtRasterize [slapsRasterize]
    { samplePrint with
      m_objects := sampleObjects.2.2
      shared := sampleObjects.2.1
      m_stepmask := fun t => if t = slapsRasterize then false else samplePrint.m_stepmask t }

/-- Stage `s` of the object asks for no work: the test
`po->m_stepmask[s] && !po->is_step_done(currentstep)` of the driver is false. -/
def SLAPrintObject.settled (po : SLAPrintObject) (s : SLAPrintObjectStep) : Prop :=
  (po.m_stepmask s && !po.is_step_done s) = false

/-- Print-level stage `s` asks for no work: the test
`m_stepmask[s] && !is_step_done(currentstep)` of the driver is false. -/
def SLAPrint.settled (p : SLAPrint) (s : SLAPrintStep) : Prop :=
  (p.m_stepmask s && !p.is_step_done s) = false

/-- The record `after` is the record `before` followed by events none of which
is an invocation of the rasterize stage function. -/
def logAdds (before after : List Event) : Prop :=
  ∃ added, after = before ++ added ∧ Event.printInvoked slapsRasterize ∉ added

/-- The sample run in which no cancel request arrives. -/
def sampleFirstRun : Outcome × SLAPrint := process sampleGeometry quietEnv samplePrint

/-- The sample run in which a cancel request arrives while the support tree of
object 0 is built and the support algorithm sees it at a poll. -/
def sampleCanceledRun : Outcome × SLAPrint :=
  process sampleGeometry (cancelDuring 0 slaposSupportTree) samplePrint

/-- The call that follows `sampleCanceledRun`: the flag has been cleared and
no cancel request arrives. -/
def sampleRetry : Outcome × SLAPrint :=
  process sampleGeometry quietEnv
    { sampleCanceledRun.2 with shared := { canceled := false, log := [] } }

/-- The run of a print whose only object carries no support point hint. -/
def sampleNoSupportRun : Outcome × SLAPrint :=
  process sampleGeometry quietEnv (freshPrint [freshObject []])

/-! ## Sub-progress of the support tree stage -/

/-- The percentage `unsigned(stinit + st*d)` that lambda `ctl.statuscb`
(lines 172-176) computes from the sub-progress `st`: `stinit` is the level of
the build-support-tree stage and `d` the hundredth of the distance, taken in
`unsigned`, to the level of the add-pad stage. -/
def rescaled_status (st : Nat) : Nat :=
  let stinit : Nat := OBJ_STEP_LEVELS slaposSupportTree
  let d : ℚ := (toUnsigned ((OBJ_STEP_LEVELS slaposBasePool : Int) - (stinit : Int)) : ℚ) / 100
  toUnsigned (toLongLong ((stinit : ℚ) + (st : ℚ) * d))

/-- Lambda `ctl.statuscb` (lines 172-176): the rescaled percentage and the
message go to the status sink. -/
def statuscb (st : Nat) (msg : String) (sh : Shared) : Shared :=
  sh.set_status (rescaled_status st) msg

/-! ## Small-area infill flow compensation: the flow model -/

/-- Modelled from the spec: the extrusion roles `ExtrusionRole` (declared
outside `src/`): the two solid-infill roles and roles that are not subject to
compensation. -/
inductive ExtrusionRole where
  | erNone
  | erPerimeter
  | erExternalPerimeter
  | erInternalInfill
  | erSolidInfill
  | erTopSolidInfill
  | erBridgeInfill
  | erGapFill
  | erSkirt
  | erSupportMaterial
  deriving DecidableEq

/-- Comparison `a > b` of doubles; false when an operand is NaN. -/
def Double.gt (a b : Double) : Bool := Double.lt b a

/-- The double is a number: it is not NaN. -/
def Double.isNumber : Double → Bool
  | Double.nan => false
  | Double.ofOrd _ => true

/-- The value of a double in the exact arithmetic of the flow model: its
rational value when it is finite.  Arithmetic on NaN and on the infinities is
not modelled; they are given the value 0. -/
def Double.value (x : Double) : ℚ := (Double.toRat x).getD 0

/-- Modelled from the spec: the interpolation model `tk::spline`
(`spline/spline.h`, outside `src/`) set to the given table points: the factor
interpolated between the two neighbouring points of the table, the first and
the last segment being continued outside the table. -/
def interpolated_factor : List (ℚ × ℚ) → ℚ → ℚ
  | [], _ => 0
  | [(_, y0)], _ => y0
  | (x0, y0) :: (x1, y1) :: rest, x =>
    if x ≤ x1 ∨ rest = [] then y0 + (y1 - y0) * (x - x0) / (x1 - x0)
    else interpolated_factor ((x1, y1) :: rest) x

/-- Method `max_modified_length` (header line 24): `extrusionLengths.back()`;
`none` is `back()` on an empty vector. -/
def SmallAreaInfillFlowCompensator.max_modified_length
    (c : SmallAreaInfillFlowCompensator) : Option Double :=
  c.extrusionLengths.getLast?

/-- Member `flowModel` after the call
`flowModel.set_points(extrusionLengths, flowCompensationFactors)` of the
constructor (line 82), applied to a length. -/
def SmallAreaInfillFlowCompensator.flowModel (c : SmallAreaInfillFlowCompensator)
    (x : Double) : ℚ :=
  interpolated_factor
    (List.zip (c.extrusionLengths.map Double.value) (c.flowCompensationFactors.map Double.value))
    x.value

/-- Method `flow_comp_model` (lines 85-91) with the interpolation model `M` in
the place of `flowModel`. -/
def SmallAreaInfillFlowCompensator.flow_comp_model_with (c : SmallAreaInfillFlowCompensator)
    (M : Double → ℚ) (line_length : Double) : Option ℚ :=
  match c.max_modified_length with
  | none => none
  | some m =>
    if Double.eq line_length Double.zero || Double.gt line_length m then some 1
    else some (M line_length)

/-- Method `flow_comp_model` (lines 85-91). -/
def SmallAreaInfillFlowCompensator.flow_comp_model (c : SmallAreaInfillFlowCompensator)
    (line_length : Double) : Option ℚ :=
  c.flow_comp_model_with c.flowModel line_length

/-- Method `modify_flow` (lines 93-101); `dE` and the result are exact
rationals. -/
def SmallAreaInfillFlowCompensator.modify_flow (c : SmallAreaInfillFlowCompensator)
    (line_length : Double) (dE : ℚ) (role : ExtrusionRole) : Option ℚ :=
  if role = ExtrusionRole.erSolidInfill ∨ role = ExtrusionRole.erTopSolidInfill then
    (c.flow_comp_model line_length).map (fun factor => dE * factor)
  else some dE

/-- The double literal `2.5`. -/
def Double.twoAndHalf : Double := Double.ofOrd 0x4004000000000000

/-- The double literal `5.0`. -/
def Double.five : Double := Double.ofOrd 0x4014000000000000

/-- The double literal `10.0`. -/
def Double.ten : Double := Double.ofOrd 0x4024000000000000

/-- The double that precedes `1.0`: `0.9999999999999999`. -/
def Double.onePrev : Double := Double.ofOrd 0x3FEFFFFFFFFFFFFF

/-- The negative double next to zero, `-4.9e-324`. -/
def Double.negDenormMin : Double := Double.ofOrd (-1)

/-- The curve [(0, 0.5), (5, 1.0)]. -/
def sampleCurve : SmallAreaInfillFlowCompensator :=
  tableOf [(Double.zero, Double.half), (Double.five, Double.one)]

/-- The claimed monotonicity of the factors: every factor is at least its
predecessor. -/
def factorsNonDecreasing (c : SmallAreaInfillFlowCompensator) : Prop :=
  List.Chain' (fun prev f => Double.le prev f = true) c.flowCompensationFactors

/-- The lengths are strictly increasing. -/
def lengthsIncreasing (c : SmallAreaInfillFlowCompensator) : Prop :=
  List.Chain' (fun prev len => Double.lt prev len = true) c.extrusionLengths

/-- The rational value of the finite non-negative double of ordinal `m`. -/
def Double.magValue (m : Nat) : ℚ :=
  if m / 2 ^ 52 = 0 then ((m % 2 ^ 52 : Nat) : ℚ) / 2 ^ 1074
  else ((2 ^ 52 + m % 2 ^ 52 : Nat) : ℚ) * 2 ^ (m / 2 ^ 52) / 2 ^ 1075

/-! ## Applying a model -/

/-- Result type `SLAPrint::ApplyStatus`. -/
inductive ApplyStatus where
  | APPLY_STATUS_UNCHANGED
  | APPLY_STATUS_INVALIDATED
  deriving DecidableEq

/-- Modelled from the spec: the configuration `DynamicPrintConfig` (declared
outside `src/`) as far as `apply` reads it after `normalize()`: the value of
its option `layer_height`. -/
structure DynamicPrintConfig where
  layer_height : ℚ
  deriving DecidableEq

/-- Constructor `SLAPrintObject(print, model_object)` (lines 411-417): the
model object is attached and every mask bit is on.  Modelled from the spec for
the members that the base class initialises (declared outside `src/`): every
stage is `Pending`, there are no slices, no support data and no instances, and
the configuration holds the default values `defaults`. -/
def SLAPrintObject.new (defaults : SLAPrintObjectConfig) (model_object : ModelObject) :
    SLAPrintObject :=
  { m_model_object := model_object
    m_config := defaults
    m_state := fun _ => StepState.Pending
    m_stepmask := fun _ => true
    m_model_slices := []
    m_supportdata := none
    m_instances := [] }

/-- Modelled from the spec: function `Point::new_scale(x, y)` (declared outside
`src/`): the point of the scaled integer grid for the physical position. -/
def Point.new_scale (SCALING_FACTOR x y : ℚ) : Point :=
  { x := toLongLong (scale_ SCALING_FACTOR x), y := toLongLong (scale_ SCALING_FACTOR y) }

/-- Body of the loop `for (ModelObject *model_object : m_model.objects)` of
`apply` (lines 101-111): the new print object of one model object. -/
def applyObject (SCALING_FACTOR : ℚ) (defaults : SLAPrintObjectConfig) (lh : ℚ)
    (model_object : ModelObject) : SLAPrintObject :=
  let po := SLAPrintObject.new defaults model_object
  let po1 : SLAPrintObject := { po with m_config := { po.m_config with layer_height := lh } }
  { po1 with
    m_instances := po1.m_instances ++ model_object.instances.map (fun oinst =>
      { instance_id := oinst.id
        shift := Point.new_scale SCALING_FACTOR oinst.offset_x oinst.offset_y
        rotation := oinst.rotation_z }) }

/-- Method `SLAPrint::apply` (lines 72-115).  The calls `invalidate_all_steps()`
(declared outside `src/`) are modelled from the spec: every status goes back to
`Pending`. -/
def apply (G : Collaborators) (defaults : SLAPrintObjectConfig) (p : SLAPrint) (model : Model)
    (config_in : DynamicPrintConfig) : ApplyStatus × SLAPrint :=
  if p.m_objects.isEmpty && model.objects.isEmpty then
    (ApplyStatus.APPLY_STATUS_UNCHANGED, p)
  else
    let lh := config_in.layer_height
    (ApplyStatus.APPLY_STATUS_INVALIDATED,
      { p with
        m_objects := model.objects.map (applyObject G.SCALING_FACTOR defaults lh)
        m_state := fun _ => StepState.Pending
        m_model := model })

/-- A sample model: one object with two instances and one without instance. -/
def sampleModel : Model :=
  { objects :=
      [ { raw_mesh := { id := 1, bb_min_z := 0, bb_max_z := 10 }
          sla_support_points := [4]
          instances :=
            [ { id := 11, offset_x := 3, offset_y := 4, rotation_z := 0 },
              { id := 12, offset_x := 30, offset_y := 4, rotation_z := 1 } ] },
        { raw_mesh := { id := 2, bb_min_z := 0, bb_max_z := 5 }
          sla_support_points := []
          instances := [] } ] }

/-! ## Masked stages -/

/-- The record `after` is the record `before` followed by events none of which
is the event `e`. -/
def logAvoids (e : Event) (before after : List Event) : Prop :=
  ∃ added, after = before ++ added ∧ e ∉ added

/-- The object `po1` has the step mask of `po` and the status of `po` at every
stage whose mask bit is off. -/
def maskFrame (po po1 : SLAPrintObject) : Prop :=
  po1.m_stepmask = po.m_stepmask ∧ ∀ s, po.m_stepmask s = false → po1.m_state s = po.m_state s

/-- The sample object with the mask bit of the support-islands stage off. -/
def maskedObject : SLAPrintObject :=
  { freshObject [3] with m_stepmask := fun t => decide (t ≠ slaposSupportIslands) }

/-! ## Buckets and canvases -/

/-- The key list `keys` that `rasterize` collects from the map (lines 279-280). -/
def Levels.keys (levels : Levels) : List Int := levels.map (fun e => e.1)

/-- The calls that the rasterizer makes for one entry of a bucket:
`begin_layer`, one `draw_polygon` per polygon and copy, `finish_layer`. -/
def callsOfLayerRef (lyrref : LayerRef) : List CanvasCall :=
  [CanvasCall.begin_layer] ++ (drawnOfLayerRef lyrref).map CanvasCall.draw_polygon
    ++ [CanvasCall.finish_layer]

/-- The calls that the entries of one bucket put on a canvas, in their order. -/
def callsOfBucket (bucket : List LayerRef) : List CanvasCall :=
  bucket.flatMap callsOfLayerRef

/-- Modelled from the spec: the option `small_area_infill_flow_compensation_model`
of the print configuration, a list of comma-separated `(length, factor)` text
records (`values`). -/
structure ConfigOptionStrings where
  values : List String
  deriving DecidableEq

/-- Modelled from the spec: the part of `FullPrintConfig` that the flow
compensator reads. -/
structure FullPrintConfig where
  small_area_infill_flow_compensation_model : ConfigOptionStrings
  deriving DecidableEq

/-- State of a `std::istringstream`: the characters not yet extracted and the
state flags `eofbit` and `failbit`. -/
structure IStringStream where
  buf : List Char
  eofbit : Bool
  failbit : Bool
  deriving DecidableEq

/-- Constructor `std::istringstream iss(line)` (line 56). -/
def IStringStream.new (line : String) : IStringStream :=
  { buf := line.toList, eofbit := false, failbit := false }

/-- Conversion of a stream to `bool`: `!fail()`. -/
def IStringStream.toBool (iss : IStringStream) : Bool := !iss.failbit

/-- The characters before the first `delim`, and the characters after it;
`none` when the list has no `delim`. -/
def splitAtDelim (delim : Char) : List Char → List Char × Option (List Char)
  | [] => ([], none)
  | ch :: rest =>
    if ch = delim then ([], some rest)
    else
      let r := splitAtDelim delim rest
      (ch :: r.1, r.2)

/-- Function `std::getline(iss, str, delim)`: the stream after the call and
the new content of `str`.  On a stream that is not good nothing is extracted,
`failbit` is set and `str` is left as it was.  Otherwise `str` is erased and
characters are extracted up to and including the first `delim`, which is not
stored; when the end of the buffer is met first, `eofbit` is set, and
`failbit` too when no character at all was extracted. -/
def getline (iss : IStringStream) (str : String) (delim : Char) : IStringStream × String :=
  if iss.eofbit || iss.failbit then ({ iss with failbit := true }, str)
  else
    match splitAtDelim delim iss.buf with
    | (field, some rest) => ({ buf := rest, eofbit := false, failbit := false }, String.mk field)
    | (field, none) => ({ buf := [], eofbit := true, failbit := field.isEmpty }, String.mk field)

/-- Message of the `InvalidArgument` thrown by the handler `catch (...)` of
`read_config_parameters` (lines 68-72). -/
def parseErrorMessage (line : String) : String :=
  "Error parsing data point in small area infill compensation model:" ++ line ++ "\n"

/-- Body of the loop of `read_config_parameters` for one record (lines 56-74).
`stod` stands for `std::stod`, `none` being a thrown exception.  The result is
the outcome (an error is the message of the `InvalidArgument` that is thrown)
together with the tables as the iteration leaves them: the length is pushed
before `std::stod` is called on the second field. -/
def readRecord (stod : String → Option Double) (c : SmallAreaInfillFlowCompensator)
    (line : String) : Except String Unit × SmallAreaInfillFlowCompensator :=
  let iss := IStringStream.new line
  let value_str := ""
  let g1 := getline iss value_str ','
  if g1.1.toBool then
    match stod g1.2 with
    | none => (Except.error (parseErrorMessage line), c)
    | some extrusion_length =>
      let g2 := getline g1.1 g1.2 ','
      if g2.1.toBool then
        let c1 : SmallAreaInfillFlowCompensator :=
          { c with extrusionLengths := c.extrusionLengths ++ [extrusion_length] }
        match stod g2.2 with
        | none => (Except.error (parseErrorMessage line), c1)
        | some factor =>
          (Except.ok (),
            { c1 with flowCompensationFactors := c1.flowCompensationFactors ++ [factor] })
      else (Except.ok (), c)
  else (Except.ok (), c)

/-- Loop `for (auto &line : ...values)` of `read_config_parameters` (line 55):
it stops at the first record that throws. -/
def readRecords (stod : String → Option Double) :
    SmallAreaInfillFlowCompensator → List String →
      Except String Unit × SmallAreaInfillFlowCompensator
  | c, [] => (Except.ok (), c)
  | c, line :: rest =>
    match readRecord stod c line with
    | (Except.ok _, c1) => readRecords stod c1 rest
    | (Except.error msg, c1) => (Except.error msg, c1)

/-- Method `read_config_parameters` (lines 54-76). -/
def SmallAreaInfillFlowCompensator.read_config_parameters (stod : String → Option Double)
    (c : SmallAreaInfillFlowCompensator) (config : FullPrintConfig) :
    Except String Unit × SmallAreaInfillFlowCompensator :=
  readRecords stod c config.small_area_infill_flow_compensation_model.values

/-- A compensator object before its constructor body runs: both vectors are
empty. -/
def SmallAreaInfillFlowCompensator.empty : SmallAreaInfillFlowCompensator :=
  { extrusionLengths := [], flowCompensationFactors := [] }

/-- Constructor `SmallAreaInfillFlowCompensator(config)` (lines 79-83): the
constructed object, or the message of the exception that leaves the
constructor.  The member `flowModel` is a function of the two tables. -/
def SmallAreaInfillFlowCompensator.new (stod : String → Option Double)
    (config : FullPrintConfig) : Except String SmallAreaInfillFlowCompensator :=
  match SmallAreaInfillFlowCompensator.empty.read_config_parameters stod config with
  | (Except.error msg, _) => Except.error msg
  | (Except.ok _, c) =>
    match c.check_model_parameter_correctness with
    | Except.error msg => Except.error msg
    | Except.ok _ => Except.ok c

/-- The record has a comma-separated second field, in the words of the
specification: there is a comma in it and at least one character follows the
first comma. -/
def hasSecondField (line : String) : Bool :=
  match line.toList.dropWhile (fun ch => ch ≠ ',') with
  | _ :: _ :: _ => true
  | _ => false

/-- A stand-in for `std::stod` that knows the numerals of the sample records
and throws on every other string. -/
def sampleStod (s : String) : Option Double :=
  if s = "0" then some Double.zero
  else if s = "0.5" then some Double.half
  else if s = "1.0" then some Double.one
  else if s = "5" then some Double.five
  else if s = "10" then some Double.ten
  else none

/-- Sample records: the curve `[(0, 0.5), (5, 1.0)]`, an empty record and a
record without a second field. -/
def sampleFlowConfig : FullPrintConfig :=
  { small_area_infill_flow_compensation_model := { values := ["0,0.5", "", "5,1.0", "10"] } }

/-- Sample records of which the second has a second field that is not a
number. -/
def sampleBadFlowConfig : FullPrintConfig :=
  { small_area_infill_flow_compensation_model := { values := ["0,0.5", "5,x"] } }

/-- The state of the sample run, with a cancel request seen by the support
algorithm, when the driver arrives at the checkpoint of the build-support-tree
stage: the first three stages of object 0 have been passed. -/
def sampleTreeArrival : Outcome × Shared × SLAPrintObject :=
  objSteps sampleGeometry 0 (cancelDuring 0 slaposSupportTree) 0
    [slaposObjectSlice, slaposSupportIslands, slaposSupportPoints]
    samplePrint.shared (freshObject [3])

/-- The object of the sample run in which a cancel request arrived after the
last poll of the support algorithm: the tree is built, `set_done` raised the
cancellation signal and the build-support-tree stage is `Started`.  Afterwards
the mask bit of that stage has been switched off. -/
def maskedTreeObject : SLAPrintObject :=
  match (process sampleGeometry (cancelLate 0 slaposSupportTree) samplePrint).2.m_objects with
  | o :: _ => { o with m_stepmask := fun t => decide (t ≠ slaposSupportTree) }
  | [] => freshObject [3]

/-- The object `maskedTreeObject` with the build-support-tree stage `Done`. -/
def doneTreeObject : SLAPrintObject :=
  { maskedTreeObject with
    m_state := fun t =>
      if t = slaposSupportTree then StepState.Done else maskedTreeObject.m_state t }

/-- The entries of all buckets, each with the key of its bucket. -/
def Levels.keyedEntries (levels : Levels) : List (Int × LayerRef) :=
  levels.flatMap (fun e => e.2.map (fun r => (e.1, r)))

/-- The contributors of a slice list in the words of the specification: for
every slice index `i`, counted from `start`, the slice together with the
instance list, under the key of the height `initial_height + i * layer_height`. -/
def keyedSlices (SCALING_FACTOR ilh lh : ℚ) (copies : List Instance) (start : Nat)
    (slices : List ExPolygons) : List (Int × LayerRef) :=
  (slices.enumFrom start).map (fun q =>
    (lyridx SCALING_FACTOR (ilh + (q.1 : ℚ) * lh), { lref := q.2, copies := copies }))

/-- The contributors of one print object in the words of the specification:
its model slices and, when it has support data, its support slices. -/
def keyedContributors (SCALING_FACTOR ilh : ℚ) (o : SLAPrintObject) : List (Int × LayerRef) :=
  keyedSlices SCALING_FACTOR ilh o.m_config.layer_height o.m_instances 0 o.m_model_slices ++
    (match o.m_supportdata with
     | some sd =>
       keyedSlices SCALING_FACTOR ilh o.m_config.layer_height o.m_instances 0 sd.support_slices
     | none => [])

/-! ## Binary64 arithmetic: rounding to nearest -/

/-- Bisection for `Double.ordFloor`: the greatest ordinal `m` with
`n ≤ m < n + 2 ^ k` whose value is at most `q`, when the value of `n` is. -/
def Double.ordFloorAux (q : ℚ) : Nat → Nat → Nat
  | 0, n => n
  | k + 1, n =>
    if Double.magValue (n + 2 ^ k) ≤ q then Double.ordFloorAux q k (n + 2 ^ k)
    else Double.ordFloorAux q k n

/-- The greatest ordinal below 2^63 whose value is at most the non-negative
rational `q`. -/
def Double.ordFloor (q : ℚ) : Nat := Double.ordFloorAux q 63 0

/-- The ordinal of the double nearest to the non-negative rational `q`, ties
going to the even ordinal (round to nearest, ties to even); the ordinal of
infinity when `q` is beyond the middle between the greatest finite double and
2^1024. -/
def Double.roundMag (q : ℚ) : Nat :=
  let n := Double.ordFloor q
  if 0x7FF0000000000000 ≤ n then 0x7FF0000000000000
  else if q - Double.magValue n < Double.magValue (n + 1) - q then n
  else if Double.magValue (n + 1) - q < q - Double.magValue n then n + 1
  else if n % 2 = 0 then n else n + 1

/-- The double nearest to the rational `q` (round to nearest, ties to even),
an infinity on overflow. -/
def Double.ofRat (q : ℚ) : Double :=
  if 0 ≤ q then Double.ofOrd (Double.roundMag q)
  else Double.ofOrd (-(Double.roundMag (-q) : Int))

/-- The classes of binary64 values: a finite number with its value, an
infinity with its sign, a NaN. -/
inductive Double.Class where
  | number (q : ℚ)
  | infinite (negative : Bool)
  | nan

/-- The class of a double (an ordinal beyond that of infinity is the pattern
of a NaN). -/
def Double.classify (x : Double) : Double.Class :=
  match x.toRat with
  | some q => Double.Class.number q
  | none =>
    if x = Double.ofOrd Double.infOrd then Double.Class.infinite false
    else if x = Double.ofOrd (-Double.infOrd) then Double.Class.infinite true
    else Double.Class.nan

/-- The infinity of the given sign. -/
def Double.infinity (negative : Bool) : Double :=
  if negative then Double.ofOrd (-Double.infOrd) else Double.ofOrd Double.infOrd

/-- Product `a * b` of doubles (IEEE-754, round to nearest, ties to even). -/
def Double.mul (a b : Double) : Double :=
  match a.classify, b.classify with
  | Double.Class.number x, Double.Class.number y => Double.ofRat (x * y)
  | Double.Class.number x, Double.Class.infinite s =>
    if x = 0 then Double.nan else Double.infinity (xor (decide (x < 0)) s)
  | Double.Class.infinite s, Double.Class.number y =>
    if y = 0 then Double.nan else Double.infinity (xor s (decide (y < 0)))
  | Double.Class.infinite s, Double.Class.infinite t => Double.infinity (xor s t)
  | _, _ => Double.nan

/-- Quotient `a / b` of doubles (IEEE-754, round to nearest, ties to even).
The two zeros are one value in this model, so a zero divisor is taken as `+0`. -/
def Double.div (a b : Double) : Double :=
  match a.classify, b.classify with
  | Double.Class.number x, Double.Class.number y =>
    if y = 0 then (if x = 0 then Double.nan else Double.infinity (decide (x < 0)))
    else Double.ofRat (x / y)
  | Double.Class.number _, Double.Class.infinite _ => Double.zero
  | Double.Class.infinite s, Double.Class.number y => Double.infinity (xor s (decide (y < 0)))
  | _, _ => Double.nan

/-- Sum `a + b` of doubles (IEEE-754, round to nearest, ties to even). -/
def Double.add (a b : Double) : Double :=
  match a.classify, b.classify with
  | Double.Class.number x, Double.Class.number y => Double.ofRat (x + y)
  | Double.Class.number _, Double.Class.infinite s => Double.infinity s
  | Double.Class.infinite s, Double.Class.number _ => Double.infinity s
  | Double.Class.infinite s, Double.Class.infinite t =>
    if s = t then Double.infinity s else Double.nan
  | _, _ => Double.nan

/-- Conversion of an `int` to `double`; every `int` is a double. -/
def Double.ofInt (i : Int) : Double := Double.ofRat i

/-- Conversion `static_cast<long long>(x)` of a double: the value truncated
toward zero when that is in the range of `long long`; for a NaN, an infinity
and a truncated value outside the range the behaviour is undefined (`none`). -/
def Double.toLongLong (x : Double) : Option Int :=
  match x.toRat with
  | some q =>
    let t : Int := if 0 ≤ q then ⌊q⌋ else ⌈q⌉
    if -2 ^ 63 ≤ t ∧ t < 2 ^ 63 then some t else none
  | none => none

/-- Modelled from the spec: macro `scale_(val)` of `libslic3r.h` (outside
`src/`) on doubles: the quotient `val / SCALING_FACTOR` in binary64. -/
def Double.scale_ (SCALING_FACTOR val : Double) : Double := Double.div val SCALING_FACTOR

/-- Height key `lyridx = static_cast<long long>(scale_(h))` (lines 241, 251) as
the source computes it: the quotient is taken in binary64 and converted to
`long long`. -/
def Double.lyridx (SCALING_FACTOR h : Double) : Option Int :=
  (Double.scale_ SCALING_FACTOR h).toLongLong

/-- Statement `double h = ilh + i * lh` (lines 240, 250): the height of the
slice of index `i`; `ilh` is the `float` initial layer height, taken as the
double it converts to, `i` the `int` index and `lh` the layer height. -/
def Double.sliceHeight (ilh : Double) (i : Int) (lh : Double) : Double :=
  Double.add ilh (Double.mul (Double.ofInt i) lh)

/-- The double nearest to `0.000001`, the grid unit of the sample inputs. -/
def Double.micro : Double := Double.ofOrd 0x3EB0C6F7A0B5ED8D

/-- The double `9007199254.74101`, a height whose scaled value is just above
2^53. -/
def Double.heightA : Double := Double.ofOrd 0x4200C6F7A0B5ED97

/-- The double that follows `Double.heightA`, `9007199254.741013`. -/
def Double.heightB : Double := Double.ofOrd 0x4200C6F7A0B5ED98

/-- The double `1e13`. -/
def Double.tenTera : Double := Double.ofOrd 0x42A2309CE5400000

/-- The double `2e13`. -/
def Double.twentyTera : Double := Double.ofOrd 0x42B2309CE5400000

/-- The double `9007199232`, which is also a `float`: 8796093 * 2^10. -/
def Double.farInitial : Double := Double.ofOrd 0x4200C6F7A0000000

/-- The double `2^-19`, about 0.0000019. -/
def Double.fineLayer : Double := Double.ofOrd 0x3EC0000000000000

/-- The double literal `29.0`. -/
def Double.twentyNine : Double := Double.ofOrd 0x403D000000000000

/-- The double nearest to `0.01`. -/
def Double.hundredth : Double := Double.ofOrd 0x3F847AE147AE147B

/-- The rational values of a list of doubles; `none` when one of them is not
a finite number. -/
def Double.toRats : List Double → Option (List ℚ)
  | [] => some []
  | x :: xs =>
    match x.toRat, Double.toRats xs with
    | some q, some qs => some (q :: qs)
    | _, _ => none

/-- Modelled from the spec: the interpolation model `tk::spline`
(`spline/spline.h`, outside `src/`) with its `double` result, set to the table
of the compensator and applied to a length: the double nearest to the exactly
interpolated factor `interpolated_factor`; NaN when the length or an entry of
the table is not a finite number. -/
def Double.flowModel (c : SmallAreaInfillFlowCompensator) (x : Double) : Double :=
  match x.toRat, Double.toRats c.extrusionLengths,
      Double.toRats c.flowCompensationFactors with
  | some xq, some ls, some fs => Double.ofRat (interpolated_factor (List.zip ls fs) xq)
  | _, _, _ => Double.nan

/-- Method `flow_comp_model` (lines 85-91) with its `double` result. -/
def Double.flow_comp_model (c : SmallAreaInfillFlowCompensator)
    (line_length : Double) : Option Double :=
  match c.max_modified_length with
  | none => none
  | some m =>
    if Double.eq line_length Double.zero || Double.gt line_length m then some Double.one
    else some (Double.flowModel c line_length)

/-- Method `modify_flow` (lines 93-101) with `double` `dE` and result: the
product `dE * flow_comp_model(line_length)` is taken in binary64. -/
def Double.modify_flow (c : SmallAreaInfillFlowCompensator)
    (line_length dE : Double) (role : ExtrusionRole) : Option Double :=
  if role = ExtrusionRole.erSolidInfill ∨ role = ExtrusionRole.erTopSolidInfill then
    (Double.flow_comp_model c line_length).map (fun factor => Double.mul dE factor)
  else some dE

/-- The double nearest to `1e-17`. -/
def Double.tiny : Double := Double.ofOrd 0x3C670EF54646D497

/-- The double literal `0.75`. -/
def Double.threeQuarters : Double := Double.ofOrd 0x3FE8000000000000

/-! # Properties -/

/-! ## Layer aggregation: completeness -/

theorem levelsEmplace_entryCount (k : Int) (r : LayerRef) (levels : Levels) :
    Levels.entryCount (levelsEmplace k r levels) = Levels.entryCount levels + 1 := by
  induction levels with
  | nil => simp [levelsEmplace, Levels.entryCount]
  | cons e rest ih =>
    obtain ⟨k1, b⟩ := e
    unfold levelsEmplace
    by_cases h1 : k < k1
    · simp [h1, Levels.entryCount]; omega
    · by_cases h2 : k = k1
      · simp [h2, Levels.entryCount]; omega
      · simp only [h1, h2, if_false]
        simp only [Levels.entryCount, List.map_cons, List.sum_cons] at ih ⊢
        omega

theorem addSlices_entryCount (sf ilh lh : ℚ) (copies : List Instance)
    (slices : List ExPolygons) :
    ∀ (i : Nat) (levels : Levels),
      Levels.entryCount (addSlices sf ilh lh copies i slices levels)
        = Levels.entryCount levels + slices.length := by
  induction slices with
  | nil => intro i levels; simp [addSlices]
  | cons sl rest ih =>
    intro i levels
    simp only [addSlices, List.length_cons]
    rw [ih, levelsEmplace_entryCount]
    omega

theorem aggregateObject_entryCount (sf ilh : ℚ) (levels : Levels) (o : SLAPrintObject) :
    Levels.entryCount (aggregateObject sf ilh levels o)
      = Levels.entryCount levels + contributors o := by
  unfold aggregateObject contributors
  cases h : o.m_supportdata with
  | none => simp [addSlices_entryCount]
  | some sd => simp [addSlices_entryCount]; omega

theorem foldl_aggregateObject_entryCount (sf ilh : ℚ) (objs : List SLAPrintObject) :
    ∀ levels : Levels,
      Levels.entryCount (objs.foldl (aggregateObject sf ilh) levels)
        = Levels.entryCount levels + (objs.map contributors).sum := by
  induction objs with
  | nil => intro levels; simp
  | cons o rest ih =>
    intro levels
    simp only [List.foldl_cons, List.map_cons, List.sum_cons]
    rw [ih, aggregateObject_entryCount]
    omega

/-- The buckets built by the layer aggregator hold, in total, one entry per
model slice of every object plus one entry per support slice of every object
that has support data. -/
theorem aggregate_entryCount_complete (SCALING_FACTOR ilh : ℚ) (objs : List SLAPrintObject) :
    Levels.entryCount (aggregate SCALING_FACTOR ilh objs)
      = (objs.map (fun o => o.m_model_slices.length)).sum
        + (objs.map (fun o => match o.m_supportdata with
            | some sd => sd.support_slices.length
            | none => 0)).sum := by
  unfold aggregate
  rw [foldl_aggregateObject_entryCount]
  simp only [Levels.entryCount, List.map_nil, List.sum_nil, Nat.zero_add]
  induction objs with
  | nil => simp
  | cons o rest ih =>
    simp only [List.map_cons, List.sum_cons, ih, contributors]
    omega

/-! ## Height quantization -/

theorem lyridx_of_nonneg (sf h : ℚ) (hsf : 0 < sf) (hh : 0 ≤ h) :
    lyridx sf h = ⌊h / sf⌋ := by
  unfold lyridx toLongLong scale_
  rw [if_pos (div_nonneg hh hsf.le)]

theorem heightsLoop_stable (H lh : ℚ) (hlh : 0 < lh) :
    ∀ (fuel : Nat) (h : ℚ) (acc : List ℚ), (H - h) / lh < fuel →
      ∀ extra : Nat, heightsLoop H lh (fuel + extra) h acc = heightsLoop H lh fuel h acc := by
  intro fuel
  induction fuel with
  | zero =>
    intro h acc hb extra
    have hH : ¬ h < H := by
      intro hlt
      have : 0 < (H - h) / lh := div_pos (by linarith) hlh
      simp at hb
      linarith
    cases extra with
    | zero => rfl
    | succ e => simp [heightsLoop, hH]
  | succ n ih =>
    intro h acc hb extra
    have e1 : n + 1 + extra = (n + extra) + 1 := by omega
    rw [e1]
    simp only [heightsLoop]
    by_cases hlt : h < H
    · simp only [hlt, if_true]
      apply ih
      have : (H - (h + lh)) / lh = (H - h) / lh - 1 := by
        field_simp
        ring
      rw [this]
      push_cast at hb
      linarith
    · simp [hlt]

/-- For a positive layer height the loop of `slice_model` leaves through its
condition `h < H` within `heightsFuel` iterations: more fuel gives the same
list of heights. -/
theorem heightsLoop_fuel_enough (ilh lh H : ℚ) (hlh : 0 < lh) (extra : Nat) :
    heightsLoop H lh (heightsFuel ilh lh H + extra) ilh [ilh] = slice_heights ilh lh H := by
  unfold slice_heights
  apply heightsLoop_stable H lh hlh
  unfold heightsFuel
  have h1 : (H - ilh) / lh < (⌊(H - ilh) / lh⌋ : ℚ) + 1 := Int.lt_floor_add_one _
  have h2 : (⌊(H - ilh) / lh⌋ : ℤ) ≤ ((Int.toNat ⌊(H - ilh) / lh⌋ : ℕ) : ℤ) := Int.self_le_toNat _
  have h3 : ((⌊(H - ilh) / lh⌋ : ℤ) : ℚ) ≤ ((Int.toNat ⌊(H - ilh) / lh⌋ : ℕ) : ℚ) := by
    exact_mod_cast h2
  push_cast
  linarith

/-- C9: evaluation of the slice stage at initial layer height 3/10, layer height
1 and mesh height 1/2.  The mesh is lower than one layer, and the list handed
to the slicer holds the initial height twice: the vector starts as `{ilh}` and
the loop, which also starts at `h = ilh`, appends `ilh` again. -/
theorem slice_heights_repeats_initial :
    (0 : ℚ) ≤ 3 / 10 ∧ (0 : ℚ) < 1 ∧ (1 / 2 : ℚ) < 1 ∧
    slice_heights (3 / 10) 1 (1 / 2) = [3 / 10, 3 / 10] ∧
    (slice_heights (3 / 10) 1 (1 / 2)).length = 2 ∧
    ¬ (slice_heights (3 / 10) 1 (1 / 2)).Nodup := by
  have e : slice_heights (3 / 10) 1 (1 / 2) = [3 / 10, 3 / 10] := by
    norm_num [slice_heights, heightsFuel, heightsLoop]
  refine ⟨by norm_num, by norm_num, by norm_num, e, ?_, ?_⟩
  · rw [e]; rfl
  · rw [e]; simp

/-! ## Validation of the compensation table -/

theorem nearly_equal_zero (a : Double) :
    nearly_equal_floating_point a Double.zero = Double.withinOneUlp a Double.zero := by
  cases a with
  | nan => rfl
  | ofOrd n =>
    simp only [nearly_equal_floating_point, Double.nextafter, Double.lowest, Double.max,
      Double.zero, Double.infOrd, Double.withinOneUlp, Double.ge]
    split_ifs <;> simp only [Double.le, Bool.and_eq_true, decide_eq_true_eq,
      ← Bool.decide_and] <;> congr 1 <;> apply propext <;> constructor <;> intro h <;> omega

theorem nearly_equal_one (a : Double) :
    nearly_equal_floating_point a Double.one = Double.withinOneUlp a Double.one := by
  cases a with
  | nan => rfl
  | ofOrd n =>
    simp only [nearly_equal_floating_point, Double.nextafter, Double.lowest, Double.max,
      Double.one, Double.infOrd, Double.withinOneUlp, Double.ge]
    split_ifs <;> simp only [Double.le, Bool.and_eq_true, decide_eq_true_eq,
      ← Bool.decide_and] <;> congr 1 <;> apply propext <;> constructor <;> intro h <;> omega

theorem checkLengthsLoop_ok_iff (lens : List Double) :
    ∀ prev : Double, checkLengthsLoop prev lens = Except.ok () ↔
      List.Chain (fun prev len =>
        Double.withinOneUlp len Double.zero = false ∧ Double.le len prev = false) prev lens := by
  induction lens with
  | nil => intro prev; simp [checkLengthsLoop]
  | cons len rest ih =>
    intro prev
    rw [List.chain_cons, ← ih len, checkLengthsLoop, nearly_equal_zero]
    cases h1 : Double.withinOneUlp len Double.zero <;> cases h2 : Double.le len prev <;> simp

theorem accepted_iff_tolerated (c : SmallAreaInfillFlowCompensator) :
    c.accepted = true ↔ toleratedAcceptance c := by
  obtain ⟨lengths, factors⟩ := c
  unfold SmallAreaInfillFlowCompensator.accepted
    SmallAreaInfillFlowCompensator.check_model_parameter_correctness toleratedAcceptance
  cases lengths with
  | nil => simp
  | cons len0 lens =>
    cases factors with
    | nil => simp
    | cons f0 fs =>
      simp only [ne_eq, not_false_eq_true, true_and, List.head?_cons, Option.some.injEq,
        exists_eq_left', List.Chain', reduceCtorEq]
      rw [← checkLengthsLoop_ok_iff, nearly_equal_zero, nearly_equal_one,
        List.getLast?_eq_getLast _ (List.cons_ne_nil f0 fs)]
      simp only [Option.some.injEq, exists_eq_left']
      by_cases hlen : (len0 :: lens).length = (f0 :: fs).length
      · simp only [hlen, ne_eq, not_true_eq_false, if_false, true_and]
        cases h0 : Double.withinOneUlp len0 Double.zero
        · simp
        · cases hloop : checkLengthsLoop len0 lens with
          | error msg => simp
          | ok u =>
            cases hf : Double.withinOneUlp ((f0 :: fs).getLast (List.cons_ne_nil f0 fs)) Double.one
            · simp
            · simp
      · have hlen1 : ¬ lens.length = fs.length := by simpa using hlen
        simp [hlen1]

/-- C10 as stated fails: the table [(0, 0.5), (1, 1.0000000000000002)] is
accepted although its last factor is not 1.0. -/
theorem accepted_last_factor_not_one :
    (tableOf [(Double.zero, Double.half), (Double.one, Double.oneNext)]).accepted = true ∧
    Double.eq Double.oneNext Double.one = false ∧
    ¬ claimedAcceptance (tableOf [(Double.zero, Double.half), (Double.one, Double.oneNext)]) := by
  refine ⟨by decide, by decide, ?_⟩
  rintro ⟨-, -, -, -, -, f, hf, hone⟩
  simp only [tableOf, List.map_cons, List.map_nil, List.getLast?_cons_cons,
    List.getLast?_singleton, Option.some.injEq] at hf
  subst hf
  revert hone
  decide

/-- C10 (amended): the validation accepts a table if and only if both lists
are non-empty and of equal size, the first length is within one unit in the
last place of zero, every later length is not within one unit in the last
place of zero and not less than or equal to its predecessor, and the last
factor is within one unit in the last place of 1.0; [(0,0.5),(1,1.0)] is
accepted and [(0,0.5),(1,0.9)], [(1,0.5),(2,1.0)], [(0,0.5),(0,1.0)] are
rejected. -/
theorem check_model_parameter_correctness_accepts_iff :
    (∀ c : SmallAreaInfillFlowCompensator, c.accepted = true ↔ toleratedAcceptance c) ∧
    (tableOf [(Double.zero, Double.half), (Double.one, Double.one)]).accepted = true ∧
    (tableOf [(Double.zero, Double.half), (Double.one, Double.ninetenths)]).accepted = false ∧
    (tableOf [(Double.one, Double.half), (Double.two, Double.one)]).accepted = false ∧
    (tableOf [(Double.zero, Double.half), (Double.zero, Double.one)]).accepted = false :=
  ⟨accepted_iff_tolerated, by decide, by decide, by decide, by decide⟩

/-! ## The driver: frame lemmas for the stage functions -/

theorem pobj_program_frame (G : Collaborators) (ilh : ℚ) (stop : Bool)
    (s : SLAPrintObjectStep) (po po2 : SLAPrintObject)
    (h : pobj_program G ilh stop s po = some po2) :
    po2.m_state = po.m_state ∧ po2.m_stepmask = po.m_stepmask := by
  cases s
  · simp only [pobj_program, Option.some.injEq] at h; subst h; exact ⟨rfl, rfl⟩
  · simp only [pobj_program, Option.some.injEq] at h; subst h; exact ⟨rfl, rfl⟩
  · simp only [pobj_program, Option.some.injEq, support_points] at h
    subst h; split_ifs <;> exact ⟨rfl, rfl⟩
  · simp only [pobj_program, support_tree] at h
    split at h
    · exact absurd h (by simp)
    · split_ifs at h <;> simp only [Option.some.injEq] at h <;> subst h <;> exact ⟨rfl, rfl⟩
  · simp only [pobj_program, Option.some.injEq, base_pool] at h
    subst h
    split
    · split <;> exact ⟨rfl, rfl⟩
    · exact ⟨rfl, rfl⟩
  · simp only [pobj_program, Option.some.injEq, slice_supports] at h
    subst h
    split
    · split <;> exact ⟨rfl, rfl⟩
    · exact ⟨rfl, rfl⟩

theorem print_program_frame (G : Collaborators) (s : SLAPrintStep) (p p2 : SLAPrint)
    (h : print_program G s p = some p2) :
    p2.m_state = p.m_state ∧ p2.m_stepmask = p.m_stepmask ∧ p2.m_objects = p.m_objects ∧
      p2.shared = p.shared ∧ p2.m_model = p.m_model ∧
      p2.m_material_config = p.m_material_config ∧
      p2.m_printer_config = p.m_printer_config := by
  cases s
  · simp only [print_program] at h
    split at h
    · exact absurd h (by simp)
    · simp only [Option.some.injEq] at h; subst h; exact ⟨rfl, rfl, rfl, rfl, rfl, rfl, rfl⟩
  · simp only [print_program, Option.some.injEq] at h
    subst h; exact ⟨rfl, rfl, rfl, rfl, rfl, rfl, rfl⟩

/-- The call `set_done` of a print object returns only with the flag clear, and
then the stage is `Done` and nothing else has changed. -/
theorem SLAPrintObject.set_done_some (po po3 : SLAPrintObject) (s : SLAPrintObjectStep)
    (c : Bool) (h : po.set_done s c = some po3) :
    c = false ∧
      po3 = { po with m_state := fun t => if t = s then StepState.Done else po.m_state t } := by
  unfold SLAPrintObject.set_done at h
  cases c
  · simp only [Bool.false_eq_true, if_false, Option.some.injEq] at h
    exact ⟨rfl, h.symm⟩
  · simp at h

/-- The call `set_done` of the print returns only with the flag clear, and then
the stage is `Done` and nothing else has changed. -/
theorem SLAPrint.set_done_print_some (p p3 : SLAPrint) (s : SLAPrintStep)
    (c : Bool) (h : p.set_done s c = some p3) :
    c = false ∧
      p3 = { p with m_state := fun t => if t = s then StepState.Done else p.m_state t } := by
  unfold SLAPrint.set_done at h
  cases c
  · simp only [Bool.false_eq_true, if_false, Option.some.injEq] at h
    exact ⟨rfl, h.symm⟩
  · simp at h

/-! ## The driver: a set flag stops the run at the next checkpoint -/

theorem objIter_canceled (G : Collaborators) (ilh : ℚ) (ev : CancelEvent) (i : Nat)
    (s : SLAPrintObjectStep) (sh : Shared) (po : SLAPrintObject)
    (h : sh.canceled = true) :
    objIter G ilh ev i s sh po = (Outcome.canceled, sh, po) := by
  simp [objIter, h]

theorem objSteps_canceled (G : Collaborators) (ilh : ℚ) (env : CancelEnv) (i : Nat)
    (s : SLAPrintObjectStep) (ss : List SLAPrintObjectStep) (sh : Shared)
    (po : SLAPrintObject) (h : sh.canceled = true) :
    objSteps G ilh env i (s :: ss) sh po = (Outcome.canceled, sh, po) := by
  simp [objSteps, objIter_canceled G ilh _ i s sh po h]

theorem objSteps_append (G : Collaborators) (ilh : ℚ) (env : CancelEnv) (i : Nat)
    (a b : List SLAPrintObjectStep) :
    ∀ (sh : Shared) (po : SLAPrintObject),
      objSteps G ilh env i (a ++ b) sh po =
        match objSteps G ilh env i a sh po with
        | (Outcome.ok, sh1, po1) => objSteps G ilh env i b sh1 po1
        | r => r := by
  induction a with
  | nil => intro sh po; simp [objSteps]
  | cons s ss ih =>
    intro sh po
    simp only [List.cons_append, objSteps]
    rcases h : objIter G ilh (env.obj i s) i s sh po with ⟨o, sh1, po1⟩
    cases o <;> simp [ih]

theorem objLoop_append (G : Collaborators) (ilh : ℚ) (env : CancelEnv)
    (pre rest : List SLAPrintObject) :
    ∀ (i : Nat) (sh : Shared),
      objLoop G ilh env i (pre ++ rest) sh =
        match objLoop G ilh env i pre sh with
        | (Outcome.ok, sh1, pre1) =>
          match objLoop G ilh env (i + pre.length) rest sh1 with
          | (o, sh2, rest1) => (o, sh2, pre1 ++ rest1)
        | (o, sh1, pre1) => (o, sh1, pre1 ++ rest) := by
  induction pre with
  | nil => intro i sh; simp [objLoop]
  | cons po pre ih =>
    intro i sh
    rw [List.cons_append]
    simp only [objLoop, List.length_cons]
    rcases h : objSteps G ilh env i objectsteps sh po with ⟨o, sh1, po1⟩
    cases o
    · rcases h2 : objLoop G ilh env (i + 1) pre sh1 with ⟨o2, sh2, pre1⟩
      have e : i + 1 + pre.length = i + (pre.length + 1) := by omega
      dsimp only
      rw [ih (i + 1) sh1, h2]
      cases o2 <;> simp [e]
    all_goals simp

theorem printIter_canceled (G : Collaborators) (ev : CancelEvent) (s : SLAPrintStep)
    (p : SLAPrint) (h : p.shared.canceled = true) :
    printIter G ev s p = (Outcome.canceled, p) := by
  simp [printIter, h]

theorem printLoop_append (G : Collaborators) (env : CancelEnv) (a b : List SLAPrintStep) :
    ∀ p : SLAPrint,
      printLoop G env (a ++ b) p =
        match printLoop G env a p with
        | (Outcome.ok, p1) => printLoop G env b p1
        | r => r := by
  induction a with
  | nil => intro p; simp [printLoop]
  | cons s ss ih =>
    intro p
    simp only [List.cons_append, printLoop]
    rcases h : printIter G (env.print s) s p with ⟨o, p1⟩
    cases o <;> simp [ih]

/-- C2: when the driver arrives at the checkpoint of a stage with the
cancellation flag set, `process` ends with the cancellation signal in exactly
the state of that arrival: the function of that stage is not invoked, the
stage is not marked, and no later object-level or print-level stage is invoked
or marked.  The first part is for an object-level stage `s` of the object that
follows the objects `pre`, the second for a print-level stage `s`. -/
theorem process_canceled_before_stage (G : Collaborators) (env : CancelEnv) (p : SLAPrint) :
    (∀ (pre post : List SLAPrintObject) (po : SLAPrintObject)
        (done todo : List SLAPrintObjectStep) (s : SLAPrintObjectStep)
        (sh1 sh2 : Shared) (pre1 : List SLAPrintObject) (po1 : SLAPrintObject),
        p.m_objects = pre ++ po :: post →
        objectsteps = done ++ s :: todo →
        objLoop G p.m_material_config.initial_layer_height env 0 pre p.shared
          = (Outcome.ok, sh1, pre1) →
        objSteps G p.m_material_config.initial_layer_height env pre.length done sh1 po
          = (Outcome.ok, sh2, po1) →
        sh2.canceled = true →
        process G env p
          = (Outcome.canceled, { p with m_objects := pre1 ++ po1 :: post, shared := sh2 })) ∧
    (∀ (objs : List SLAPrintObject) (sh : Shared) (done todo : List SLAPrintStep)
        (s : SLAPrintStep) (p2 : SLAPrint),
        objLoop G p.m_material_config.initial_layer_height env 0 p.m_objects p.shared
          = (Outcome.ok, sh, objs) →
        printsteps = done ++ s :: todo →
        printLoop G env done
            { p with
              m_objects := objs
              shared := sh
              m_stepmask := fun t => if t = slapsRasterize then false else p.m_stepmask t }
          = (Outcome.ok, p2) →
        p2.shared.canceled = true →
        process G env p = (Outcome.canceled, p2)) := by
  constructor
  · intro pre post po done todo s sh1 sh2 pre1 po1 hobjs hsteps hpre hdone hflag
    have hpo : objSteps G p.m_material_config.initial_layer_height env pre.length
        objectsteps sh1 po = (Outcome.canceled, sh2, po1) := by
      rw [hsteps, objSteps_append, hdone]
      exact objSteps_canceled G _ env _ s todo sh2 po1 hflag
    have hloop : objLoop G p.m_material_config.initial_layer_height env 0 p.m_objects p.shared
        = (Outcome.canceled, sh2, pre1 ++ po1 :: post) := by
      rw [hobjs, objLoop_append, hpre]
      simp only [Nat.zero_add, objLoop, hpo]
    simp only [process, hloop]
  · intro objs sh done todo s p2 hobj hsteps hdone hflag
    have hloop : printLoop G env printsteps
        { p with
          m_objects := objs
          shared := sh
          m_stepmask := fun t => if t = slapsRasterize then false else p.m_stepmask t }
        = (Outcome.canceled, p2) := by
      rw [hsteps, printLoop_append, hdone]
      simp only [printLoop, printIter_canceled G _ s p2 hflag]
    simp only [process, hobj, hloop]

/-- Witness of `process_canceled_before_stage`: in the sample run a cancel
request arrives after the support tree of object 0 has been built and the
stage marked; the driver arrives at the add-pad stage with the flag set and
the run ends there.  In a second run the request arrives in the window of the
rasterize stage and the run ends at the checkpoint of the validate stage. -/
theorem process_canceled_before_stage_witness :
    (sampleArrival.1 = Outcome.ok ∧ sampleArrival.2.1.canceled = true ∧
      process sampleGeometry (cancelAfter 0 slaposSupportTree) samplePrint
        = (Outcome.canceled,
            { samplePrint with
              m_objects := [] ++ sampleArrival.2.2 :: []
              shared := sampleArrival.2.1 })) ∧
    (sampleObjects.1 = Outcome.ok ∧ sampleValidateArrival.1 = Outcome.ok ∧
      sampleValidateArrival.2.shared.canceled = true ∧
      process sampleGeometry cancelAtRasterize samplePrint
        = (Outcome.canceled, sampleValidateArrival.2)) :=
  ⟨⟨by decide, by decide,
    (process_canceled_before_stage sampleGeometry (cancelAfter 0 slaposSupportTree)
      samplePrint).1 [] [] (freshObject [3])
      [slaposObjectSlice, slaposSupportIslands, slaposSupportPoints, slaposSupportTree]
      [slaposSliceSupports] slaposBasePool samplePrint.shared sampleArrival.2.1 []
      sampleArrival.2.2 rfl rfl rfl
      (Prod.ext (by decide) rfl) (by decide)⟩,
   ⟨by decide, by decide, by decide,
    (process_canceled_before_stage sampleGeometry cancelAtRasterize samplePrint).2
      sampleObjects.2.2 sampleObjects.2.1 [slapsRasterize] [] slapsValidate
      sampleValidateArrival.2
      (Prod.ext (by decide) rfl) rfl (Prod.ext (by decide) rfl) (by decide)⟩⟩

/-! ## The driver: a completed run leaves no work -/

theorem mem_objectsteps (s : SLAPrintObjectStep) : s ∈ objectsteps := by
  cases s <;> simp [objectsteps]

theorem mem_printsteps (s : SLAPrintStep) : s ∈ printsteps := by
  cases s <;> simp [printsteps]

theorem objIter_ok_settled (G : Collaborators) (ilh : ℚ) (ev : CancelEvent) (i : Nat)
    (s : SLAPrintObjectStep) (sh sh1 : Shared) (po po1 : SLAPrintObject)
    (h : objIter G ilh ev i s sh po = (Outcome.ok, sh1, po1)) :
    po1.settled s ∧ ∀ t, po.settled t → po1.settled t := by
  unfold objIter at h
  by_cases hc : sh.canceled = true
  · simp [hc] at h
  · simp only [hc, if_false] at h
    by_cases hm : (po.m_stepmask s && !po.is_step_done s) = true
    · simp only [hm, if_true] at h
      cases hp : pobj_program G ilh (decide (ev = CancelEvent.stopSeen)) s (po.set_started s) with
      | none => simp [hp] at h
      | some po2 =>
        simp only [hp] at h
        cases hd : po2.set_done s
            ((({ sh.set_status (OBJ_STEP_LEVELS s) (OBJ_STEP_LABELS s) with
                log := (sh.set_status (OBJ_STEP_LEVELS s) (OBJ_STEP_LABELS s)).log
                  ++ [Event.objInvoked i s] } : Shared).arriveInStage ev).canceled) with
        | none => simp [hd] at h
        | some po3 =>
          simp only [hd, Prod.mk.injEq, true_and] at h
          obtain ⟨-, rfl⟩ := h
          obtain ⟨-, rfl⟩ := SLAPrintObject.set_done_some _ _ _ _ hd
          obtain ⟨hst, hmask⟩ := pobj_program_frame G ilh _ s _ po2 hp
          constructor
          · simp [SLAPrintObject.settled, SLAPrintObject.is_step_done]
          · intro t ht
            have hts : t ≠ s := by
              rintro rfl
              rw [SLAPrintObject.settled] at ht
              rw [ht] at hm
              exact absurd hm (by simp)
            simp only [SLAPrintObject.settled, SLAPrintObject.is_step_done,
              hst, hmask, SLAPrintObject.set_started, hts,
              if_false] at ht ⊢
            exact ht
    · simp only [hm, if_false, Prod.mk.injEq, true_and] at h
      obtain ⟨-, rfl⟩ := h
      exact ⟨by simpa [SLAPrintObject.settled] using hm, fun t ht => ht⟩

theorem objSteps_ok_settled (G : Collaborators) (ilh : ℚ) (env : CancelEnv) (i : Nat)
    (ss : List SLAPrintObjectStep) :
    ∀ (sh sh1 : Shared) (po po1 : SLAPrintObject),
      objSteps G ilh env i ss sh po = (Outcome.ok, sh1, po1) →
      (∀ s ∈ ss, po1.settled s) ∧ ∀ t, po.settled t → po1.settled t := by
  induction ss with
  | nil =>
    intro sh sh1 po po1 h
    simp only [objSteps, Prod.mk.injEq, true_and] at h
    obtain ⟨-, rfl⟩ := h
    exact ⟨by simp, fun t ht => ht⟩
  | cons s ss ih =>
    intro sh sh1 po po1 h
    simp only [objSteps] at h
    rcases hi : objIter G ilh (env.obj i s) i s sh po with ⟨o, sh2, po2⟩
    rw [hi] at h
    cases o
    · dsimp only at h
      obtain ⟨hs, hkeep⟩ := objIter_ok_settled G ilh _ i s sh sh2 po po2 hi
      obtain ⟨hall, hkeep2⟩ := ih sh2 sh1 po2 po1 h
      refine ⟨?_, fun t ht => hkeep2 t (hkeep t ht)⟩
      intro t ht
      rcases List.mem_cons.mp ht with rfl | ht
      · exact hkeep2 _ hs
      · exact hall t ht
    all_goals simp at h

theorem objLoop_ok_settled (G : Collaborators) (ilh : ℚ) (env : CancelEnv)
    (objs : List SLAPrintObject) :
    ∀ (i : Nat) (sh sh1 : Shared) (objs1 : List SLAPrintObject),
      objLoop G ilh env i objs sh = (Outcome.ok, sh1, objs1) →
      ∀ o ∈ objs1, ∀ s, o.settled s := by
  induction objs with
  | nil =>
    intro i sh sh1 objs1 h
    simp only [objLoop, Prod.mk.injEq, true_and] at h
    obtain ⟨-, rfl⟩ := h
    simp
  | cons po rest ih =>
    intro i sh sh1 objs1 h
    simp only [objLoop] at h
    rcases hs : objSteps G ilh env i objectsteps sh po with ⟨o, sh2, po2⟩
    rw [hs] at h
    cases o
    · dsimp only at h
      rcases hl : objLoop G ilh env (i + 1) rest sh2 with ⟨o3, sh3, rest1⟩
      rw [hl] at h
      simp only [Prod.mk.injEq] at h
      obtain ⟨rfl, -, rfl⟩ := h
      intro o ho s
      rcases List.mem_cons.mp ho with rfl | ho
      · exact (objSteps_ok_settled G ilh env i objectsteps sh sh2 po _ hs).1 s
          (mem_objectsteps s)
      · exact ih (i + 1) sh2 sh3 rest1 hl o ho s
    all_goals simp at h

theorem objIter_of_settled (G : Collaborators) (ilh : ℚ) (ev : CancelEvent) (i : Nat)
    (s : SLAPrintObjectStep) (sh : Shared) (po : SLAPrintObject) (h : po.settled s) :
    ∃ o sh1, objIter G ilh ev i s sh po = (o, sh1, po) ∧ sh1.log = sh.log := by
  unfold objIter
  rw [SLAPrintObject.settled] at h
  by_cases hc : sh.canceled = true
  · exact ⟨Outcome.canceled, sh, by simp [hc], rfl⟩
  · exact ⟨Outcome.ok, sh.arrive ev, by simp [hc, h], rfl⟩

theorem objSteps_of_settled (G : Collaborators) (ilh : ℚ) (env : CancelEnv) (i : Nat)
    (po : SLAPrintObject) (ss : List SLAPrintObjectStep) (h : ∀ s ∈ ss, po.settled s) :
    ∀ sh : Shared, ∃ o sh1, objSteps G ilh env i ss sh po = (o, sh1, po) ∧ sh1.log = sh.log := by
  induction ss with
  | nil => intro sh; exact ⟨Outcome.ok, sh, rfl, rfl⟩
  | cons s ss ih =>
    intro sh
    obtain ⟨o, sh1, hi, hlog⟩ :=
      objIter_of_settled G ilh (env.obj i s) i s sh po (h s (List.mem_cons_self s ss))
    obtain ⟨o2, sh2, hs, hlog2⟩ := ih (fun t ht => h t (List.mem_cons_of_mem s ht)) sh1
    simp only [objSteps, hi]
    cases o
    · exact ⟨o2, sh2, hs, hlog2.trans hlog⟩
    · exact ⟨Outcome.canceled, sh1, rfl, hlog⟩
    · exact ⟨Outcome.nullSupportData, sh1, rfl, hlog⟩
    · exact ⟨Outcome.noObjects, sh1, rfl, hlog⟩

theorem objLoop_of_settled (G : Collaborators) (ilh : ℚ) (env : CancelEnv)
    (objs : List SLAPrintObject) (h : ∀ o ∈ objs, ∀ s, o.settled s) :
    ∀ (i : Nat) (sh : Shared),
      ∃ o sh1, objLoop G ilh env i objs sh = (o, sh1, objs) ∧ sh1.log = sh.log := by
  induction objs with
  | nil => intro i sh; exact ⟨Outcome.ok, sh, rfl, rfl⟩
  | cons po rest ih =>
    intro i sh
    obtain ⟨o, sh1, hs, hlog⟩ := objSteps_of_settled G ilh env i po objectsteps
      (fun s _ => h po (List.mem_cons_self po rest) s) sh
    obtain ⟨o2, sh2, hl, hlog2⟩ :=
      ih (fun o ho s => h o (List.mem_cons_of_mem po ho) s) (i + 1) sh1
    simp only [objLoop, hs]
    cases o
    · exact ⟨o2, sh2, by simp [hl], hlog2.trans hlog⟩
    · exact ⟨Outcome.canceled, sh1, rfl, hlog⟩
    · exact ⟨Outcome.nullSupportData, sh1, rfl, hlog⟩
    · exact ⟨Outcome.noObjects, sh1, rfl, hlog⟩

theorem printIter_ok_settled (G : Collaborators) (ev : CancelEvent) (s : SLAPrintStep)
    (p p1 : SLAPrint) (h : printIter G ev s p = (Outcome.ok, p1)) :
    p1.settled s ∧ (∀ t, p.settled t → p1.settled t) ∧
      p1.m_stepmask = p.m_stepmask ∧ p1.m_objects = p.m_objects := by
  unfold printIter at h
  by_cases hc : p.shared.canceled = true
  · simp [hc] at h
  · by_cases hm : (p.m_stepmask s && !p.is_step_done s) = true
    · rw [if_neg hc, if_pos hm] at h
      dsimp only at h
      split at h
      · simp at h
      · next p2 hp =>
        split at h
        · simp at h
        · next p3 hd =>
          simp only [Prod.mk.injEq, true_and] at h
          subst h
          obtain ⟨-, rfl⟩ := SLAPrint.set_done_print_some _ _ _ _ hd
          obtain ⟨hst, hmask, hobjs, -⟩ := print_program_frame G s _ p2 hp
          refine ⟨?_, ?_, ?_, ?_⟩
          · simp [SLAPrint.settled, SLAPrint.is_step_done]
          · intro t ht
            have hts : t ≠ s := by
              rintro rfl
              rw [SLAPrint.settled] at ht
              rw [ht] at hm
              exact absurd hm (by simp)
            simp only [SLAPrint.settled, SLAPrint.is_step_done, hst, hmask,
              SLAPrint.set_started, hts, if_false] at ht ⊢
            exact ht
          · simp only [hmask, SLAPrint.set_started]
          · simp only [hobjs, SLAPrint.set_started]
    · rw [if_neg hc, if_neg hm] at h
      simp only [Prod.mk.injEq, true_and] at h
      subst h
      exact ⟨by simpa [SLAPrint.settled, SLAPrint.is_step_done] using hm,
        fun t ht => ht, rfl, rfl⟩

theorem printLoop_ok_settled (G : Collaborators) (env : CancelEnv) (ss : List SLAPrintStep) :
    ∀ (p p1 : SLAPrint), printLoop G env ss p = (Outcome.ok, p1) →
      (∀ s ∈ ss, p1.settled s) ∧ (∀ t, p.settled t → p1.settled t) ∧
        p1.m_stepmask = p.m_stepmask ∧ p1.m_objects = p.m_objects := by
  induction ss with
  | nil =>
    intro p p1 h
    simp only [printLoop, Prod.mk.injEq, true_and] at h
    subst h
    exact ⟨by simp, fun t ht => ht, rfl, rfl⟩
  | cons s ss ih =>
    intro p p1 h
    simp only [printLoop] at h
    rcases hi : printIter G (env.print s) s p with ⟨o, p2⟩
    rw [hi] at h
    cases o
    · dsimp only at h
      obtain ⟨hs, hkeep, hmask, hobjs⟩ := printIter_ok_settled G _ s p p2 hi
      obtain ⟨hall, hkeep2, hmask2, hobjs2⟩ := ih p2 p1 h
      refine ⟨?_, fun t ht => hkeep2 t (hkeep t ht), hmask2.trans hmask, hobjs2.trans hobjs⟩
      intro t ht
      rcases List.mem_cons.mp ht with rfl | ht
      · exact hkeep2 _ hs
      · exact hall t ht
    all_goals simp at h

theorem printIter_of_settled (G : Collaborators) (ev : CancelEvent) (s : SLAPrintStep)
    (p : SLAPrint) (h : p.settled s) :
    ∃ o sh1, printIter G ev s p = (o, { p with shared := sh1 }) ∧ sh1.log = p.shared.log := by
  unfold printIter
  rw [SLAPrint.settled] at h
  by_cases hc : p.shared.canceled = true
  · exact ⟨Outcome.canceled, p.shared, by simp [hc], rfl⟩
  · exact ⟨Outcome.ok, p.shared.arrive ev, by simp [hc, h], rfl⟩

theorem printLoop_of_settled (G : Collaborators) (env : CancelEnv) (ss : List SLAPrintStep) :
    ∀ (p : SLAPrint), (∀ s ∈ ss, p.settled s) →
      ∃ o sh1, printLoop G env ss p = (o, { p with shared := sh1 }) ∧
        sh1.log = p.shared.log := by
  induction ss with
  | nil => intro p _; exact ⟨Outcome.ok, p.shared, rfl, rfl⟩
  | cons s ss ih =>
    intro p h
    obtain ⟨o, sh1, hi, hlog⟩ :=
      printIter_of_settled G (env.print s) s p (h s (List.mem_cons_self s ss))
    obtain ⟨o2, sh2, hs, hlog2⟩ := ih { p with shared := sh1 }
      (fun t ht => h t (List.mem_cons_of_mem s ht))
    simp only [printLoop, hi]
    cases o
    · exact ⟨o2, sh2, hs, hlog2.trans hlog⟩
    · exact ⟨Outcome.canceled, sh1, rfl, hlog⟩
    · exact ⟨Outcome.nullSupportData, sh1, rfl, hlog⟩
    · exact ⟨Outcome.noObjects, sh1, rfl, hlog⟩

theorem process_ok_inv (G : Collaborators) (env : CancelEnv) (p p1 : SLAPrint)
    (h : process G env p = (Outcome.ok, p1)) :
    ∃ (sh : Shared) (objs : List SLAPrintObject) (p2 : SLAPrint),
      objLoop G p.m_material_config.initial_layer_height env 0 p.m_objects p.shared
        = (Outcome.ok, sh, objs) ∧
      printLoop G env printsteps
          { p with
            m_objects := objs
            shared := sh
            m_stepmask := fun t => if t = slapsRasterize then false else p.m_stepmask t }
        = (Outcome.ok, p2) ∧
      p1 = { p2 with shared := p2.shared.set_status 100 "Slicing done" } := by
  unfold process at h
  dsimp only at h
  rcases hl : objLoop G p.m_material_config.initial_layer_height env 0 p.m_objects p.shared
    with ⟨o, sh, objs⟩
  rw [hl] at h
  cases o
  · dsimp only at h
    rcases hp : printLoop G env printsteps
        { p with
          m_objects := objs
          shared := sh
          m_stepmask := fun t => if t = slapsRasterize then false else p.m_stepmask t }
      with ⟨o2, p2⟩
    rw [hp] at h
    cases o2
    · simp only [Prod.mk.injEq, true_and] at h
      exact ⟨sh, objs, p2, rfl, hp, h.symm⟩
    all_goals simp at h
  all_goals simp at h

/-- C4: after a `process` call that returned normally, a second call (whatever
the flag and the cancel requests are) leaves the print as it is up to the flag
and the status sink: every step status, every step mask and all object data
are unchanged, and the only addition to the record of the run is at most the
final status report, so no object-level and no print-level stage function is
invoked. -/
theorem process_twice_no_work (G : Collaborators) (env1 env2 : CancelEnv) (p p1 : SLAPrint)
    (c : Bool) (h : process G env1 p = (Outcome.ok, p1)) :
    ∃ sh : Shared,
      (process G env2 { p1 with shared := { p1.shared with canceled := c } }).2
        = { p1 with shared := sh } ∧
      (sh.log = p1.shared.log ∨
        sh.log = p1.shared.log ++ [Event.status 100 "Slicing done"]) := by
  obtain ⟨sh0, objs, p2, hobj, hprint, rfl⟩ := process_ok_inv G env1 p p1 h
  have hsettledObjs := objLoop_ok_settled G _ env1 p.m_objects 0 p.shared sh0 objs hobj
  obtain ⟨hall, -, hmask, hobjs2⟩ := printLoop_ok_settled G env1 printsteps _ p2 hprint
  have hmaskR : p2.m_stepmask slapsRasterize = false := by rw [hmask]; simp
  have hmaskEq : (fun t => if t = slapsRasterize then false else p2.m_stepmask t)
      = p2.m_stepmask := by
    funext t
    by_cases ht : t = slapsRasterize
    · subst ht; simp [hmaskR]
    · simp [ht]
  dsimp only at hobjs2
  obtain ⟨o, sh1, hl, hlog⟩ := objLoop_of_settled G p2.m_material_config.initial_layer_height
    env2 p2.m_objects (by rw [hobjs2]; exact hsettledObjs) 0
    { canceled := c, log := (p2.shared.set_status 100 "Slicing done").log }
  unfold process
  dsimp only
  rw [hl]
  cases o
  · dsimp only
    rw [hmaskEq]
    obtain ⟨o2, sh2, hp, hlog2⟩ := printLoop_of_settled G env2 printsteps
      { p2 with shared := sh1 } (fun s _ => hall s (mem_printsteps s))
    rw [hp]
    cases o2
    · exact ⟨sh2.set_status 100 "Slicing done", rfl,
        Or.inr (by simp [Shared.set_status, hlog2, hlog])⟩
    · exact ⟨sh2, rfl, Or.inl (hlog2.trans hlog)⟩
    · exact ⟨sh2, rfl, Or.inl (hlog2.trans hlog)⟩
    · exact ⟨sh2, rfl, Or.inl (hlog2.trans hlog)⟩
  · exact ⟨sh1, rfl, Or.inl hlog⟩
  · exact ⟨sh1, rfl, Or.inl hlog⟩
  · exact ⟨sh1, rfl, Or.inl hlog⟩

/-- Witness of `process_twice_no_work`: the sample print is processed twice. -/
theorem process_twice_no_work_witness :
    sampleFirstRun.1 = Outcome.ok ∧
    ∃ sh : Shared,
      (process sampleGeometry quietEnv
          { sampleFirstRun.2 with
            shared := { sampleFirstRun.2.shared with canceled := false } }).2
        = { sampleFirstRun.2 with shared := sh } ∧
      (sh.log = sampleFirstRun.2.shared.log ∨
        sh.log = sampleFirstRun.2.shared.log ++ [Event.status 100 "Slicing done"]) :=
  ⟨by decide,
    process_twice_no_work sampleGeometry quietEnv quietEnv samplePrint sampleFirstRun.2 false
      (Prod.ext (by decide) rfl)⟩

/-! ## The driver: the rasterize stage is switched off -/

theorem logAdds_refl (l : List Event) : logAdds l l :=
  ⟨[], by simp, by simp⟩

theorem logAdds_trans {a b c : List Event} (h1 : logAdds a b) (h2 : logAdds b c) :
    logAdds a c := by
  obtain ⟨x, rfl, hx⟩ := h1
  obtain ⟨y, rfl, hy⟩ := h2
  exact ⟨x ++ y, by simp, by simp [hx, hy]⟩

theorem objIter_logAdds (G : Collaborators) (ilh : ℚ) (ev : CancelEvent) (i : Nat)
    (s : SLAPrintObjectStep) (sh : Shared) (po : SLAPrintObject) :
    logAdds sh.log (objIter G ilh ev i s sh po).2.1.log := by
  unfold objIter
  by_cases hc : sh.canceled = true
  · rw [if_pos hc]; exact logAdds_refl _
  · rw [if_neg hc]
    by_cases hm : (po.m_stepmask s && !po.is_step_done s) = true
    · rw [if_pos hm]
      dsimp only
      have hadd : logAdds sh.log
          ((sh.set_status (OBJ_STEP_LEVELS s) (OBJ_STEP_LABELS s)).log
            ++ [Event.objInvoked i s]) :=
        ⟨[Event.status (OBJ_STEP_LEVELS s) (OBJ_STEP_LABELS s), Event.objInvoked i s],
          by simp [Shared.set_status], by simp⟩
      split
      · exact hadd
      · split
        · exact hadd
        · exact hadd
    · rw [if_neg hm]; exact logAdds_refl _

theorem objSteps_logAdds (G : Collaborators) (ilh : ℚ) (env : CancelEnv) (i : Nat)
    (ss : List SLAPrintObjectStep) :
    ∀ (sh : Shared) (po : SLAPrintObject),
      logAdds sh.log (objSteps G ilh env i ss sh po).2.1.log := by
  induction ss with
  | nil => intro sh po; exact logAdds_refl _
  | cons s ss ih =>
    intro sh po
    have h1 := objIter_logAdds G ilh (env.obj i s) i s sh po
    simp only [objSteps]
    rcases hi : objIter G ilh (env.obj i s) i s sh po with ⟨o, sh1, po1⟩
    rw [hi] at h1
    cases o
    · exact logAdds_trans h1 (ih sh1 po1)
    all_goals exact h1

theorem objLoop_logAdds (G : Collaborators) (ilh : ℚ) (env : CancelEnv)
    (objs : List SLAPrintObject) :
    ∀ (i : Nat) (sh : Shared), logAdds sh.log (objLoop G ilh env i objs sh).2.1.log := by
  induction objs with
  | nil => intro i sh; exact logAdds_refl _
  | cons po rest ih =>
    intro i sh
    have h1 := objSteps_logAdds G ilh env i objectsteps sh po
    simp only [objLoop]
    rcases hs : objSteps G ilh env i objectsteps sh po with ⟨o, sh1, po1⟩
    rw [hs] at h1
    cases o
    · exact logAdds_trans h1 (ih (i + 1) sh1)
    all_goals exact h1

theorem printIter_rasterize_off (G : Collaborators) (ev : CancelEvent) (s : SLAPrintStep)
    (p : SLAPrint) (hoff : p.m_stepmask slapsRasterize = false) :
    logAdds p.shared.log (printIter G ev s p).2.shared.log ∧
      (printIter G ev s p).2.m_state slapsRasterize = p.m_state slapsRasterize ∧
      (printIter G ev s p).2.m_stepmask slapsRasterize = false := by
  unfold printIter
  by_cases hc : p.shared.canceled = true
  · rw [if_pos hc]; exact ⟨logAdds_refl _, rfl, hoff⟩
  · rw [if_neg hc]
    by_cases hm : (p.m_stepmask s && !p.is_step_done s) = true
    · rw [if_pos hm]
      have hs : s = slapsValidate := by
        cases s
        · simp [hoff] at hm
        · rfl
      subst hs
      have hadd : logAdds p.shared.log
          ((p.shared.set_status (PRINT_STEP_LEVELS slapsValidate)
              (PRINT_STEP_LABELS slapsValidate)).log ++ [Event.printInvoked slapsValidate]) :=
        ⟨[Event.status (PRINT_STEP_LEVELS slapsValidate) (PRINT_STEP_LABELS slapsValidate),
          Event.printInvoked slapsValidate], by simp [Shared.set_status], by simp⟩
      simp only [print_program]
      split
      · exact ⟨hadd, rfl, hoff⟩
      · next p3 hd =>
        obtain ⟨-, rfl⟩ := SLAPrint.set_done_print_some _ _ _ _ hd
        exact ⟨hadd, by simp [SLAPrint.set_started], by simp [SLAPrint.set_started, hoff]⟩
    · rw [if_neg hm]; exact ⟨logAdds_refl _, rfl, hoff⟩

theorem printLoop_rasterize_off (G : Collaborators) (env : CancelEnv)
    (ss : List SLAPrintStep) :
    ∀ p : SLAPrint, p.m_stepmask slapsRasterize = false →
      logAdds p.shared.log (printLoop G env ss p).2.shared.log ∧
        (printLoop G env ss p).2.m_state slapsRasterize = p.m_state slapsRasterize ∧
        (printLoop G env ss p).2.m_stepmask slapsRasterize = false := by
  induction ss with
  | nil => intro p hoff; exact ⟨logAdds_refl _, rfl, hoff⟩
  | cons s ss ih =>
    intro p hoff
    obtain ⟨h1, h2, h3⟩ := printIter_rasterize_off G (env.print s) s p hoff
    simp only [printLoop]
    rcases hi : printIter G (env.print s) s p with ⟨o, p1⟩
    rw [hi] at h1 h2 h3
    cases o
    · obtain ⟨k1, k2, k3⟩ := ih p1 h3
      exact ⟨logAdds_trans h1 k1, k2.trans h2, k3⟩
    all_goals exact ⟨h1, h2, h3⟩

/-- C5 as stated fails: the sample print has one object and its rasterize mask
bit on, `process` returns normally, and yet the rasterize stage function has
not been invoked and the rasterize status is still `Pending`. -/
theorem process_skips_rasterize :
    samplePrint.m_objects.length = 1 ∧
    samplePrint.m_stepmask slapsRasterize = true ∧
    sampleFirstRun.1 = Outcome.ok ∧
    Event.printInvoked slapsRasterize ∉ sampleFirstRun.2.shared.log ∧
    sampleFirstRun.2.m_state slapsRasterize = StepState.Pending ∧
    sampleFirstRun.2.m_state slapsRasterize ≠ StepState.Done := by
  refine ⟨by decide, by decide, by decide, by decide, by decide, by decide⟩

/-- C5 (amended): `process` switches the rasterize mask bit off before the
print-level loop, so when it returns normally the rasterize stage function has
not been executed during the call, the print-level rasterize status is what it
was before the call, and the rasterize mask bit is off. -/
theorem process_rasterize_switched_off (G : Collaborators) (env : CancelEnv)
    (p p1 : SLAPrint) (h : process G env p = (Outcome.ok, p1)) :
    logAdds p.shared.log p1.shared.log ∧
      p1.m_state slapsRasterize = p.m_state slapsRasterize ∧
      p1.m_stepmask slapsRasterize = false := by
  obtain ⟨sh, objs, p2, hobj, hprint, rfl⟩ := process_ok_inv G env p p1 h
  have h1 := objLoop_logAdds G p.m_material_config.initial_layer_height env p.m_objects 0
    p.shared
  rw [hobj] at h1
  obtain ⟨k1, k2, k3⟩ := printLoop_rasterize_off G env printsteps
    { p with
      m_objects := objs
      shared := sh
      m_stepmask := fun t => if t = slapsRasterize then false else p.m_stepmask t }
    (by simp)
  rw [hprint] at k1 k2 k3
  refine ⟨logAdds_trans (logAdds_trans h1 k1) ?_, k2, k3⟩
  exact ⟨[Event.status 100 "Slicing done"], by simp [Shared.set_status], by simp⟩

/-- Witness of `process_rasterize_switched_off`: the sample run. -/
theorem process_rasterize_switched_off_witness :
    sampleFirstRun.1 = Outcome.ok ∧
    logAdds samplePrint.shared.log sampleFirstRun.2.shared.log ∧
    sampleFirstRun.2.m_state slapsRasterize = samplePrint.m_state slapsRasterize ∧
    sampleFirstRun.2.m_stepmask slapsRasterize = false :=
  ⟨by decide,
    process_rasterize_switched_off sampleGeometry quietEnv samplePrint sampleFirstRun.2
      (Prod.ext (by decide) rfl)⟩

/-! ## The driver: evaluations at sample inputs -/

/-- C3: evaluation of a run on an object without support points.  The
derive-support-points stage leaves the support data unset, and the
build-support-tree stage is invoked and goes through the absent support data:
the run ends in that invalid access. -/
theorem support_tree_reads_absent_support_data :
    (freshObject []).m_model_object.sla_support_points = [] ∧
    sampleNoSupportRun.1 = Outcome.nullSupportData ∧
    sampleNoSupportRun.2.m_objects.map (fun o => o.m_supportdata) = [none] ∧
    sampleNoSupportRun.2.m_objects.map (fun o => o.m_state slaposSupportPoints)
      = [StepState.Done] ∧
    sampleNoSupportRun.2.shared.log.getLast? = some (Event.objInvoked 0 slaposSupportTree) := by
  refine ⟨by decide, by decide, by decide, by decide, by decide⟩

/-! ## The double literals of the sample tables -/

theorem double_literals_values :
    Double.toRat Double.zero = some 0 ∧
    Double.toRat Double.half = some (1 / 2) ∧
    Double.toRat Double.one = some 1 ∧
    Double.toRat Double.two = some 2 ∧
    Double.toRat Double.oneNext = some (1 + 1 / 2 ^ 52) ∧
    Double.toRat Double.ninetenths = some (9 / 10 + 1 / (5 * 2 ^ 53)) := by
  refine ⟨?_, ?_, ?_, ?_, ?_, ?_⟩
  · norm_num [Double.toRat, Double.zero]
  · norm_num [Double.toRat, Double.half]
  · norm_num [Double.toRat, Double.one]
  · norm_num [Double.toRat, Double.two]
  · norm_num [Double.toRat, Double.oneNext]
  · norm_num [Double.toRat, Double.ninetenths]

/-! ## General forms of the evaluated behaviours -/

/-- Whenever the initial height is below the mesh height, the list handed to
the slicer starts with the initial height twice. -/
theorem slice_heights_initial_twice (ilh lh H : ℚ) (h : ilh < H) :
    ∃ rest, slice_heights ilh lh H = ilh :: ilh :: rest := by
  have key : ∀ (fuel : Nat) (x : ℚ) (acc : List ℚ),
      ∃ rest, heightsLoop H lh fuel x acc = acc ++ rest := by
    intro fuel
    induction fuel with
    | zero => intro x acc; exact ⟨[], by simp [heightsLoop]⟩
    | succ n ih =>
      intro x acc
      simp only [heightsLoop]
      split_ifs
      · obtain ⟨rest, hrest⟩ := ih (x + lh) (acc ++ [x])
        exact ⟨x :: rest, by rw [hrest]; simp⟩
      · exact ⟨[], by simp⟩
  unfold slice_heights heightsFuel
  simp only [heightsLoop, h, if_true]
  obtain ⟨rest, hrest⟩ := key (Int.toNat ⌊(H - ilh) / lh⌋) (ilh + lh) ([ilh] ++ [ilh])
  exact ⟨rest, by rw [hrest]; simp⟩

/-- Whenever the mesh height does not exceed the initial height, the list
handed to the slicer is the initial height alone. -/
theorem slice_heights_initial_only (ilh lh H : ℚ) (h : H ≤ ilh) :
    slice_heights ilh lh H = [ilh] := by
  unfold slice_heights heightsFuel
  simp [heightsLoop, not_lt.mpr h]

/-- The build-support-tree stage function on absent support data is the
invalid access, whatever the stop condition answers. -/
theorem support_tree_of_absent (G : Collaborators) (stop : Bool) (po : SLAPrintObject)
    (h : po.m_supportdata = none) : support_tree G stop po = none := by
  simp [support_tree, h]

/-! ## Sub-progress of the support tree stage -/

theorem rescaled_status_eq (st : Nat) (h : st ≤ 100) : rescaled_status st = 70 + st / 10 := by
  have hd : (toUnsigned ((OBJ_STEP_LEVELS slaposBasePool : Int)
      - ((OBJ_STEP_LEVELS slaposSupportTree : Nat) : Int)) : ℚ) / 100 = 1 / 10 := by
    have h10 : toUnsigned ((OBJ_STEP_LEVELS slaposBasePool : Int)
        - ((OBJ_STEP_LEVELS slaposSupportTree : Nat) : Int)) = 10 := by decide
    rw [h10]; norm_num
  have hx : (0 : ℚ) ≤ ((70 : Nat) : ℚ) + (st : ℚ) * (1 / 10) := by positivity
  have hfloor : ⌊((70 : Nat) : ℚ) + (st : ℚ) * (1 / 10)⌋ = 70 + ((st / 10 : Nat) : Int) := by
    have e : ((70 : Nat) : ℚ) + (st : ℚ) * (1 / 10) = ((70 : Int) : ℚ) + ((st : Int) : ℚ) / ((10 : Nat) : ℚ) := by
      push_cast; ring
    rw [e, Int.floor_int_add, Rat.floor_intCast_div_natCast]
    norm_num
  unfold rescaled_status
  simp only [hd]
  have hlevel : OBJ_STEP_LEVELS slaposSupportTree = 70 := rfl
  rw [hlevel]
  unfold toLongLong
  rw [if_pos hx, hfloor]
  unfold toUnsigned
  have hsmall : (70 + ((st / 10 : Nat) : Int)) % 2 ^ 32 = 70 + ((st / 10 : Nat) : Int) := by
    apply Int.emod_eq_of_lt <;> omega
  rw [hsmall]
  omega

/-- C14: for a sub-progress `st` in 0..100 the percentage that `statuscb`
forwards to the status sink is the linear rescale of `st` from [0,100] onto
[70,80] truncated to an integer; it is 70 at 0 and 80 at 100, non-decreasing
in `st` and within [70,80]. -/
theorem statuscb_linear_rescale :
    (∀ (st : Nat) (msg : String) (sh : Shared),
      statuscb st msg sh = sh.set_status (rescaled_status st) msg) ∧
    (∀ st : Nat, st ≤ 100 →
      (rescaled_status st : Int) = ⌊(70 : ℚ) + (st : ℚ) * ((80 - 70) / 100)⌋) ∧
    rescaled_status 0 = 70 ∧ rescaled_status 100 = 80 ∧
    (∀ a b : Nat, a ≤ b → b ≤ 100 → rescaled_status a ≤ rescaled_status b) ∧
    (∀ st : Nat, st ≤ 100 → 70 ≤ rescaled_status st ∧ rescaled_status st ≤ 80) := by
  refine ⟨fun _ _ _ => rfl, ?_, ?_, ?_, ?_, ?_⟩
  · intro st h
    rw [rescaled_status_eq st h]
    have e : (70 : ℚ) + (st : ℚ) * ((80 - 70) / 100)
        = ((70 : Int) : ℚ) + ((st : Int) : ℚ) / ((10 : Nat) : ℚ) := by
      push_cast; ring
    rw [e, Int.floor_int_add, Rat.floor_intCast_div_natCast]
    norm_num
  · rw [rescaled_status_eq 0 (by omega)]
  · rw [rescaled_status_eq 100 (by omega)]
  · intro a b hab hb
    rw [rescaled_status_eq a (by omega), rescaled_status_eq b hb]
    have := Nat.div_le_div_right (c := 10) hab
    omega
  · intro st h
    rw [rescaled_status_eq st h]
    omega

/-- Witness of `statuscb_linear_rescale`: the sub-progress values 30 and 57. -/
theorem statuscb_linear_rescale_witness :
    (rescaled_status 57 : Int) = ⌊(70 : ℚ) + ((57 : Nat) : ℚ) * ((80 - 70) / 100)⌋ ∧
    rescaled_status 30 ≤ rescaled_status 57 ∧
    (70 ≤ rescaled_status 57 ∧ rescaled_status 57 ≤ 80) :=
  ⟨statuscb_linear_rescale.2.1 57 (by decide),
   statuscb_linear_rescale.2.2.2.2.1 30 57 (by decide) (by decide),
   statuscb_linear_rescale.2.2.2.2.2 57 (by decide)⟩

/-! ## Sampled heights against bucket heights -/

/-- C18: evaluation at initial layer height 3/10, layer height 1 and mesh
height 1/2.  The slice stage samples the heights 3/10 and 3/10, so the model
slice of index 1 is sampled at 3/10; the layer aggregator gives index 1 the
height 3/10 + 1 * 1 = 13/10 and puts that slice into the bucket of key
1300000, not into the bucket of its sampled height, 300000. -/
theorem sampled_height_not_bucket_height :
    slice_heights (3 / 10) 1 (1 / 2) = [3 / 10, 3 / 10] ∧
    (slice_heights (3 / 10) 1 (1 / 2))[1]? = some (3 / 10) ∧
    (3 / 10 : ℚ) ≠ 3 / 10 + ((1 : Nat) : ℚ) * 1 ∧
    lyridx (1 / 1000000) (3 / 10) = 300000 ∧
    addSlices (1 / 1000000) (3 / 10) 1 [] 0 [[1], [2]] []
      = [(300000, [{ lref := [1], copies := [] }]),
         (1300000, [{ lref := [2], copies := [] }])] := by
  have e : slice_heights (3 / 10) 1 (1 / 2) = [3 / 10, 3 / 10] := by
    norm_num [slice_heights, heightsFuel, heightsLoop]
  have k0 : lyridx (1 / 1000000) (3 / 10) = 300000 := by
    rw [lyridx_of_nonneg _ _ (by norm_num) (by norm_num)]
    norm_num
  have k1 : lyridx (1 / 1000000) (3 / 10 + 1) = 1300000 := by
    rw [lyridx_of_nonneg _ _ (by norm_num) (by norm_num)]
    norm_num
  refine ⟨e, by rw [e]; rfl, by norm_num, k0, ?_⟩
  simp only [addSlices, Nat.cast_zero, zero_mul, add_zero, k0, zero_add, Nat.cast_one, one_mul,
    k1, levelsEmplace]
  norm_num

/-! ## The order of the doubles is the order of their values -/

theorem Double.magValue_lt_succ (m : Nat) : Double.magValue m < Double.magValue (m + 1) := by
  have h52 : (2 : Nat) ^ 52 = 4503599627370496 := by norm_num
  have hpos : (0 : ℚ) < 2 ^ 1075 := by positivity
  have hpos4 : (0 : ℚ) < 2 ^ 1074 := by positivity
  unfold Double.magValue
  rw [h52]
  by_cases hcarry : m % 4503599627370496 + 1 < 4503599627370496
  · have h1 : (m + 1) / 4503599627370496 = m / 4503599627370496 := by omega
    have h2 : (m + 1) % 4503599627370496 = m % 4503599627370496 + 1 := by omega
    rw [h1, h2]
    by_cases he : m / 4503599627370496 = 0
    · rw [if_pos he, if_pos he]
      apply div_lt_div_of_pos_right _ hpos4
      push_cast
      linarith
    · rw [if_neg he, if_neg he]
      apply div_lt_div_of_pos_right _ hpos
      apply mul_lt_mul_of_pos_right _ (by positivity)
      push_cast
      linarith
  · have h1 : (m + 1) / 4503599627370496 = m / 4503599627370496 + 1 := by omega
    have h2 : (m + 1) % 4503599627370496 = 0 := by omega
    have h3 : m % 4503599627370496 = 4503599627370495 := by omega
    rw [h1, h2, h3, if_neg (Nat.succ_ne_zero _)]
    by_cases he : m / 4503599627370496 = 0
    · rw [if_pos he, he]
      rw [div_lt_div_iff₀ hpos4 hpos]
      norm_num
    · rw [if_neg he]
      apply div_lt_div_of_pos_right _ hpos
      have hp : (0 : ℚ) < 2 ^ (m / 4503599627370496) := by positivity
      have e1 : ((4503599627370496 + 4503599627370495 : Nat) : ℚ) = 9007199254740991 := by
        norm_num
      have e2 : ((4503599627370496 + 0 : Nat) : ℚ) * 2 ^ (m / 4503599627370496 + 1)
          = 9007199254740992 * 2 ^ (m / 4503599627370496) := by
        rw [pow_succ]; push_cast; ring
      rw [e1, e2]
      exact mul_lt_mul_of_pos_right (by norm_num) hp

theorem Double.magValue_strictMono : StrictMono Double.magValue :=
  strictMono_nat_of_lt_succ Double.magValue_lt_succ

theorem Double.magValue_zero : Double.magValue 0 = 0 := by
  norm_num [Double.magValue]

theorem Double.toRat_ofOrd (n : Int) (q : ℚ) (h : Double.toRat (Double.ofOrd n) = some q) :
    q = if n < 0 then -Double.magValue n.natAbs else Double.magValue n.natAbs := by
  unfold Double.toRat at h
  dsimp only at h
  by_cases hm : 0x7FF0000000000000 ≤ n.natAbs
  · rw [if_pos hm] at h
    exact absurd h (by simp)
  · rw [if_neg hm] at h
    simp only [Option.some.injEq] at h
    rw [← h]
    unfold Double.magValue
    split_ifs <;> rfl

/-- The value of a finite double grows strictly with its ordinal. -/
theorem Double.toRat_lt (a b : Int) (qa qb : ℚ)
    (ha : Double.toRat (Double.ofOrd a) = some qa)
    (hb : Double.toRat (Double.ofOrd b) = some qb) (hab : a < b) : qa < qb := by
  rw [Double.toRat_ofOrd a qa ha, Double.toRat_ofOrd b qb hb]
  have hz := Double.magValue_zero
  by_cases hna : a < 0
  · have hpa : Double.magValue 0 < Double.magValue a.natAbs :=
      Double.magValue_strictMono (by omega)
    by_cases hnb : b < 0
    · rw [if_pos hna, if_pos hnb]
      have := Double.magValue_strictMono (show b.natAbs < a.natAbs by omega)
      linarith
    · rw [if_pos hna, if_neg hnb]
      have : Double.magValue 0 ≤ Double.magValue b.natAbs :=
        Double.magValue_strictMono.monotone (by omega)
      linarith
  · have hnb : ¬ b < 0 := by omega
    rw [if_neg hna, if_neg hnb]
    exact Double.magValue_strictMono (by omega)

/-! ## The flow model -/

theorem accepted_lengths_ne_nil (c : SmallAreaInfillFlowCompensator) (h : c.accepted = true) :
    c.extrusionLengths ≠ [] :=
  ((accepted_iff_tolerated c).mp h).1

theorem max_modified_length_defined (c : SmallAreaInfillFlowCompensator)
    (h : c.accepted = true) : ∃ m, c.max_modified_length = some m := by
  have hne := accepted_lengths_ne_nil c h
  exact ⟨c.extrusionLengths.getLast hne, List.getLast?_eq_getLast _ hne⟩

theorem Double.value_of_toRat (x : Double) (q : ℚ) (h : Double.toRat x = some q) :
    Double.value x = q := by
  simp [Double.value, h]

theorem Double.value_zero : Double.value Double.zero = 0 := by
  norm_num [Double.value, Double.toRat, Double.zero]

theorem Double.value_one : Double.value Double.one = 1 := by
  norm_num [Double.value, Double.toRat, Double.one]

/-- C11: for every compensator whose table passed the validation, every line
length and every `dE`, `modify_flow` returns `dE` unchanged when the role is
neither solid infill nor top solid infill, and also when the length is 0 or
greater than the last configured length; with the curve [(0,0.5),(5,1.0)],
`modify_flow(10, 1.0, solid infill)` and `modify_flow(2.5, 1.0, perimeter)`
are 1.0. -/
theorem modify_flow_unchanged :
    (∀ (c : SmallAreaInfillFlowCompensator) (line_length : Double) (dE : ℚ)
        (role : ExtrusionRole), c.accepted = true →
      (role ≠ ExtrusionRole.erSolidInfill → role ≠ ExtrusionRole.erTopSolidInfill →
        c.modify_flow line_length dE role = some dE) ∧
      ((Double.eq line_length Double.zero = true ∨
          ∃ m, c.max_modified_length = some m ∧ Double.gt line_length m = true) →
        c.modify_flow line_length dE role = some dE)) ∧
    sampleCurve.accepted = true ∧
    sampleCurve.modify_flow Double.ten 1 ExtrusionRole.erSolidInfill = some 1 ∧
    sampleCurve.modify_flow Double.twoAndHalf 1 ExtrusionRole.erPerimeter = some 1 := by
  have general : ∀ (c : SmallAreaInfillFlowCompensator) (line_length : Double) (dE : ℚ)
      (role : ExtrusionRole), c.accepted = true →
      (role ≠ ExtrusionRole.erSolidInfill → role ≠ ExtrusionRole.erTopSolidInfill →
        c.modify_flow line_length dE role = some dE) ∧
      ((Double.eq line_length Double.zero = true ∨
          ∃ m, c.max_modified_length = some m ∧ Double.gt line_length m = true) →
        c.modify_flow line_length dE role = some dE) := by
    intro c line_length dE role hc
    constructor
    · intro h1 h2
      simp [SmallAreaInfillFlowCompensator.modify_flow, h1, h2]
    · intro hlen
      obtain ⟨m, hm⟩ := max_modified_length_defined c hc
      have hbranch : (Double.eq line_length Double.zero || Double.gt line_length m) = true := by
        rcases hlen with h0 | ⟨m', hm', hgt⟩
        · simp [h0]
        · rw [hm] at hm'
          cases hm'
          simp [hgt]
      unfold SmallAreaInfillFlowCompensator.modify_flow
      split_ifs
      · simp [SmallAreaInfillFlowCompensator.flow_comp_model,
          SmallAreaInfillFlowCompensator.flow_comp_model_with, hm, hbranch]
      · rfl
  refine ⟨general, by decide, ?_, ?_⟩
  · exact (general sampleCurve Double.ten 1 _ (by decide)).2
      (Or.inr ⟨Double.five, by decide, by decide⟩)
  · exact (general sampleCurve Double.twoAndHalf 1 _ (by decide)).1 (by decide) (by decide)

/-- Witness of `modify_flow_unchanged`: the curve [(0,0.5),(5,1.0)] with a
length beyond the table and with a role that is not compensated. -/
theorem modify_flow_unchanged_witness :
    sampleCurve.modify_flow Double.ten (7 / 3) ExtrusionRole.erTopSolidInfill = some (7 / 3) ∧
    sampleCurve.modify_flow Double.twoAndHalf (7 / 3) ExtrusionRole.erGapFill = some (7 / 3) :=
  ⟨(modify_flow_unchanged.1 sampleCurve Double.ten (7 / 3) ExtrusionRole.erTopSolidInfill
      (by decide)).2 (Or.inr ⟨Double.five, by decide, by decide⟩),
   (modify_flow_unchanged.1 sampleCurve Double.twoAndHalf (7 / 3) ExtrusionRole.erGapFill
      (by decide)).1 (by decide) (by decide)⟩

theorem two_point_table_accepted (f L : Double) (hL : Double.lt (Double.ofOrd 1) L = true) :
    (tableOf [(Double.zero, f), (L, Double.one)]).accepted = true := by
  rw [accepted_iff_tolerated]
  cases L with
  | nan => simp [Double.lt] at hL
  | ofOrd n =>
    simp only [Double.lt, decide_eq_true_eq] at hL
    refine ⟨by simp [tableOf], by simp [tableOf], by simp [tableOf],
      ⟨Double.zero, by simp [tableOf], by decide⟩, ?_, ⟨Double.one, by simp [tableOf], by decide⟩⟩
    simp only [tableOf, List.map_cons, List.map_nil, List.chain'_cons, List.chain'_singleton,
      and_true]
    constructor
    · simp only [Double.withinOneUlp, Double.zero, decide_eq_false_iff_not]
      omega
    · simp only [Double.le, Double.zero, decide_eq_false_iff_not]
      omega

/-! ## What the validation guarantees about an accepted table -/

theorem chain_lt_of_numbers (lens : List Double) :
    ∀ prev : Double, (∀ x ∈ prev :: lens, Double.isNumber x = true) →
      List.Chain (fun prev len =>
        Double.withinOneUlp len Double.zero = false ∧ Double.le len prev = false) prev lens →
      List.Chain (fun prev len => Double.lt prev len = true) prev lens := by
  induction lens with
  | nil => intro prev _ _; exact List.Chain.nil
  | cons len rest ih =>
    intro prev hnum h
    rw [List.chain_cons] at h ⊢
    refine ⟨?_, ih len (fun x hx => hnum x (List.mem_cons_of_mem _ hx)) h.2⟩
    have hp := hnum prev (List.mem_cons_self _ _)
    have hl := hnum len (List.mem_cons_of_mem _ (List.mem_cons_self _ _))
    have hle := h.1.2
    cases prev with
    | nan => simp [Double.isNumber] at hp
    | ofOrd a =>
      cases len with
      | nan => simp [Double.isNumber] at hl
      | ofOrd b =>
        simp only [Double.le, decide_eq_false_iff_not] at hle
        simp only [Double.lt, decide_eq_true_eq]
        omega

theorem accepted_lengths_increasing (c : SmallAreaInfillFlowCompensator)
    (h : c.accepted = true) (hnum : ∀ len ∈ c.extrusionLengths, Double.isNumber len = true) :
    lengthsIncreasing c := by
  obtain ⟨-, -, -, -, hchain, -⟩ := (accepted_iff_tolerated c).mp h
  unfold lengthsIncreasing
  cases hl : c.extrusionLengths with
  | nil => exact List.chain'_nil
  | cons len0 lens =>
    rw [hl] at hchain hnum
    exact chain_lt_of_numbers lens len0 hnum hchain

/-- C19 as stated fails: the table [(0, 2.0), (1, 1.0)] is accepted and its
factors decrease. -/
theorem accepted_factors_decrease :
    (tableOf [(Double.zero, Double.two), (Double.one, Double.one)]).accepted = true ∧
    Double.le Double.two Double.one = false ∧
    ¬ factorsNonDecreasing (tableOf [(Double.zero, Double.two), (Double.one, Double.one)]) := by
  refine ⟨by decide, by decide, ?_⟩
  simp only [factorsNonDecreasing, tableOf, List.map_cons, List.map_nil, List.chain'_cons,
    List.chain'_singleton, and_true]
  decide

/-- C19 (amended): the validation constrains the lengths and the last factor,
not the order of the factors: for every accepted table whose lengths are
numbers, the extrusion lengths are strictly increasing (length[i-1] <
length[i] for every i >= 1) and the last factor is within one unit in the last
place of 1.0. -/
theorem accepted_curve_lengths_monotonic (c : SmallAreaInfillFlowCompensator)
    (h : c.accepted = true) (hnum : ∀ len ∈ c.extrusionLengths, Double.isNumber len = true) :
    lengthsIncreasing c ∧
      ∃ f, c.flowCompensationFactors.getLast? = some f ∧
        Double.withinOneUlp f Double.one = true :=
  ⟨accepted_lengths_increasing c h hnum, ((accepted_iff_tolerated c).mp h).2.2.2.2.2⟩

/-- Witness of `accepted_curve_lengths_monotonic`: the table [(0, 2.0), (1, 1.0)]. -/
theorem accepted_curve_lengths_monotonic_witness :
    lengthsIncreasing (tableOf [(Double.zero, Double.two), (Double.one, Double.one)]) ∧
      ∃ f, (tableOf [(Double.zero, Double.two), (Double.one, Double.one)]).flowCompensationFactors.getLast?
          = some f ∧ Double.withinOneUlp f Double.one = true :=
  accepted_curve_lengths_monotonic
    (tableOf [(Double.zero, Double.two), (Double.one, Double.one)]) (by decide) (by decide)

theorem chain_lt_le_last (lens : List Double) :
    ∀ prev : Double, Double.isNumber prev = true →
      List.Chain (fun prev len => Double.lt prev len = true) prev lens →
      ∀ x ∈ prev :: lens,
        Double.le x ((prev :: lens).getLast (List.cons_ne_nil prev lens)) = true := by
  induction lens with
  | nil =>
    intro prev hp _ x hx
    rw [List.mem_singleton] at hx
    subst hx
    cases x with
    | nan => simp [Double.isNumber] at hp
    | ofOrd a => simp [Double.le]
  | cons len rest ih =>
    intro prev hp h x hx
    rw [List.chain_cons] at h
    have hlen : Double.isNumber len = true := by
      cases len with
      | nan => cases prev <;> simp [Double.lt] at h
      | ofOrd b => rfl
    have hrec := ih len hlen h.2
    rw [List.getLast_cons (List.cons_ne_nil len rest)]
    rcases List.mem_cons.mp hx with rfl | hx
    · have h1 := hrec len (List.mem_cons_self _ _)
      have h2 := h.1
      revert h1 h2
      generalize (len :: rest).getLast (List.cons_ne_nil len rest) = last
      cases x <;> cases len <;> cases last <;>
        simp only [Double.le, Double.lt, decide_eq_true_eq, Bool.false_eq_true, imp_self,
          false_imp_iff, implies_true]
      omega
    · exact hrec x hx

/-- C20 as stated fails: the one-point table [(-4.9e-324, 1.0)] is accepted;
its first length is not zero and its last length, which
`max_modified_length()` returns, is negative. -/
theorem accepted_negative_max_length :
    (tableOf [(Double.negDenormMin, Double.one)]).accepted = true ∧
    (tableOf [(Double.negDenormMin, Double.one)]).extrusionLengths.head?
      = some Double.negDenormMin ∧
    Double.eq Double.negDenormMin Double.zero = false ∧
    (tableOf [(Double.negDenormMin, Double.one)]).max_modified_length
      = some Double.negDenormMin ∧
    Double.lt Double.negDenormMin Double.zero = true ∧
    Double.toRat Double.negDenormMin = some (-(1 / 2 ^ 1074)) := by
  refine ⟨by decide, by decide, by decide, by decide, by decide, ?_⟩
  norm_num [Double.toRat, Double.negDenormMin]

/-- C20 (amended): for every compensator whose table passed the validation and
whose lengths are numbers, the length list is non-empty, starts within one
unit in the last place of zero and is strictly increasing, so
`max_modified_length()` (the last element) is defined, is the maximum of all
configured lengths and is not below the negative double next to zero; hence,
for a line length that is a number, `flow_comp_model` depends on the
interpolation model only through its values at lengths that are at most the
largest configured length. -/
theorem constructed_max_modified_length (c : SmallAreaInfillFlowCompensator)
    (h : c.accepted = true) (hnum : ∀ len ∈ c.extrusionLengths, Double.isNumber len = true) :
    c.extrusionLengths ≠ [] ∧
    (∃ len0, c.extrusionLengths.head? = some len0 ∧
      Double.withinOneUlp len0 Double.zero = true) ∧
    lengthsIncreasing c ∧
    ∃ m, c.max_modified_length = some m ∧
      (∀ len ∈ c.extrusionLengths, Double.le len m = true) ∧
      Double.le Double.negDenormMin m = true ∧
      ∀ (M1 M2 : Double → ℚ) (line_length : Double),
        (∀ y, Double.le y m = true → M1 y = M2 y) → Double.isNumber line_length = true →
        c.flow_comp_model_with M1 line_length = c.flow_comp_model_with M2 line_length := by
  obtain ⟨hne, -, -, ⟨len0, hhead, hzero⟩, -, -⟩ := (accepted_iff_tolerated c).mp h
  have hinc := accepted_lengths_increasing c h hnum
  refine ⟨hne, ⟨len0, hhead, hzero⟩, hinc, ?_⟩
  cases hl : c.extrusionLengths with
  | nil => exact absurd hl hne
  | cons a lens =>
    rw [hl] at hhead hnum
    simp only [List.head?_cons, Option.some.injEq] at hhead
    subst hhead
    unfold lengthsIncreasing at hinc
    rw [hl] at hinc
    have hmax := chain_lt_le_last lens a (hnum a (List.mem_cons_self _ _)) hinc
    have hm : c.max_modified_length
        = some ((a :: lens).getLast (List.cons_ne_nil a lens)) := by
      unfold SmallAreaInfillFlowCompensator.max_modified_length
      rw [hl, List.getLast?_eq_getLast _ (List.cons_ne_nil a lens)]
    have hmnum : Double.isNumber ((a :: lens).getLast (List.cons_ne_nil a lens)) = true :=
      hnum _ (List.getLast_mem _)
    have hfirst := hmax a (List.mem_cons_self _ _)
    refine ⟨_, hm, hmax, ?_, ?_⟩
    · revert hfirst hzero
      generalize (a :: lens).getLast (List.cons_ne_nil a lens) = last
      cases a <;> cases last <;>
        simp only [Double.le, Double.withinOneUlp, Double.zero, Double.negDenormMin,
          decide_eq_true_eq, Bool.false_eq_true, imp_self, false_imp_iff, implies_true]
      omega
    · intro M1 M2 x hagree hx
      unfold SmallAreaInfillFlowCompensator.flow_comp_model_with
      rw [hm]
      dsimp only
      revert hagree hmnum
      generalize (a :: lens).getLast (List.cons_ne_nil a lens) = last
      intro hmnum hagree
      by_cases hb : (Double.eq x Double.zero || Double.gt x last) = true
      · rw [if_pos hb, if_pos hb]
      · rw [if_neg hb, if_neg hb]
        have hle : Double.le x last = true := by
          simp only [Bool.or_eq_true, not_or, Bool.not_eq_true] at hb
          have hgt := hb.2
          cases x with
          | nan => simp [Double.isNumber] at hx
          | ofOrd nx =>
            cases last with
            | nan => simp [Double.isNumber] at hmnum
            | ofOrd nl =>
              simp only [Double.gt, Double.lt, decide_eq_false_iff_not] at hgt
              simp only [Double.le, decide_eq_true_eq]
              omega
        rw [hagree x hle]

/-- Witness of `constructed_max_modified_length`: the curve [(0,0.5),(5,1.0)]. -/
theorem constructed_max_modified_length_witness :
    sampleCurve.extrusionLengths ≠ [] ∧
    (∃ len0, sampleCurve.extrusionLengths.head? = some len0 ∧
      Double.withinOneUlp len0 Double.zero = true) ∧
    lengthsIncreasing sampleCurve ∧
    ∃ m, sampleCurve.max_modified_length = some m ∧
      (∀ len ∈ sampleCurve.extrusionLengths, Double.le len m = true) ∧
      Double.le Double.negDenormMin m = true ∧
      ∀ (M1 M2 : Double → ℚ) (line_length : Double),
        (∀ y, Double.le y m = true → M1 y = M2 y) → Double.isNumber line_length = true →
        sampleCurve.flow_comp_model_with M1 line_length
          = sampleCurve.flow_comp_model_with M2 line_length :=
  constructed_max_modified_length sampleCurve (by decide) (by decide)

/-! ## The messages of the validation -/

theorem checkLengthsLoop_append (pre rest : List Double) :
    ∀ prev : Double,
      List.Chain (fun prev len =>
        Double.withinOneUlp len Double.zero = false ∧ Double.le len prev = false) prev pre →
      checkLengthsLoop prev (pre ++ rest)
        = checkLengthsLoop ((prev :: pre).getLast (List.cons_ne_nil prev pre)) rest := by
  induction pre with
  | nil => intro prev _; rfl
  | cons len pre ih =>
    intro prev h
    rw [List.chain_cons] at h
    rw [List.cons_append, checkLengthsLoop, nearly_equal_zero, h.1.1, h.1.2]
    simp only [Bool.false_eq_true, if_false]
    rw [ih len h.2, List.getLast_cons (List.cons_ne_nil len pre)]

/-- C17 as stated fails: the table [(0, 0.5), (1, 0.9999999999999999)] has no
other defect than a last factor different from 1.0, and the validation raises
nothing for it. -/
theorem last_factor_defect_not_reported :
    Double.eq Double.onePrev Double.one = false ∧
    (tableOf [(Double.zero, Double.half), (Double.one, Double.onePrev)]).check_model_parameter_correctness
      = Except.ok () ∧
    (tableOf [(Double.zero, Double.half), (Double.one, Double.one)]).check_model_parameter_correctness
      = Except.ok () := by
  refine ⟨by decide, rfl, rfl⟩

/-- C17 (amended): every rejection carries the message of the first check that
fails, in the order of the checks: an empty length list gives the no-lengths
message, an empty factor list the no-factors message, unequal sizes the
size-mismatch message, a first length that is not within one unit in the last
place of zero the first-length message; the first later length that fails
gives the only-the-first-can-be-0 message when it is within one unit in the
last place of zero and the increasing-order message when it is not but is
less than or equal to its predecessor; and a table whose lengths pass and
whose last factor is not within one unit in the last place of 1.0 gives the
final-factor message. -/
theorem check_error_messages (c : SmallAreaInfillFlowCompensator) :
    (c.extrusionLengths = [] →
      c.check_model_parameter_correctness = Except.error
        "Small area infill compensation model is misconfigured: no lengths have been set") ∧
    (c.extrusionLengths ≠ [] → c.flowCompensationFactors = [] →
      c.check_model_parameter_correctness = Except.error
        "Small area infill compensation model is misconfigured: no compensation factors have been set") ∧
    (c.extrusionLengths ≠ [] → c.flowCompensationFactors ≠ [] →
      c.extrusionLengths.length ≠ c.flowCompensationFactors.length →
      c.check_model_parameter_correctness = Except.error
        "Small area infill compensation model is misconfigured: Different size of lengths and compensation factors") ∧
    (∀ len0 lens, c.extrusionLengths = len0 :: lens →
      c.extrusionLengths.length = c.flowCompensationFactors.length →
      Double.withinOneUlp len0 Double.zero = false →
      c.check_model_parameter_correctness = Except.error
        "First extrusion length for small area infill compensation model must be 0") ∧
    (∀ len0 pre len post, c.extrusionLengths = len0 :: (pre ++ len :: post) →
      c.extrusionLengths.length = c.flowCompensationFactors.length →
      Double.withinOneUlp len0 Double.zero = true →
      List.Chain (fun prev len =>
        Double.withinOneUlp len Double.zero = false ∧ Double.le len prev = false) len0 pre →
      (Double.withinOneUlp len Double.zero = true →
        c.check_model_parameter_correctness = Except.error
          "Only the first extrusion length for small area infill compensation model can be 0") ∧
      (Double.withinOneUlp len Double.zero = false →
        Double.le len ((len0 :: pre).getLast (List.cons_ne_nil len0 pre)) = true →
        c.check_model_parameter_correctness = Except.error
          "Extrusion lengths for subsequent points must be in increasing order")) ∧
    (∀ len0 lens f, c.extrusionLengths = len0 :: lens →
      c.extrusionLengths.length = c.flowCompensationFactors.length →
      Double.withinOneUlp len0 Double.zero = true →
      List.Chain (fun prev len =>
        Double.withinOneUlp len Double.zero = false ∧ Double.le len prev = false) len0 lens →
      c.flowCompensationFactors.getLast? = some f →
      Double.withinOneUlp f Double.one = false →
      c.check_model_parameter_correctness = Except.error
        "Final compensation factor for small area infill flow compensation model must be 1.0") := by
  obtain ⟨lengths, factors⟩ := c
  refine ⟨?_, ?_, ?_, ?_, ?_, ?_⟩
  · intro h
    simp only at h
    subst h
    rfl
  · intro h1 h2
    simp only at h1 h2
    subst h2
    cases lengths with
    | nil => exact absurd rfl h1
    | cons a l => rfl
  · intro h1 h2 h3
    simp only at h1 h2 h3
    cases lengths with
    | nil => exact absurd rfl h1
    | cons a l =>
      cases factors with
      | nil => exact absurd rfl h2
      | cons f0 fs =>
        simp only [SmallAreaInfillFlowCompensator.check_model_parameter_correctness]
        rw [if_pos h3]
        rfl
  · intro len0 lens hl hsize hfirst
    simp only at hl hsize
    subst hl
    cases factors with
    | nil => simp at hsize
    | cons f0 fs =>
      simp only [SmallAreaInfillFlowCompensator.check_model_parameter_correctness]
      rw [if_neg (not_not.mpr hsize), nearly_equal_zero, hfirst]
      rfl
  · intro len0 pre len post hl hsize hfirst hchain
    simp only at hl hsize
    subst hl
    cases factors with
    | nil => simp at hsize
    | cons f0 fs =>
      have hloop := checkLengthsLoop_append pre (len :: post) len0 hchain
      constructor
      · intro hz
        simp only [SmallAreaInfillFlowCompensator.check_model_parameter_correctness]
        rw [if_neg (not_not.mpr hsize), nearly_equal_zero, hfirst, hloop, checkLengthsLoop,
          nearly_equal_zero, hz]
        rfl
      · intro hz hle
        simp only [SmallAreaInfillFlowCompensator.check_model_parameter_correctness]
        rw [if_neg (not_not.mpr hsize), nearly_equal_zero, hfirst, hloop, checkLengthsLoop,
          nearly_equal_zero, hz, hle]
        rfl
  · intro len0 lens f hl hsize hfirst hchain hlast hf
    simp only at hl hsize hlast
    subst hl
    cases factors with
    | nil => simp at hsize
    | cons f0 fs =>
      rw [List.getLast?_eq_getLast _ (List.cons_ne_nil f0 fs)] at hlast
      simp only [Option.some.injEq] at hlast
      simp only [SmallAreaInfillFlowCompensator.check_model_parameter_correctness]
      rw [if_neg (not_not.mpr hsize), nearly_equal_zero, hfirst,
        (checkLengthsLoop_ok_iff lens len0).mpr hchain, nearly_equal_one, hlast, hf]
      rfl

/-- Witness of `check_error_messages`: the tables [], [(1,0.5),(2,1.0)],
[(0,0.5),(2,0.9),(1,1.0)], [(0,0.5),(0,1.0)] and [(0,0.5),(1,0.9)]. -/
theorem check_error_messages_witness :
    (tableOf []).check_model_parameter_correctness = Except.error
      "Small area infill compensation model is misconfigured: no lengths have been set" ∧
    (tableOf [(Double.one, Double.half), (Double.two, Double.one)]).check_model_parameter_correctness
      = Except.error
        "First extrusion length for small area infill compensation model must be 0" ∧
    (tableOf [(Double.zero, Double.half), (Double.two, Double.ninetenths),
        (Double.one, Double.one)]).check_model_parameter_correctness
      = Except.error "Extrusion lengths for subsequent points must be in increasing order" ∧
    (tableOf [(Double.zero, Double.half), (Double.zero, Double.one)]).check_model_parameter_correctness
      = Except.error
        "Only the first extrusion length for small area infill compensation model can be 0" ∧
    (tableOf [(Double.zero, Double.half), (Double.one, Double.ninetenths)]).check_model_parameter_correctness
      = Except.error
        "Final compensation factor for small area infill flow compensation model must be 1.0" :=
  ⟨(check_error_messages (tableOf [])).1 rfl,
   (check_error_messages (tableOf [(Double.one, Double.half), (Double.two, Double.one)])).2.2.2.1
      Double.one [Double.two] rfl rfl (by decide),
   ((check_error_messages (tableOf [(Double.zero, Double.half), (Double.two, Double.ninetenths),
        (Double.one, Double.one)])).2.2.2.2.1
      Double.zero [Double.two] Double.one [] rfl rfl (by decide)
      (List.Chain.cons (by decide) List.Chain.nil)).2 (by decide) (by decide),
   ((check_error_messages (tableOf [(Double.zero, Double.half), (Double.zero, Double.one)])).2.2.2.2.1
      Double.zero [] Double.zero [] rfl rfl (by decide) List.Chain.nil).1 (by decide),
   (check_error_messages (tableOf [(Double.zero, Double.half),
        (Double.one, Double.ninetenths)])).2.2.2.2.2
      Double.zero [Double.one] Double.ninetenths rfl rfl (by decide)
      (List.Chain.cons (by decide) List.Chain.nil) rfl (by decide)⟩

/-! ## Applying a model -/

theorem applyObject_fresh (sf : ℚ) (defaults : SLAPrintObjectConfig) (lh : ℚ)
    (mo : ModelObject) :
    (applyObject sf defaults lh mo).m_model_object = mo ∧
    (∀ s, (applyObject sf defaults lh mo).m_state s = StepState.Pending) ∧
    (∀ s, (applyObject sf defaults lh mo).m_stepmask s = true) ∧
    (applyObject sf defaults lh mo).m_model_slices = [] ∧
    (applyObject sf defaults lh mo).m_supportdata = none ∧
    (applyObject sf defaults lh mo).m_config.layer_height = lh ∧
    (applyObject sf defaults lh mo).m_instances.map (fun pi => pi.instance_id)
      = mo.instances.map (fun oinst => oinst.id) := by
  refine ⟨rfl, fun _ => rfl, fun _ => rfl, rfl, rfl, rfl, ?_⟩
  simp [applyObject, SLAPrintObject.new, List.map_map, Function.comp_def]

/-- C13: `apply` returns `Unchanged` exactly when both the incoming model and
the existing collection of print objects are empty, and then leaves the print
as it is; in every other case it returns `Invalidated` and the collection
becomes one fresh print object per model object, in model order, whatever the
collection held before: each one is attached to its model object, has every
stage `Pending`, no slices and no support data, and holds one instance per
model instance, in order. -/
theorem apply_replaces_objects (G : Collaborators) (defaults : SLAPrintObjectConfig)
    (p : SLAPrint) (model : Model) (config_in : DynamicPrintConfig) :
    ((apply G defaults p model config_in).1 = ApplyStatus.APPLY_STATUS_UNCHANGED ↔
      p.m_objects = [] ∧ model.objects = []) ∧
    ((apply G defaults p model config_in).1 = ApplyStatus.APPLY_STATUS_UNCHANGED →
      (apply G defaults p model config_in).2 = p) ∧
    (¬ (p.m_objects = [] ∧ model.objects = []) →
      (apply G defaults p model config_in).1 = ApplyStatus.APPLY_STATUS_INVALIDATED ∧
      (apply G defaults p model config_in).2.m_objects.length = model.objects.length ∧
      (apply G defaults p model config_in).2.m_objects.map (fun po => po.m_model_object)
        = model.objects ∧
      ∀ po ∈ (apply G defaults p model config_in).2.m_objects,
        (∀ s, po.m_state s = StepState.Pending) ∧
        po.m_model_slices = [] ∧ po.m_supportdata = none ∧
        po.m_instances.length = po.m_model_object.instances.length ∧
        po.m_instances.map (fun pi => pi.instance_id)
          = po.m_model_object.instances.map (fun oinst => oinst.id)) := by
  have hiff : (p.m_objects.isEmpty && model.objects.isEmpty) = true ↔
      p.m_objects = [] ∧ model.objects = [] := by
    simp [List.isEmpty_iff]
  by_cases hboth : p.m_objects = [] ∧ model.objects = []
  · have hb := hiff.mpr hboth
    simp [apply, hb, hboth]
  · have hb : ¬ (p.m_objects.isEmpty && model.objects.isEmpty) = true := fun h => hboth (hiff.mp h)
    refine ⟨?_, ?_, ?_⟩
    · simp only [apply, if_neg hb, reduceCtorEq, false_iff]
      exact hboth
    · intro h
      simp [apply, if_neg hb] at h
    · intro _
      simp only [apply, if_neg hb, List.length_map, List.map_map, true_and]
      refine ⟨?_, ?_⟩
      · have : ((fun po : SLAPrintObject => po.m_model_object)
            ∘ applyObject G.SCALING_FACTOR defaults config_in.layer_height) = id := by
          funext mo; rfl
        rw [this, List.map_id]
      · intro po hpo
        obtain ⟨mo, -, rfl⟩ := List.mem_map.mp hpo
        obtain ⟨h1, h2, -, h4, h5, -, h7⟩ :=
          applyObject_fresh G.SCALING_FACTOR defaults config_in.layer_height mo
        refine ⟨h2, h4, h5, ?_, ?_⟩
        · have := congrArg List.length h7
          simpa [h1] using this
        · rw [h1]; exact h7

/-- Witness of `apply_replaces_objects`: the sample model is applied to the
print that holds the sample object. -/
theorem apply_replaces_objects_witness :
    (apply sampleGeometry sampleConfig samplePrint sampleModel { layer_height := 1 / 20 }).1
      = ApplyStatus.APPLY_STATUS_INVALIDATED ∧
    (apply sampleGeometry sampleConfig samplePrint sampleModel
        { layer_height := 1 / 20 }).2.m_objects.length = sampleModel.objects.length ∧
    (apply sampleGeometry sampleConfig samplePrint sampleModel
        { layer_height := 1 / 20 }).2.m_objects.map (fun po => po.m_model_object)
      = sampleModel.objects ∧
    ∀ po ∈ (apply sampleGeometry sampleConfig samplePrint sampleModel
        { layer_height := 1 / 20 }).2.m_objects,
      (∀ s, po.m_state s = StepState.Pending) ∧
      po.m_model_slices = [] ∧ po.m_supportdata = none ∧
      po.m_instances.length = po.m_model_object.instances.length ∧
      po.m_instances.map (fun pi => pi.instance_id)
        = po.m_model_object.instances.map (fun oinst => oinst.id) :=
  (apply_replaces_objects sampleGeometry sampleConfig samplePrint sampleModel
    { layer_height := 1 / 20 }).2.2 (fun h => List.cons_ne_nil _ _ h.1)

/-! ## Masked stages -/

theorem logAvoids_refl (e : Event) (l : List Event) : logAvoids e l l :=
  ⟨[], by simp, by simp⟩

theorem logAvoids_trans {e : Event} {a b c : List Event} (h1 : logAvoids e a b)
    (h2 : logAvoids e b c) : logAvoids e a c := by
  obtain ⟨x, rfl, hx⟩ := h1
  obtain ⟨y, rfl, hy⟩ := h2
  exact ⟨x ++ y, by simp, by simp [hx, hy]⟩

theorem maskFrame_refl (po : SLAPrintObject) : maskFrame po po :=
  ⟨rfl, fun _ _ => rfl⟩

theorem maskFrame_trans {a b c : SLAPrintObject} (h1 : maskFrame a b) (h2 : maskFrame b c) :
    maskFrame a c :=
  ⟨h2.1.trans h1.1, fun s hs => (h2.2 s (by rw [h1.1]; exact hs)).trans (h1.2 s hs)⟩

/-- An iteration of the object driver at a stage whose mask bit is off: with
the flag set it raises the cancellation signal, otherwise it returns; in both
cases the object and the record of status reports and invocations are as
before. -/
theorem objIter_masked (G : Collaborators) (ilh : ℚ) (ev : CancelEvent) (i : Nat)
    (s : SLAPrintObjectStep) (sh : Shared) (po : SLAPrintObject)
    (hmask : po.m_stepmask s = false) :
    objIter G ilh ev i s sh po
      = if sh.canceled then (Outcome.canceled, sh, po) else (Outcome.ok, sh.arrive ev, po) := by
  unfold objIter
  simp [hmask]

theorem objIter_frame (G : Collaborators) (ilh : ℚ) (ev : CancelEvent) (i : Nat)
    (s : SLAPrintObjectStep) (sh : Shared) (po : SLAPrintObject) (i0 : Nat)
    (s0 : SLAPrintObjectStep) (hmask : i = i0 → po.m_stepmask s0 = false) :
    maskFrame po (objIter G ilh ev i s sh po).2.2 ∧
      logAvoids (Event.objInvoked i0 s0) sh.log (objIter G ilh ev i s sh po).2.1.log := by
  unfold objIter
  by_cases hc : sh.canceled = true
  · rw [if_pos hc]; exact ⟨maskFrame_refl _, logAvoids_refl _ _⟩
  · rw [if_neg hc]
    by_cases hm : (po.m_stepmask s && !po.is_step_done s) = true
    · rw [if_pos hm]
      dsimp only
      have hon : po.m_stepmask s = true := by
        simp only [Bool.and_eq_true] at hm
        exact hm.1
      have hstarted : maskFrame po (po.set_started s) := by
        refine ⟨rfl, fun t ht => ?_⟩
        have hts : t ≠ s := by
          rintro rfl
          rw [hon] at ht
          exact absurd ht (by simp)
        simp [SLAPrintObject.set_started, hts]
      have hadd : logAvoids (Event.objInvoked i0 s0) sh.log
          ((sh.set_status (OBJ_STEP_LEVELS s) (OBJ_STEP_LABELS s)).log
            ++ [Event.objInvoked i s]) := by
        refine ⟨[Event.status (OBJ_STEP_LEVELS s) (OBJ_STEP_LABELS s), Event.objInvoked i s],
          by simp [Shared.set_status], ?_⟩
        simp only [List.mem_cons, reduceCtorEq, Event.objInvoked.injEq, List.mem_singleton,
          List.not_mem_nil, or_false, false_or, not_and]
        intro hi hs
        have := hmask hi.symm
        rw [hs, hon] at this
        exact absurd this (by simp)
      split
      · exact ⟨hstarted, hadd⟩
      · next po2 hp =>
        obtain ⟨hst, hmk⟩ := pobj_program_frame G ilh _ s _ po2 hp
        split
        · exact ⟨maskFrame_trans hstarted ⟨hmk, fun t _ => by rw [hst]⟩, hadd⟩
        · next po3 hd =>
          obtain ⟨-, rfl⟩ := SLAPrintObject.set_done_some _ _ _ _ hd
          refine ⟨?_, hadd⟩
          refine maskFrame_trans hstarted ⟨?_, fun t ht => ?_⟩
          · simp only [hmk]
          · have hts : t ≠ s := by
              rintro rfl
              simp only [SLAPrintObject.set_started] at ht
              rw [hon] at ht
              exact absurd ht (by simp)
            simp [hts, hst]
    · rw [if_neg hm]; exact ⟨maskFrame_refl _, logAvoids_refl _ _⟩

theorem objSteps_frame (G : Collaborators) (ilh : ℚ) (env : CancelEnv) (i : Nat)
    (i0 : Nat) (s0 : SLAPrintObjectStep) (ss : List SLAPrintObjectStep) :
    ∀ (sh : Shared) (po : SLAPrintObject), (i = i0 → po.m_stepmask s0 = false) →
      maskFrame po (objSteps G ilh env i ss sh po).2.2 ∧
        logAvoids (Event.objInvoked i0 s0) sh.log (objSteps G ilh env i ss sh po).2.1.log := by
  induction ss with
  | nil => intro sh po _; exact ⟨maskFrame_refl _, logAvoids_refl _ _⟩
  | cons s ss ih =>
    intro sh po hmask
    obtain ⟨h1, h2⟩ := objIter_frame G ilh (env.obj i s) i s sh po i0 s0 hmask
    simp only [objSteps]
    rcases hi : objIter G ilh (env.obj i s) i s sh po with ⟨o, sh1, po1⟩
    rw [hi] at h1 h2
    cases o
    · obtain ⟨k1, k2⟩ := ih sh1 po1 (fun h => by
        have := hmask h
        rw [← h1.1] at this
        exact this)
      exact ⟨maskFrame_trans h1 k1, logAvoids_trans h2 k2⟩
    all_goals exact ⟨h1, h2⟩

theorem objLoop_frame (G : Collaborators) (ilh : ℚ) (env : CancelEnv) (i0 : Nat)
    (s0 : SLAPrintObjectStep) (objs : List SLAPrintObject) :
    ∀ (i : Nat) (sh : Shared),
      (∀ (k : Nat) (po : SLAPrintObject), objs[k]? = some po → i + k = i0 →
        po.m_stepmask s0 = false) →
      (∀ (k : Nat) (po : SLAPrintObject), objs[k]? = some po →
        ∃ po1, (objLoop G ilh env i objs sh).2.2[k]? = some po1 ∧ maskFrame po po1) ∧
      logAvoids (Event.objInvoked i0 s0) sh.log (objLoop G ilh env i objs sh).2.1.log := by
  induction objs with
  | nil =>
    intro i sh _
    exact ⟨fun k po h => by simp at h, logAvoids_refl _ _⟩
  | cons po rest ih =>
    intro i sh hmask
    obtain ⟨h1, h2⟩ := objSteps_frame G ilh env i i0 s0 objectsteps sh po
      (fun h => hmask 0 po (by simp) (by omega))
    simp only [objLoop]
    rcases hs : objSteps G ilh env i objectsteps sh po with ⟨o, sh1, po1⟩
    rw [hs] at h1 h2
    cases o
    · obtain ⟨k1, k2⟩ := ih (i + 1) sh1 (fun k q hq hk =>
        hmask (k + 1) q (by simpa using hq) (by omega))
      dsimp only
      refine ⟨?_, logAvoids_trans h2 k2⟩
      intro k q hq
      cases k with
      | zero =>
        simp only [List.getElem?_cons_zero, Option.some.injEq] at hq
        subst hq
        exact ⟨po1, by simp, h1⟩
      | succ k =>
        simp only [List.getElem?_cons_succ] at hq
        obtain ⟨q1, hq1, hf⟩ := k1 k q hq
        exact ⟨q1, by simpa using hq1, hf⟩
    all_goals
      dsimp only
      refine ⟨?_, h2⟩
      intro k q hq
      cases k with
      | zero =>
        simp only [List.getElem?_cons_zero, Option.some.injEq] at hq
        subst hq
        exact ⟨po1, by simp, h1⟩
      | succ k =>
        simp only [List.getElem?_cons_succ] at hq
        exact ⟨q, by simpa using hq, maskFrame_refl _⟩

theorem printIter_frame (G : Collaborators) (ev : CancelEvent) (s : SLAPrintStep)
    (p : SLAPrint) (i0 : Nat) (s0 : SLAPrintObjectStep) :
    (printIter G ev s p).2.m_objects = p.m_objects ∧
      logAvoids (Event.objInvoked i0 s0) p.shared.log (printIter G ev s p).2.shared.log := by
  unfold printIter
  by_cases hc : p.shared.canceled = true
  · rw [if_pos hc]; exact ⟨rfl, logAvoids_refl _ _⟩
  · rw [if_neg hc]
    by_cases hm : (p.m_stepmask s && !p.is_step_done s) = true
    · rw [if_pos hm]
      dsimp only
      have hadd : logAvoids (Event.objInvoked i0 s0) p.shared.log
          ((p.shared.set_status (PRINT_STEP_LEVELS s) (PRINT_STEP_LABELS s)).log
            ++ [Event.printInvoked s]) :=
        ⟨[Event.status (PRINT_STEP_LEVELS s) (PRINT_STEP_LABELS s), Event.printInvoked s],
          by simp [Shared.set_status], by simp⟩
      split
      · exact ⟨rfl, hadd⟩
      · next p2 hp =>
        obtain ⟨-, -, hobjs, hshared, -⟩ := print_program_frame G s _ p2 hp
        split
        · refine ⟨by simp only [hobjs, SLAPrint.set_started], ?_⟩
          simp only [hshared, Shared.arriveInStage]
          exact hadd
        · next p3 hd =>
          obtain ⟨-, rfl⟩ := SLAPrint.set_done_print_some _ _ _ _ hd
          refine ⟨by simp only [hobjs, SLAPrint.set_started], ?_⟩
          simp only [hshared, Shared.arrive, Shared.arriveInStage]
          exact hadd
    · rw [if_neg hm]; exact ⟨rfl, logAvoids_refl _ _⟩

theorem printLoop_frame (G : Collaborators) (env : CancelEnv) (i0 : Nat)
    (s0 : SLAPrintObjectStep) (ss : List SLAPrintStep) :
    ∀ p : SLAPrint,
      (printLoop G env ss p).2.m_objects = p.m_objects ∧
        logAvoids (Event.objInvoked i0 s0) p.shared.log (printLoop G env ss p).2.shared.log := by
  induction ss with
  | nil => intro p; exact ⟨rfl, logAvoids_refl _ _⟩
  | cons s ss ih =>
    intro p
    obtain ⟨h1, h2⟩ := printIter_frame G (env.print s) s p i0 s0
    simp only [printLoop]
    rcases hi : printIter G (env.print s) s p with ⟨o, p1⟩
    rw [hi] at h1 h2
    cases o
    · obtain ⟨k1, k2⟩ := ih p1
      exact ⟨k1.trans h1, logAvoids_trans h2 k2⟩
    all_goals exact ⟨h1, h2⟩

theorem process_frame (G : Collaborators) (env : CancelEnv) (p : SLAPrint) (i0 : Nat)
    (s0 : SLAPrintObjectStep) :
    (process G env p).2.m_objects
        = (objLoop G p.m_material_config.initial_layer_height env 0 p.m_objects p.shared).2.2 ∧
      logAvoids (Event.objInvoked i0 s0)
        (objLoop G p.m_material_config.initial_layer_height env 0 p.m_objects p.shared).2.1.log
        (process G env p).2.shared.log := by
  unfold process
  dsimp only
  rcases hl : objLoop G p.m_material_config.initial_layer_height env 0 p.m_objects p.shared
    with ⟨o, sh, objs⟩
  cases o
  · dsimp only
    obtain ⟨h1, h2⟩ := printLoop_frame G env i0 s0 printsteps
      { p with
        m_objects := objs
        shared := sh
        m_stepmask := fun t => if t = slapsRasterize then false else p.m_stepmask t }
    rcases hp : printLoop G env printsteps
        { p with
          m_objects := objs
          shared := sh
          m_stepmask := fun t => if t = slapsRasterize then false else p.m_stepmask t }
      with ⟨o2, p2⟩
    rw [hp] at h1 h2
    cases o2
    · exact ⟨h1, logAvoids_trans h2
        ⟨[Event.status 100 "Slicing done"], by simp [Shared.set_status], by simp⟩⟩
    all_goals exact ⟨h1, h2⟩
  all_goals exact ⟨rfl, logAvoids_refl _ _⟩

/-- C16 as stated fails: the following stages are not processed as if the
masked stage were satisfied.  The object `maskedTreeObject` has a support tree
(token 7), its build-support-tree stage is masked off and not `Done`; the run
returns normally, the add-pad stage is run and marked `Done`, but it adds no
pad, because it tests `is_step_done(slaposSupportTree)`: the tree is still 7.
On the same object with the build-support-tree stage `Done`, the add-pad stage
adds the pad (token 8). -/
theorem masked_stage_not_taken_as_done :
    maskedTreeObject.m_stepmask slaposSupportTree = false ∧
    maskedTreeObject.m_state slaposSupportTree = StepState.Started ∧
    maskedTreeObject.m_supportdata.map (fun sd => sd.support_tree_ptr) = some (some 7) ∧
    (process sampleGeometry quietEnv (freshPrint [maskedTreeObject])).1 = Outcome.ok ∧
    Event.objInvoked 0 slaposBasePool
      ∈ (process sampleGeometry quietEnv (freshPrint [maskedTreeObject])).2.shared.log ∧
    (process sampleGeometry quietEnv (freshPrint [maskedTreeObject])).2.m_objects.map
        (fun o => o.m_state slaposBasePool) = [StepState.Done] ∧
    (process sampleGeometry quietEnv (freshPrint [maskedTreeObject])).2.m_objects.map
        (fun o => o.m_supportdata.map (fun sd => sd.support_tree_ptr)) = [some (some 7)] ∧
    (process sampleGeometry quietEnv (freshPrint [doneTreeObject])).1 = Outcome.ok ∧
    (process sampleGeometry quietEnv (freshPrint [doneTreeObject])).2.m_objects.map
        (fun o => o.m_supportdata.map (fun sd => sd.support_tree_ptr)) = [some (some 8)] := by
  refine ⟨by decide, by decide, by decide, by decide, by decide, by decide, by decide,
    by decide, by decide⟩

/-- C16 (amended): for a print object and an object-level stage whose mask bit
is off, `process` leaves the status of that stage and the mask bit as they are
and adds no invocation of that stage function for that object to the record;
the driver iteration for such a stage leaves the object and the record of
status reports untouched, and when the flag is not set the driver goes on with
the following stages as if the masked stage were not in the list.  The masked
stage is not taken as done by the stages that follow: the add-pad stage
function leaves the object as it is whenever the build-support-tree stage is
not `Done`. -/
theorem process_masked_stage_skipped (G : Collaborators) (env : CancelEnv) (p : SLAPrint)
    (i : Nat) (po : SLAPrintObject) (s : SLAPrintObjectStep)
    (hpo : p.m_objects[i]? = some po) (hmask : po.m_stepmask s = false) :
    (∃ po1, (process G env p).2.m_objects[i]? = some po1 ∧
      po1.m_state s = po.m_state s ∧ po1.m_stepmask s = false) ∧
    logAvoids (Event.objInvoked i s) p.shared.log (process G env p).2.shared.log ∧
    (∀ (ilh : ℚ) (sh : Shared) (q : SLAPrintObject), q.m_stepmask s = false →
      (objIter G ilh (env.obj i s) i s sh q).2.2 = q ∧
      (objIter G ilh (env.obj i s) i s sh q).2.1.log = sh.log ∧
      (sh.canceled = false → ∀ ss : List SLAPrintObjectStep,
        objSteps G ilh env i (s :: ss) sh q
          = objSteps G ilh env i ss (sh.arrive (env.obj i s)) q)) ∧
    (∀ q : SLAPrintObject, q.is_step_done slaposSupportTree = false → base_pool G q = q) := by
  obtain ⟨hobjs, hlog⟩ := process_frame G env p i s
  obtain ⟨hframe, hlog0⟩ := objLoop_frame G p.m_material_config.initial_layer_height env i s
    p.m_objects 0 p.shared (fun k q hq hk => by
      have hk' : k = i := by omega
      subst hk'
      rw [hpo] at hq
      cases hq
      exact hmask)
  refine ⟨?_, logAvoids_trans hlog0 hlog, ?_, ?_⟩
  · obtain ⟨po1, h1, hf⟩ := hframe i po hpo
    refine ⟨po1, by rw [hobjs]; exact h1, hf.2 s hmask, ?_⟩
    rw [hf.1]; exact hmask
  · intro ilh sh q hq
    have h := objIter_masked G ilh (env.obj i s) i s sh q hq
    refine ⟨?_, ?_, ?_⟩
    · rw [h]; split_ifs <;> rfl
    · rw [h]; split_ifs <;> rfl
    · intro hc ss
      simp only [objSteps, h, hc, Bool.false_eq_true, if_false]
  · intro q hq
    simp [base_pool, hq]

/-- Witness of `process_masked_stage_skipped`: the sample object with the
support-islands stage masked off. -/
theorem process_masked_stage_skipped_witness :
    (∃ po1, (process sampleGeometry quietEnv (freshPrint [maskedObject])).2.m_objects[0]?
        = some po1 ∧
      po1.m_state slaposSupportIslands = maskedObject.m_state slaposSupportIslands ∧
      po1.m_stepmask slaposSupportIslands = false) ∧
    logAvoids (Event.objInvoked 0 slaposSupportIslands)
      (freshPrint [maskedObject]).shared.log
      (process sampleGeometry quietEnv (freshPrint [maskedObject])).2.shared.log ∧
    (process sampleGeometry quietEnv (freshPrint [maskedObject])).1 = Outcome.ok ∧
    (process sampleGeometry quietEnv (freshPrint [maskedObject])).2.m_objects.map
        (fun o => objectsteps.map o.m_state)
      = [[StepState.Done, StepState.Pending, StepState.Done, StepState.Done, StepState.Done,
          StepState.Done]] :=
  ⟨(process_masked_stage_skipped sampleGeometry quietEnv (freshPrint [maskedObject]) 0
      maskedObject slaposSupportIslands rfl rfl).1,
   (process_masked_stage_skipped sampleGeometry quietEnv (freshPrint [maskedObject]) 0
      maskedObject slaposSupportIslands rfl rfl).2.1,
   by decide, by decide⟩

/-! ## Buckets and canvases -/

theorem mem_keys_levelsEmplace (k : Int) (r : LayerRef) (levels : Levels) (x : Int) :
    x ∈ Levels.keys (levelsEmplace k r levels) ↔ x = k ∨ x ∈ Levels.keys levels := by
  induction levels with
  | nil => simp [levelsEmplace, Levels.keys]
  | cons e rest ih =>
    obtain ⟨k1, b⟩ := e
    unfold levelsEmplace
    by_cases h1 : k < k1
    · simp [h1, Levels.keys]
    · by_cases h2 : k = k1
      · subst h2
        simp [Levels.keys]
      · simp only [h1, h2, if_false]
        simp only [Levels.keys, List.map_cons, List.mem_cons] at ih ⊢
        rw [ih]
        tauto

theorem levelsEmplace_sorted (k : Int) (r : LayerRef) (levels : Levels)
    (h : (Levels.keys levels).Pairwise (· < ·)) :
    (Levels.keys (levelsEmplace k r levels)).Pairwise (· < ·) := by
  induction levels with
  | nil => simp [levelsEmplace, Levels.keys]
  | cons e rest ih =>
    obtain ⟨k1, b⟩ := e
    have hrest : (Levels.keys rest).Pairwise (· < ·) := by
      simp only [Levels.keys, List.map_cons, List.pairwise_cons] at h
      exact h.2
    have hhead : ∀ x ∈ Levels.keys rest, k1 < x := by
      simp only [Levels.keys, List.map_cons, List.pairwise_cons] at h
      exact h.1
    unfold levelsEmplace
    by_cases h1 : k < k1
    · simp only [h1, if_true, Levels.keys, List.map_cons, List.pairwise_cons]
      refine ⟨?_, hhead, hrest⟩
      intro x hx
      rcases List.mem_cons.mp hx with rfl | hx
      · exact h1
      · exact lt_trans h1 (hhead x hx)
    · by_cases h2 : k = k1
      · subst h2
        simpa [Levels.keys] using h
      · simp only [h1, h2, if_false]
        have hlt : k1 < k := by omega
        show (k1 :: Levels.keys (levelsEmplace k r rest)).Pairwise (· < ·)
        rw [List.pairwise_cons]
        refine ⟨?_, ih hrest⟩
        intro x hx
        rcases (mem_keys_levelsEmplace k r rest x).mp hx with rfl | hx
        · exact hlt
        · exact hhead x hx

theorem addSlices_sorted (sf ilh lh : ℚ) (copies : List Instance) (slices : List ExPolygons) :
    ∀ (i : Nat) (levels : Levels), (Levels.keys levels).Pairwise (· < ·) →
      (Levels.keys (addSlices sf ilh lh copies i slices levels)).Pairwise (· < ·) := by
  induction slices with
  | nil => intro i levels h; exact h
  | cons sl rest ih =>
    intro i levels h
    simp only [addSlices]
    exact ih _ _ (levelsEmplace_sorted _ _ _ h)

theorem aggregateObject_sorted (sf ilh : ℚ) (levels : Levels) (o : SLAPrintObject)
    (h : (Levels.keys levels).Pairwise (· < ·)) :
    (Levels.keys (aggregateObject sf ilh levels o)).Pairwise (· < ·) := by
  unfold aggregateObject
  dsimp only
  split
  · exact addSlices_sorted _ _ _ _ _ _ _ (addSlices_sorted _ _ _ _ _ _ _ h)
  · exact addSlices_sorted _ _ _ _ _ _ _ h

theorem foldl_aggregateObject_sorted (sf ilh : ℚ) (objs : List SLAPrintObject) :
    ∀ levels : Levels, (Levels.keys levels).Pairwise (· < ·) →
      (Levels.keys (objs.foldl (aggregateObject sf ilh) levels)).Pairwise (· < ·) := by
  induction objs with
  | nil => intro levels h; exact h
  | cons o rest ih =>
    intro levels h
    exact ih _ (aggregateObject_sorted sf ilh levels o h)

theorem aggregate_sorted (sf ilh : ℚ) (objs : List SLAPrintObject) :
    (Levels.keys (aggregate sf ilh objs)).Pairwise (· < ·) :=
  foldl_aggregateObject_sorted sf ilh objs [] (by simp [Levels.keys])

/-- The split at the first delimiter and `dropWhile` agree on what follows
the delimiter. -/
theorem splitAtDelim_snd (delim : Char) (l : List Char) :
    (splitAtDelim delim l).2 = (l.dropWhile (fun ch => ch ≠ delim)).tail? := by
  induction l with
  | nil => rfl
  | cons ch rest ih =>
    by_cases h : ch = delim
    · simp [splitAtDelim, h, List.dropWhile]
    · simp [splitAtDelim, h, List.dropWhile, ih]

/-- Without a delimiter the first part of the split is the whole list. -/
theorem splitAtDelim_none (delim : Char) (l : List Char)
    (h : (splitAtDelim delim l).2 = none) : (splitAtDelim delim l).1 = l := by
  induction l with
  | nil => rfl
  | cons ch rest ih =>
    by_cases hc : ch = delim
    · simp [splitAtDelim, hc] at h
    · simp only [splitAtDelim, hc, if_false] at h ⊢
      rw [ih h]

/-- A record has a second field exactly when something follows its first
comma. -/
theorem hasSecondField_eq (line : String) :
    hasSecondField line =
      match (splitAtDelim ',' line.toList).2 with
      | some (_ :: _) => true
      | _ => false := by
  unfold hasSecondField
  rw [splitAtDelim_snd]
  cases line.toList.dropWhile (fun ch => ch ≠ ',') with
  | nil => rfl
  | cons a t => cases t <;> rfl

/-- The second `getline` of an iteration succeeds exactly on the records that
have a second field. -/
theorem second_getline_toBool (line : String) (s : String) :
    (getline (getline (IStringStream.new line) "" ',').1 s ',').1.toBool =
      hasSecondField line := by
  rw [hasSecondField_eq]
  unfold getline IStringStream.new IStringStream.toBool
  simp only [Bool.or_self, Bool.false_eq_true, if_false]
  rcases h : splitAtDelim ',' line.toList with ⟨field, _ | rest⟩
  · simp
  · simp only [Bool.or_self, Bool.false_eq_true, if_false]
    rcases h2 : splitAtDelim ',' rest with ⟨f2, _ | r2⟩
    · have h3 := splitAtDelim_none ',' rest (by rw [h2])
      rw [h2] at h3
      simp only at h3
      subst h3
      cases f2 <;> simp
    · cases rest with
      | nil => simp [splitAtDelim] at h2
      | cons a t => simp

/-- An iteration that throws nothing leaves the tables as they were on a
record without a second field and pushes one length and one factor on a
record with one. -/
theorem readRecord_ok (stod : String → Option Double) (c c1 : SmallAreaInfillFlowCompensator)
    (line : String) (h : readRecord stod c line = (Except.ok (), c1)) :
    if hasSecondField line then
      ∃ x f, c1 = { extrusionLengths := c.extrusionLengths ++ [x]
                    flowCompensationFactors := c.flowCompensationFactors ++ [f] }
    else c1 = c := by
  unfold readRecord at h
  simp only at h
  split at h
  · split at h
    · simp at h
    · rename_i x hx
      rw [second_getline_toBool] at h
      split at h
      · rename_i hs
        rw [hs]
        simp only [if_true]
        split at h
        · simp at h
        · rename_i f hf
          simp only [Prod.mk.injEq, true_and] at h
          exact ⟨x, f, h.symm⟩
      · rename_i hs
        simp only [hs, Bool.false_eq_true, if_false]
        simp only [Prod.mk.injEq, true_and] at h
        exact h.symm
  · rename_i hg
    have hs : hasSecondField line = false := by
      rw [hasSecondField_eq]
      unfold getline IStringStream.new IStringStream.toBool at hg
      simp only [Bool.or_self, Bool.false_eq_true, if_false] at hg
      rcases h1 : splitAtDelim ',' line.toList with ⟨field, _ | rest⟩
      · rfl
      · rw [h1] at hg
        simp at hg
    simp only [hs, Bool.false_eq_true, if_false]
    simp only [Prod.mk.injEq, true_and] at h
    exact h.symm

/-- An iteration throws only the parse error of its record. -/
theorem readRecord_error (stod : String → Option Double)
    (c c1 : SmallAreaInfillFlowCompensator) (line msg : String)
    (h : readRecord stod c line = (Except.error msg, c1)) :
    msg = parseErrorMessage line := by
  unfold readRecord at h
  simp only at h
  split at h
  · split at h
    · simp only [Prod.mk.injEq, Except.error.injEq] at h
      exact h.1.symm
    · split at h
      · split at h
        · simp only [Prod.mk.injEq, Except.error.injEq] at h
          exact h.1.symm
        · simp at h
      · simp at h
  · simp at h

/-- The loop that throws nothing has pushed one length and one factor for
every record with a second field. -/
theorem readRecords_ok (stod : String → Option Double) (values : List String) :
    ∀ c c1 : SmallAreaInfillFlowCompensator,
      readRecords stod c values = (Except.ok (), c1) →
      c1.extrusionLengths.length =
          c.extrusionLengths.length + (values.filter hasSecondField).length ∧
        c1.flowCompensationFactors.length =
          c.flowCompensationFactors.length + (values.filter hasSecondField).length := by
  induction values with
  | nil =>
    intro c c1 h
    simp only [readRecords, Prod.mk.injEq, true_and] at h
    subst h
    simp
  | cons line rest ih =>
    intro c c1 h
    rw [readRecords] at h
    rcases hr : readRecord stod c line with ⟨_ | _, c2⟩
    · rw [hr] at h
      simp at h
    · rw [hr] at h
      simp only at h
      have h1 := readRecord_ok stod c c2 line hr
      have h2 := ih c2 c1 h
      by_cases hs : hasSecondField line = true
      · rw [if_pos hs] at h1
        obtain ⟨x, f, rfl⟩ := h1
        simp only [List.length_append, List.length_singleton] at h2
        simp only [List.filter_cons, hs, if_true, List.length_cons]
        omega
      · rw [if_neg hs] at h1
        subst h1
        simp only [List.filter_cons, hs, if_false]
        exact h2

/-- The loop throws only the parse error of one of its records. -/
theorem readRecords_error (stod : String → Option Double) (values : List String) :
    ∀ (c c1 : SmallAreaInfillFlowCompensator) (msg : String),
      readRecords stod c values = (Except.error msg, c1) →
      ∃ line, line ∈ values ∧ msg = parseErrorMessage line := by
  induction values with
  | nil =>
    intro c c1 msg h
    simp [readRecords] at h
  | cons line rest ih =>
    intro c c1 msg h
    rw [readRecords] at h
    rcases hr : readRecord stod c line with ⟨m | _, c2⟩
    · rw [hr] at h
      simp only [Prod.mk.injEq, Except.error.injEq] at h
      exact ⟨line, List.mem_cons_self _ _, by rw [← h.1]; exact readRecord_error stod c c2 line m hr⟩
    · rw [hr] at h
      simp only at h
      obtain ⟨l, hl, hm⟩ := ih c2 c1 msg h
      exact ⟨l, List.mem_cons_of_mem _ hl, hm⟩

/-- A parse error is not the size-mismatch message. -/
theorem parseErrorMessage_ne (line : String) :
    parseErrorMessage line ≠ "Small area infill compensation model is misconfigured: " ++
      "Different size of lengths and compensation factors" := by
  intro h
  have h1 := congrArg (fun s : String => s.data.head?) h
  simp [parseErrorMessage, String.data_append] at h1

/-- The loop over the later lengths never throws the size-mismatch message. -/
theorem checkLengthsLoop_ne_mismatch (l : List Double) :
    ∀ prev : Double, checkLengthsLoop prev l ≠
      Except.error ("Small area infill compensation model is misconfigured: " ++
        "Different size of lengths and compensation factors") := by
  induction l with
  | nil => intro prev h; simp [checkLengthsLoop] at h
  | cons len rest ih =>
    intro prev h
    rw [checkLengthsLoop] at h
    split_ifs at h
    · simp only [Except.error.injEq] at h
      revert h
      decide
    · simp only [Except.error.injEq] at h
      revert h
      decide
    · exact ih len h

/-- The validation of tables of equal size never throws the size-mismatch
message. -/
theorem check_ne_mismatch_of_same_size (c : SmallAreaInfillFlowCompensator)
    (hsize : c.extrusionLengths.length = c.flowCompensationFactors.length) :
    c.check_model_parameter_correctness ≠
      Except.error ("Small area infill compensation model is misconfigured: " ++
        "Different size of lengths and compensation factors") := by
  intro h
  unfold SmallAreaInfillFlowCompensator.check_model_parameter_correctness at h
  split at h
  · simp only [Except.error.injEq] at h
    revert h
    decide
  · simp only [Except.error.injEq] at h
    revert h
    decide
  · rename_i len0 lens f0 fs hl hf
    rw [hl, hf] at hsize
    rw [if_neg (by simpa using hsize)] at h
    by_cases hn : (!nearly_equal_floating_point len0 Double.zero) = true
    · rw [if_pos hn] at h
      simp only [Except.error.injEq] at h
      revert h
      decide
    · rw [if_neg hn] at h
      rcases hc : checkLengthsLoop len0 lens with m | u
      · rw [hc] at h
        exact checkLengthsLoop_ne_mismatch lens len0 (hc.trans h)
      · rw [hc] at h
        simp only at h
        split_ifs at h
        simp only [Except.error.injEq] at h
        revert h
        decide

/-- The tables are read up to the record that throws: after a record whose
second field is not a number the length list is one longer than the factor
list, and the function raises. -/
theorem read_raises_after_length_pushed :
    SmallAreaInfillFlowCompensator.empty.read_config_parameters sampleStod sampleBadFlowConfig =
      (Except.error "Error parsing data point in small area infill compensation model:5,x\n",
        { extrusionLengths := [Double.zero, Double.five]
          flowCompensationFactors := [Double.half] }) := by
  rfl

/-- C21: whatever `std::stod` does, when `read_config_parameters`, called by
the constructor on empty tables, returns without raising, the length list and
the factor list have the same size, which is the number of records that have a
comma-separated second field; and the constructor never raises the
size-mismatch rejection of `check_model_parameter_correctness`. -/
theorem constructor_tables_same_size (stod : String → Option Double)
    (config : FullPrintConfig) :
    (∀ c : SmallAreaInfillFlowCompensator,
      SmallAreaInfillFlowCompensator.empty.read_config_parameters stod config =
          (Except.ok (), c) →
        c.extrusionLengths.length = c.flowCompensationFactors.length ∧
        c.extrusionLengths.length =
          (config.small_area_infill_flow_compensation_model.values.filter
            hasSecondField).length) ∧
    SmallAreaInfillFlowCompensator.new stod config ≠
      Except.error ("Small area infill compensation model is misconfigured: " ++
        "Different size of lengths and compensation factors") := by
  have key : ∀ c : SmallAreaInfillFlowCompensator,
      SmallAreaInfillFlowCompensator.empty.read_config_parameters stod config =
          (Except.ok (), c) →
        c.extrusionLengths.length = c.flowCompensationFactors.length ∧
        c.extrusionLengths.length =
          (config.small_area_infill_flow_compensation_model.values.filter
            hasSecondField).length := by
    intro c h
    have h1 := readRecords_ok stod _ _ c h
    simp only [SmallAreaInfillFlowCompensator.empty, List.length_nil, Nat.zero_add] at h1
    exact ⟨by rw [h1.1, h1.2], h1.1⟩
  refine ⟨key, ?_⟩
  intro h
  unfold SmallAreaInfillFlowCompensator.new at h
  split at h
  · rename_i msg c1 hr
    simp only [Except.error.injEq] at h
    obtain ⟨line, _, hm⟩ := readRecords_error stod _ _ c1 msg hr
    rw [hm] at h
    exact parseErrorMessage_ne line h
  · rename_i u c hr
    split at h
    · rename_i msg hm
      simp only [Except.error.injEq] at h
      rw [h] at hm
      exact check_ne_mismatch_of_same_size c (key c hr).1 hm
    · simp at h

/-- Witness of `constructor_tables_same_size`: the records "0,0.5", "", "5,1.0"
and "10" give the curve [(0,0.5),(5,1.0)]. -/
theorem constructor_tables_same_size_witness :
    SmallAreaInfillFlowCompensator.empty.read_config_parameters sampleStod sampleFlowConfig =
        (Except.ok (), sampleCurve) ∧
      sampleCurve.extrusionLengths.length = sampleCurve.flowCompensationFactors.length ∧
      sampleCurve.extrusionLengths.length =
        (sampleFlowConfig.small_area_infill_flow_compensation_model.values.filter
          hasSecondField).length ∧
      SmallAreaInfillFlowCompensator.new sampleStod sampleFlowConfig = Except.ok sampleCurve :=
  ⟨rfl,
    ((constructor_tables_same_size sampleStod sampleFlowConfig).1 sampleCurve rfl).1,
    ((constructor_tables_same_size sampleStod sampleFlowConfig).1 sampleCurve rfl).2,
    rfl⟩

/-! ## The driver: cancellation while a stage executes -/

theorem Shared.arrive_quiet (sh : Shared) : sh.arrive CancelEvent.quiet = sh := by
  cases sh
  simp [Shared.arrive]

theorem objIter_of_settled_quiet (G : Collaborators) (ilh : ℚ) (i : Nat)
    (s : SLAPrintObjectStep) (sh : Shared) (po : SLAPrintObject) (h : po.settled s)
    (hflag : sh.canceled = false) :
    objIter G ilh CancelEvent.quiet i s sh po = (Outcome.ok, sh, po) := by
  unfold objIter
  rw [SLAPrintObject.settled] at h
  simp [hflag, h, Shared.arrive_quiet]

theorem objSteps_of_settled_quiet (G : Collaborators) (ilh : ℚ) (env : CancelEnv) (i : Nat)
    (po : SLAPrintObject) (sh : Shared) (hflag : sh.canceled = false)
    (ss : List SLAPrintObjectStep) (h : ∀ s ∈ ss, po.settled s)
    (hq : ∀ s ∈ ss, env.obj i s = CancelEvent.quiet) :
    objSteps G ilh env i ss sh po = (Outcome.ok, sh, po) := by
  induction ss with
  | nil => rfl
  | cons s ss ih =>
    simp only [objSteps]
    rw [hq s (List.mem_cons_self s ss),
      objIter_of_settled_quiet G ilh i s sh po (h s (List.mem_cons_self s ss)) hflag]
    exact ih (fun t ht => h t (List.mem_cons_of_mem s ht))
      (fun t ht => hq t (List.mem_cons_of_mem s ht))

theorem objLoop_of_settled_quiet (G : Collaborators) (ilh : ℚ) (env : CancelEnv)
    (sh : Shared) (hflag : sh.canceled = false) (objs : List SLAPrintObject)
    (h : ∀ o ∈ objs, ∀ s, o.settled s) :
    ∀ i : Nat, (∀ j t, i ≤ j → j < i + objs.length → env.obj j t = CancelEvent.quiet) →
      objLoop G ilh env i objs sh = (Outcome.ok, sh, objs) := by
  induction objs with
  | nil => intro i _; rfl
  | cons po rest ih =>
    intro i hq
    simp only [objLoop]
    rw [objSteps_of_settled_quiet G ilh env i po sh hflag objectsteps
      (fun s _ => h po (List.mem_cons_self po rest) s)
      (fun s _ => hq i s (le_refl i) (by simp))]
    dsimp only
    rw [ih (fun o ho s => h o (List.mem_cons_of_mem po ho) s) (i + 1)
      (fun j t h1 h2 => hq j t (by omega) (by simp only [List.length_cons]; omega))]

theorem objLoop_length (G : Collaborators) (ilh : ℚ) (env : CancelEnv)
    (objs : List SLAPrintObject) :
    ∀ (i : Nat) (sh : Shared), (objLoop G ilh env i objs sh).2.2.length = objs.length := by
  induction objs with
  | nil => intro i sh; rfl
  | cons po rest ih =>
    intro i sh
    simp only [objLoop]
    rcases hs : objSteps G ilh env i objectsteps sh po with ⟨o, sh1, po1⟩
    cases o
    · have := ih (i + 1) sh1
      simpa using this
    all_goals simp

/-- An iteration of the object driver that enters a stage whose function
returns: when a cancel request has arrived while the stage function ran,
`set_done` raises the cancellation signal and the stage stays `Started`;
otherwise the stage is marked `Done`.  In both cases the status report and the
invocation are on the record. -/
theorem objIter_entered (G : Collaborators) (ilh : ℚ) (ev : CancelEvent) (i : Nat)
    (s : SLAPrintObjectStep) (sh : Shared) (po po2 : SLAPrintObject)
    (hflag : sh.canceled = false)
    (hwork : (po.m_stepmask s && !po.is_step_done s) = true)
    (hret : pobj_program G ilh (decide (ev = CancelEvent.stopSeen)) s (po.set_started s)
      = some po2) :
    objIter G ilh ev i s sh po =
      if ev = CancelEvent.stopSeen ∨ ev = CancelEvent.late then
        (Outcome.canceled,
          { canceled := true
            log := sh.log ++ [Event.status (OBJ_STEP_LEVELS s) (OBJ_STEP_LABELS s),
              Event.objInvoked i s] }, po2)
      else
        (Outcome.ok,
          { canceled := decide (ev ≠ CancelEvent.quiet)
            log := sh.log ++ [Event.status (OBJ_STEP_LEVELS s) (OBJ_STEP_LABELS s),
              Event.objInvoked i s] },
          { po2 with m_state := fun t => if t = s then StepState.Done else po2.m_state t }) := by
  unfold objIter
  rw [if_neg (by simp [hflag]), if_pos hwork]
  simp only [hret]
  cases ev <;>
    simp [Shared.arriveInStage, Shared.arrive, Shared.set_status, SLAPrintObject.set_done, hflag]

theorem logAdds_prefix {a b : List Event} (h : logAdds a b) : a <+: b := by
  obtain ⟨x, rfl, -⟩ := h
  exact List.prefix_append a x

theorem objSteps_log_prefix (G : Collaborators) (ilh : ℚ) (env : CancelEnv) (i : Nat)
    (ss : List SLAPrintObjectStep) (sh : Shared) (po : SLAPrintObject) :
    sh.log <+: (objSteps G ilh env i ss sh po).2.1.log :=
  logAdds_prefix (objSteps_logAdds G ilh env i ss sh po)

theorem objLoop_log_prefix (G : Collaborators) (ilh : ℚ) (env : CancelEnv)
    (objs : List SLAPrintObject) (i : Nat) (sh : Shared) :
    sh.log <+: (objLoop G ilh env i objs sh).2.1.log :=
  logAdds_prefix (objLoop_logAdds G ilh env objs i sh)

theorem process_log_prefix (G : Collaborators) (env : CancelEnv) (p : SLAPrint) :
    (objLoop G p.m_material_config.initial_layer_height env 0 p.m_objects p.shared).2.1.log
      <+: (process G env p).2.shared.log := by
  obtain ⟨x, hx, -⟩ := (process_frame G env p 0 slaposObjectSlice).2
  rw [hx]
  exact List.prefix_append _ x

/-- The record of the object loop on `pre ++ po :: post`, when the objects
`pre` are passed without a change of the shared state, extends the record of
the stages of `po`. -/
theorem objLoop_log_of_pre (G : Collaborators) (ilh : ℚ) (env : CancelEnv)
    (pre post : List SLAPrintObject) (po : SLAPrintObject) (sh : Shared)
    (hpre : objLoop G ilh env 0 pre sh = (Outcome.ok, sh, pre)) :
    (objSteps G ilh env pre.length objectsteps sh po).2.1.log
      <+: (objLoop G ilh env 0 (pre ++ po :: post) sh).2.1.log := by
  rw [objLoop_append, hpre]
  simp only [Nat.zero_add, objLoop]
  rcases hs : objSteps G ilh env pre.length objectsteps sh po with ⟨o, sh1, po1⟩
  cases o
  · exact objLoop_log_prefix G ilh env post (pre.length + 1) sh1
  all_goals exact List.prefix_refl _

/-- A cancel request that arrives while the function of an object-level stage
runs: the run ends with the cancellation signal, the stage is left `Started`,
and the next call invokes the stage again. -/
theorem process_canceled_in_object_stage (G : Collaborators) (env : CancelEnv) (p : SLAPrint)
    (pre post : List SLAPrintObject) (po : SLAPrintObject)
    (done todo : List SLAPrintObjectStep) (s : SLAPrintObjectStep)
    (sh1 sh2 : Shared) (pre1 : List SLAPrintObject) (po1 po2 : SLAPrintObject)
    (hobjs : p.m_objects = pre ++ po :: post)
    (hsteps : objectsteps = done ++ s :: todo)
    (hpre : objLoop G p.m_material_config.initial_layer_height env 0 pre p.shared
      = (Outcome.ok, sh1, pre1))
    (hdone : objSteps G p.m_material_config.initial_layer_height env pre.length done sh1 po
      = (Outcome.ok, sh2, po1))
    (hflag : sh2.canceled = false)
    (hwork : (po1.m_stepmask s && !po1.is_step_done s) = true)
    (hev : env.obj pre.length s = CancelEvent.stopSeen ∨
      env.obj pre.length s = CancelEvent.late)
    (hret : pobj_program G p.m_material_config.initial_layer_height
      (decide (env.obj pre.length s = CancelEvent.stopSeen)) s (po1.set_started s)
        = some po2) :
    ∃ sh3 : Shared,
      process G env p
        = (Outcome.canceled, { p with m_objects := pre1 ++ po2 :: post, shared := sh3 }) ∧
      sh3.canceled = true ∧
      po2.m_state s = StepState.Started ∧ po2.m_state s ≠ StepState.Done ∧
      (s = slaposSupportTree → env.obj pre.length s = CancelEvent.stopSeen →
        po2.m_supportdata = po1.m_supportdata) ∧
      ∀ env2 : CancelEnv,
        (∀ j t, j < pre.length → env2.obj j t = CancelEvent.quiet) →
        (∀ t ∈ done, env2.obj pre.length t = CancelEvent.quiet) →
        ∃ added,
          (process G env2
              { p with
                m_objects := pre1 ++ po2 :: post
                shared := { sh3 with canceled := false } }).2.shared.log
            = sh3.log ++ added ∧
          Event.objInvoked pre.length s ∈ added := by
  obtain ⟨hst, hmk⟩ := pobj_program_frame G _ _ s _ po2 hret
  have hstarted : po2.m_state s = StepState.Started := by
    rw [hst]; simp [SLAPrintObject.set_started]
  have hiter := objIter_entered G p.m_material_config.initial_layer_height
    (env.obj pre.length s) pre.length s sh2 po1 po2 hflag hwork hret
  rw [if_pos hev] at hiter
  refine ⟨{ canceled := true
            log := sh2.log ++ [Event.status (OBJ_STEP_LEVELS s) (OBJ_STEP_LABELS s),
              Event.objInvoked pre.length s] }, ?_, rfl, hstarted, by rw [hstarted]; decide,
    ?_, ?_⟩
  · have hpo : objSteps G p.m_material_config.initial_layer_height env pre.length
        objectsteps sh1 po = (Outcome.canceled,
          { canceled := true
            log := sh2.log ++ [Event.status (OBJ_STEP_LEVELS s) (OBJ_STEP_LABELS s),
              Event.objInvoked pre.length s] }, po2) := by
      rw [hsteps, objSteps_append, hdone]
      simp only [objSteps, hiter]
    have hloop : objLoop G p.m_material_config.initial_layer_height env 0 p.m_objects p.shared
        = (Outcome.canceled,
          { canceled := true
            log := sh2.log ++ [Event.status (OBJ_STEP_LEVELS s) (OBJ_STEP_LABELS s),
              Event.objInvoked pre.length s] }, pre1 ++ po2 :: post) := by
      rw [hobjs, objLoop_append, hpre]
      simp only [Nat.zero_add, objLoop, hpo]
    simp only [process, hloop]
  · intro hs hstop
    subst hs
    simp only [hstop, decide_True, pobj_program, support_tree] at hret
    split at hret
    · simp at hret
    · simp only [if_true, Option.some.injEq] at hret
      rw [← hret]
      rfl
  · intro env2 hq1 hq2
    have hlen : pre1.length = pre.length := by
      have := objLoop_length G p.m_material_config.initial_layer_height env pre 0 p.shared
      rw [hpre] at this
      exact this
    have hpre1 : ∀ o ∈ pre1, ∀ t, o.settled t :=
      objLoop_ok_settled G _ env pre 0 p.shared sh1 pre1 hpre
    have hdone1 : ∀ t ∈ done, po1.settled t :=
      (objSteps_ok_settled G _ env pre.length done sh1 sh2 po po1 hdone).1
    have hnodup : objectsteps.Nodup := by decide
    have hsnot : s ∉ done := by
      rw [hsteps] at hnodup
      intro hmem
      have := (List.nodup_append.mp hnodup).2.2
      exact this hmem (List.mem_cons_self s todo)
    have hdone2 : ∀ t ∈ done, po2.settled t := by
      intro t ht
      have hts : t ≠ s := fun h => hsnot (h ▸ ht)
      have := hdone1 t ht
      simp only [SLAPrintObject.settled, SLAPrintObject.is_step_done, hst, hmk,
        SLAPrintObject.set_started, hts, if_false] at this ⊢
      exact this
    have hwork2 : (po2.m_stepmask s && !po2.is_step_done s) = true := by
      have hm : po1.m_stepmask s = true := by
        simp only [Bool.and_eq_true] at hwork
        exact hwork.1
      simp [hmk, SLAPrintObject.set_started, hm, SLAPrintObject.is_step_done, hstarted]
    set ilh := p.m_material_config.initial_layer_height with hilh
    set sh0 : Shared :=
      { canceled := false
        log := sh2.log ++ [Event.status (OBJ_STEP_LEVELS s) (OBJ_STEP_LABELS s),
          Event.objInvoked pre.length s] } with hsh0
    have hloopPre : objLoop G ilh env2 0 pre1 sh0 = (Outcome.ok, sh0, pre1) :=
      objLoop_of_settled_quiet G ilh env2 sh0 rfl pre1 hpre1 0
        (fun j t _ h2 => hq1 j t (by omega))
    have hstepsDone : objSteps G ilh env2 pre1.length done sh0 po2 = (Outcome.ok, sh0, po2) :=
      objSteps_of_settled_quiet G ilh env2 pre1.length po2 sh0 rfl done hdone2
        (fun t ht => by rw [hlen]; exact hq2 t ht)
    -- the stage is entered again
    have henter : (sh0.log ++ [Event.status (OBJ_STEP_LEVELS s) (OBJ_STEP_LABELS s),
          Event.objInvoked pre.length s])
        <+: (objSteps G ilh env2 pre1.length objectsteps sh0 po2).2.1.log := by
      rw [hsteps, objSteps_append, hstepsDone]
      simp only [objSteps]
      have hlog : (objIter G ilh (env2.obj pre1.length s) pre1.length s sh0 po2).2.1.log
          = sh0.log ++ [Event.status (OBJ_STEP_LEVELS s) (OBJ_STEP_LABELS s),
              Event.objInvoked pre.length s] := by
        unfold objIter
        rw [if_neg (by simp [hsh0]), if_pos hwork2]
        dsimp only
        rw [hlen]
        split
        · simp [Shared.set_status]
        · split <;> simp [Shared.set_status, Shared.arrive, Shared.arriveInStage]
      rcases hi : objIter G ilh (env2.obj pre1.length s) pre1.length s sh0 po2
        with ⟨o, sh4, po4⟩
      rw [hi] at hlog
      simp only at hlog
      cases o
      · have := objSteps_log_prefix G ilh env2 pre1.length todo sh4 po4
        rw [hlog] at this
        exact this
      all_goals
        rw [← hlog]
    have h1 := objLoop_log_of_pre G ilh env2 pre1 post po2 sh0 hloopPre
    have h2 := process_log_prefix G env2
      { p with m_objects := pre1 ++ po2 :: post, shared := sh0 }
    have h3 := (henter.trans h1).trans h2
    obtain ⟨t, ht⟩ := h3
    refine ⟨[Event.status (OBJ_STEP_LEVELS s) (OBJ_STEP_LABELS s),
      Event.objInvoked pre.length s] ++ t, ?_, by simp⟩
    rw [← ht]
    simp [hsh0]

theorem printIter_of_settled_quiet (G : Collaborators) (s : SLAPrintStep) (p : SLAPrint)
    (h : p.settled s) (hflag : p.shared.canceled = false) :
    printIter G CancelEvent.quiet s p = (Outcome.ok, p) := by
  unfold printIter
  rw [SLAPrint.settled] at h
  simp [hflag, h, Shared.arrive_quiet]

theorem printLoop_of_settled_quiet (G : Collaborators) (env : CancelEnv) (p : SLAPrint)
    (hflag : p.shared.canceled = false) (ss : List SLAPrintStep)
    (h : ∀ s ∈ ss, p.settled s) (hq : ∀ s ∈ ss, env.print s = CancelEvent.quiet) :
    printLoop G env ss p = (Outcome.ok, p) := by
  induction ss with
  | nil => rfl
  | cons s ss ih =>
    simp only [printLoop]
    rw [hq s (List.mem_cons_self s ss),
      printIter_of_settled_quiet G s p (h s (List.mem_cons_self s ss)) hflag]
    exact ih (fun t ht => h t (List.mem_cons_of_mem s ht))
      (fun t ht => hq t (List.mem_cons_of_mem s ht))

theorem printLoop_log_prefix (G : Collaborators) (env : CancelEnv)
    (ss : List SLAPrintStep) (p : SLAPrint) :
    p.shared.log <+: (printLoop G env ss p).2.shared.log := by
  obtain ⟨x, hx, -⟩ := (printLoop_frame G env 0 slaposObjectSlice ss p).2
  rw [hx]
  exact List.prefix_append _ x

/-- A cancel request that arrives while the function of a print-level stage
runs: the run ends with the cancellation signal, the stage is left `Started`,
and the next call invokes the stage again. -/
theorem process_canceled_in_print_stage (G : Collaborators) (env : CancelEnv) (p : SLAPrint)
    (objs : List SLAPrintObject) (sh : Shared) (done todo : List SLAPrintStep)
    (s : SLAPrintStep) (p2 p3 : SLAPrint)
    (hobj : objLoop G p.m_material_config.initial_layer_height env 0 p.m_objects p.shared
      = (Outcome.ok, sh, objs))
    (hsteps : printsteps = done ++ s :: todo)
    (hdone : printLoop G env done
        { p with
          m_objects := objs
          shared := sh
          m_stepmask := fun t => if t = slapsRasterize then false else p.m_stepmask t }
      = (Outcome.ok, p2))
    (hflag : p2.shared.canceled = false)
    (hwork : (p2.m_stepmask s && !p2.is_step_done s) = true)
    (hev : env.print s = CancelEvent.stopSeen ∨ env.print s = CancelEvent.late)
    (hret : print_program G s
        { p2.set_started s with
          shared :=
            { canceled := p2.shared.canceled
              log := p2.shared.log ++ [Event.status (PRINT_STEP_LEVELS s) (PRINT_STEP_LABELS s),
                Event.printInvoked s] } }
      = some p3) :
    ∃ p4 : SLAPrint,
      process G env p = (Outcome.canceled, p4) ∧
      p4.shared.canceled = true ∧
      p4.m_state s = StepState.Started ∧ p4.m_state s ≠ StepState.Done ∧
      ∀ env2 : CancelEnv,
        (∀ j t, env2.obj j t = CancelEvent.quiet) →
        (∀ t ∈ done, env2.print t = CancelEvent.quiet) →
        ∃ added,
          (process G env2
              { p4 with shared := { p4.shared with canceled := false } }).2.shared.log
            = p4.shared.log ++ added ∧
          Event.printInvoked s ∈ added := by
  obtain ⟨hst, hmk, hobjs3, hsh3, -, hmat3, -⟩ := print_program_frame G s _ p3 hret
  have hstarted : p3.m_state s = StepState.Started := by
    rw [hst]; simp [SLAPrint.set_started]
  have hiter : printIter G (env.print s) s p2
      = (Outcome.canceled, { p3 with shared := { p3.shared with canceled := true } }) := by
    unfold printIter
    rw [if_neg (by simp [hflag]), if_pos hwork]
    simp only [Shared.set_status, List.append_assoc, List.singleton_append, hret]
    rcases hev with h | h <;>
      simp [h, Shared.arriveInStage, SLAPrint.set_done]
  have hloop : printLoop G env printsteps
      { p with
        m_objects := objs
        shared := sh
        m_stepmask := fun t => if t = slapsRasterize then false else p.m_stepmask t }
      = (Outcome.canceled, { p3 with shared := { p3.shared with canceled := true } }) := by
    rw [hsteps, printLoop_append, hdone]
    simp only [printLoop, hiter]
  refine ⟨{ p3 with shared := { p3.shared with canceled := true } }, ?_, rfl, hstarted,
    by rw [hstarted]; decide, ?_⟩
  · simp only [process, hobj, hloop]
  · intro env2 hq1 hq2
    obtain ⟨hall, -, hmask2, hobjs2⟩ := printLoop_ok_settled G env done _ p2 hdone
    dsimp only at hmask2 hobjs2
    have hsettledObjs := objLoop_ok_settled G _ env p.m_objects 0 p.shared sh objs hobj
    have hmaskR : p3.m_stepmask slapsRasterize = false := by
      rw [hmk]; simp [SLAPrint.set_started, hmask2]
    have hmaskEq : (fun t => if t = slapsRasterize then false else p3.m_stepmask t)
        = p3.m_stepmask := by
      funext t
      by_cases ht : t = slapsRasterize
      · subst ht; simp [hmaskR]
      · simp [ht]
    have hnodup : printsteps.Nodup := by decide
    have hsnot : s ∉ done := by
      rw [hsteps] at hnodup
      intro hmem
      exact (List.nodup_append.mp hnodup).2.2 hmem (List.mem_cons_self s todo)
    set sh0 : Shared := { canceled := false, log := p3.shared.log } with hsh0
    set q : SLAPrint := { p3 with shared := sh0 } with hq
    have hdone3 : ∀ t ∈ done, q.settled t := by
      intro t ht
      have hts : t ≠ s := fun h => hsnot (h ▸ ht)
      have := hall t ht
      simp only [SLAPrint.settled, SLAPrint.is_step_done, hq, hst, hmk,
        SLAPrint.set_started, hts, if_false] at this ⊢
      exact this
    have hwork3 : (q.m_stepmask s && !q.is_step_done s) = true := by
      have hm : p2.m_stepmask s = true := by
        simp only [Bool.and_eq_true] at hwork
        exact hwork.1
      simp [hq, hmk, SLAPrint.set_started, hm, SLAPrint.is_step_done, hstarted]
    have hobjLoop : objLoop G q.m_material_config.initial_layer_height env2 0
        q.m_objects sh0 = (Outcome.ok, sh0, q.m_objects) := by
      apply objLoop_of_settled_quiet G _ env2 sh0 rfl
      · intro o ho
        have : q.m_objects = objs := by
          simp only [hq, hobjs3, SLAPrint.set_started, hobjs2]
        rw [this] at ho
        exact hsettledObjs o ho
      · intro j t _ _
        exact hq1 j t
    have hq1' : ({ q with
          m_objects := q.m_objects
          shared := sh0
          m_stepmask := fun t => if t = slapsRasterize then false else q.m_stepmask t }
        : SLAPrint) = q := by
      simp only [hq, hmaskEq]
    have hkeep : printLoop G env2 done q = (Outcome.ok, q) :=
      printLoop_of_settled_quiet G env2 q rfl done hdone3 hq2
    have henter : (sh0.log ++ [Event.status (PRINT_STEP_LEVELS s) (PRINT_STEP_LABELS s),
          Event.printInvoked s])
        <+: (printLoop G env2 printsteps q).2.shared.log := by
      rw [hsteps, printLoop_append, hkeep]
      simp only [printLoop]
      have hlog : (printIter G (env2.print s) s q).2.shared.log
          = sh0.log ++ [Event.status (PRINT_STEP_LEVELS s) (PRINT_STEP_LABELS s),
              Event.printInvoked s] := by
        unfold printIter
        rw [if_neg (by simp [hq, hsh0]), if_pos hwork3]
        dsimp only
        split
        · simp [Shared.set_status, hq]
        · next p5 hp5 =>
          obtain ⟨-, -, -, hsh5, -⟩ := print_program_frame G s _ p5 hp5
          split
          · simp [hsh5, Shared.set_status, Shared.arriveInStage, hq]
          · simp [hsh5, Shared.set_status, Shared.arrive, Shared.arriveInStage, hq]
      rcases hi : printIter G (env2.print s) s q with ⟨o, q4⟩
      rw [hi] at hlog
      simp only at hlog
      cases o
      · have := printLoop_log_prefix G env2 todo q4
        rw [hlog] at this
        exact this
      all_goals
        rw [← hlog]
    have hfinal : (printLoop G env2 printsteps q).2.shared.log
        <+: (process G env2 q).2.shared.log := by
      unfold process
      dsimp only
      rw [hobjLoop]
      dsimp only
      rw [hq1']
      rcases hp : printLoop G env2 printsteps q with ⟨o, q5⟩
      cases o
      · exact ⟨[Event.status 100 "Slicing done"], by simp [Shared.set_status]⟩
      all_goals exact List.prefix_refl _
    obtain ⟨t, ht⟩ := henter.trans hfinal
    refine ⟨[Event.status (PRINT_STEP_LEVELS s) (PRINT_STEP_LABELS s),
      Event.printInvoked s] ++ t, ?_, by simp⟩
    show (process G env2 q).2.shared.log = _
    rw [← ht]
    simp [hsh0]

/-- C1: a run of `process` in which a cancel request arrives while the function
of a stage executes (seen by the support algorithm at a poll, or after its
last poll) and that function returns, ends with the cancellation signal raised
by `set_done`: the status of that stage after the run is `Started` and not
`Done`; when the support algorithm was unwound by its stop condition the
support data, and with it the tree handle, are as they were before the stage;
and the next `process` call, with the flag cleared and no cancel request
before the checkpoint of that stage, invokes the function of that stage
again.  The first part is for an object-level stage `s` of the object that
follows the objects `pre`, the second for a print-level stage `s`. -/
theorem process_canceled_in_stage (G : Collaborators) (env : CancelEnv) (p : SLAPrint) :
    (∀ (pre post : List SLAPrintObject) (po : SLAPrintObject)
        (done todo : List SLAPrintObjectStep) (s : SLAPrintObjectStep)
        (sh1 sh2 : Shared) (pre1 : List SLAPrintObject) (po1 po2 : SLAPrintObject),
      p.m_objects = pre ++ po :: post →
      objectsteps = done ++ s :: todo →
      objLoop G p.m_material_config.initial_layer_height env 0 pre p.shared
        = (Outcome.ok, sh1, pre1) →
      objSteps G p.m_material_config.initial_layer_height env pre.length done sh1 po
        = (Outcome.ok, sh2, po1) →
      sh2.canceled = false →
      (po1.m_stepmask s && !po1.is_step_done s) = true →
      (env.obj pre.length s = CancelEvent.stopSeen ∨
        env.obj pre.length s = CancelEvent.late) →
      pobj_program G p.m_material_config.initial_layer_height
        (decide (env.obj pre.length s = CancelEvent.stopSeen)) s (po1.set_started s)
          = some po2 →
      ∃ sh3 : Shared,
        process G env p
          = (Outcome.canceled, { p with m_objects := pre1 ++ po2 :: post, shared := sh3 }) ∧
        sh3.canceled = true ∧
        po2.m_state s = StepState.Started ∧ po2.m_state s ≠ StepState.Done ∧
        (s = slaposSupportTree → env.obj pre.length s = CancelEvent.stopSeen →
          po2.m_supportdata = po1.m_supportdata) ∧
        ∀ env2 : CancelEnv,
          (∀ j t, j < pre.length → env2.obj j t = CancelEvent.quiet) →
          (∀ t ∈ done, env2.obj pre.length t = CancelEvent.quiet) →
          ∃ added,
            (process G env2
                { p with
                  m_objects := pre1 ++ po2 :: post
                  shared := { sh3 with canceled := false } }).2.shared.log
              = sh3.log ++ added ∧
            Event.objInvoked pre.length s ∈ added) ∧
    (∀ (objs : List SLAPrintObject) (sh : Shared) (done todo : List SLAPrintStep)
        (s : SLAPrintStep) (p2 p3 : SLAPrint),
      objLoop G p.m_material_config.initial_layer_height env 0 p.m_objects p.shared
        = (Outcome.ok, sh, objs) →
      printsteps = done ++ s :: todo →
      printLoop G env done
          { p with
            m_objects := objs
            shared := sh
            m_stepmask := fun t => if t = slapsRasterize then false else p.m_stepmask t }
        = (Outcome.ok, p2) →
      p2.shared.canceled = false →
      (p2.m_stepmask s && !p2.is_step_done s) = true →
      (env.print s = CancelEvent.stopSeen ∨ env.print s = CancelEvent.late) →
      print_program G s
          { p2.set_started s with
            shared :=
              { canceled := p2.shared.canceled
                log := p2.shared.log ++
                  [Event.status (PRINT_STEP_LEVELS s) (PRINT_STEP_LABELS s),
                    Event.printInvoked s] } }
        = some p3 →
      ∃ p4 : SLAPrint,
        process G env p = (Outcome.canceled, p4) ∧
        p4.shared.canceled = true ∧
        p4.m_state s = StepState.Started ∧ p4.m_state s ≠ StepState.Done ∧
        ∀ env2 : CancelEnv,
          (∀ j t, env2.obj j t = CancelEvent.quiet) →
          (∀ t ∈ done, env2.print t = CancelEvent.quiet) →
          ∃ added,
            (process G env2
                { p4 with shared := { p4.shared with canceled := false } }).2.shared.log
              = p4.shared.log ++ added ∧
            Event.printInvoked s ∈ added) :=
  ⟨fun pre post po done todo s sh1 sh2 pre1 po1 po2 h1 h2 h3 h4 h5 h6 h7 h8 =>
      process_canceled_in_object_stage G env p pre post po done todo s sh1 sh2 pre1 po1 po2
        h1 h2 h3 h4 h5 h6 h7 h8,
    fun objs sh done todo s p2 p3 h1 h2 h3 h4 h5 h6 h7 =>
      process_canceled_in_print_stage G env p objs sh done todo s p2 p3 h1 h2 h3 h4 h5 h6 h7⟩

/-- Witness of `process_canceled_in_stage`: in the sample run a cancel request
arrives while the support tree of object 0 is built and the support algorithm
is unwound by its stop condition.  The run ends with the cancellation signal,
the build-support-tree stage is `Started` and the tree handle unset; the next
call invokes the stage again, builds the tree and returns normally. -/
theorem process_canceled_in_stage_witness :
    sampleTreeArrival.1 = Outcome.ok ∧ sampleTreeArrival.2.1.canceled = false ∧
    (∃ sh3 : Shared,
      process sampleGeometry (cancelDuring 0 slaposSupportTree) samplePrint
        = (Outcome.canceled,
            { samplePrint with
              m_objects := [] ++ sampleTreeArrival.2.2.set_started slaposSupportTree :: []
              shared := sh3 }) ∧
      sh3.canceled = true ∧
      (sampleTreeArrival.2.2.set_started slaposSupportTree).m_state slaposSupportTree
        = StepState.Started ∧
      (sampleTreeArrival.2.2.set_started slaposSupportTree).m_state slaposSupportTree
        ≠ StepState.Done ∧
      (slaposSupportTree = slaposSupportTree →
        (cancelDuring 0 slaposSupportTree).obj ([] : List SLAPrintObject).length
          slaposSupportTree = CancelEvent.stopSeen →
        (sampleTreeArrival.2.2.set_started slaposSupportTree).m_supportdata
          = sampleTreeArrival.2.2.m_supportdata) ∧
      ∀ env2 : CancelEnv,
        (∀ j t, j < ([] : List SLAPrintObject).length → env2.obj j t = CancelEvent.quiet) →
        (∀ t ∈ [slaposObjectSlice, slaposSupportIslands, slaposSupportPoints],
          env2.obj ([] : List SLAPrintObject).length t = CancelEvent.quiet) →
        ∃ added,
          (process sampleGeometry env2
              { samplePrint with
                m_objects := [] ++ sampleTreeArrival.2.2.set_started slaposSupportTree :: []
                shared := { sh3 with canceled := false } }).2.shared.log
            = sh3.log ++ added ∧
          Event.objInvoked ([] : List SLAPrintObject).length slaposSupportTree ∈ added) ∧
    sampleCanceledRun.1 = Outcome.canceled ∧
    sampleCanceledRun.2.m_objects.map (fun o => o.m_state slaposSupportTree)
      = [StepState.Started] ∧
    sampleCanceledRun.2.m_objects.map
        (fun o => o.m_supportdata.map (fun sd => sd.support_tree_ptr)) = [some none] ∧
    sampleRetry.1 = Outcome.ok ∧
    Event.objInvoked 0 slaposSupportTree ∈ sampleRetry.2.shared.log ∧
    sampleRetry.2.m_objects.map (fun o => o.m_state slaposSupportTree) = [StepState.Done] ∧
    sampleRetry.2.m_objects.map
        (fun o => o.m_supportdata.map (fun sd => sd.support_tree_ptr)) = [some (some 8)] :=
  ⟨by decide, by decide,
    (process_canceled_in_stage sampleGeometry (cancelDuring 0 slaposSupportTree)
      samplePrint).1 [] [] (freshObject [3])
      [slaposObjectSlice, slaposSupportIslands, slaposSupportPoints]
      [slaposBasePool, slaposSliceSupports] slaposSupportTree samplePrint.shared
      sampleTreeArrival.2.1 [] sampleTreeArrival.2.2
      (sampleTreeArrival.2.2.set_started slaposSupportTree) rfl rfl rfl
      (Prod.ext (by decide) rfl) (by decide) (by decide) (Or.inl (by decide))
      rfl,
    by decide, by decide, by decide, by decide, by decide, by decide, by decide⟩

/-! ## Layer aggregation: the contributors of the buckets -/

theorem levelsEmplace_keyedEntries (k : Int) (r : LayerRef) (levels : Levels) :
    List.Perm (Levels.keyedEntries (levelsEmplace k r levels))
      (Levels.keyedEntries levels ++ [(k, r)]) := by
  induction levels with
  | nil => simp [levelsEmplace, Levels.keyedEntries]
  | cons e rest ih =>
    obtain ⟨k1, b⟩ := e
    unfold levelsEmplace
    by_cases h1 : k < k1
    · simp only [h1, if_true, Levels.keyedEntries, List.flatMap_cons, List.map_cons,
        List.map_nil, List.singleton_append]
      exact (List.perm_append_singleton _ _).symm
    · by_cases h2 : k = k1
      · subst h2
        simp only [lt_self_iff_false, if_false, if_true, Levels.keyedEntries,
          List.flatMap_cons, List.map_append, List.map_cons, List.map_nil, List.append_assoc]
        exact List.Perm.append_left _ List.perm_append_comm
      · simp only [h1, h2, if_false]
        simp only [Levels.keyedEntries, List.flatMap_cons, List.append_assoc] at ih ⊢
        exact List.Perm.append_left _ ih

theorem addSlices_keyedEntries (sf ilh lh : ℚ) (copies : List Instance)
    (slices : List ExPolygons) :
    ∀ (i : Nat) (levels : Levels),
      List.Perm (Levels.keyedEntries (addSlices sf ilh lh copies i slices levels))
        (Levels.keyedEntries levels ++ keyedSlices sf ilh lh copies i slices) := by
  induction slices with
  | nil => intro i levels; simp [addSlices, keyedSlices]
  | cons sl rest ih =>
    intro i levels
    simp only [addSlices]
    refine (ih (i + 1) _).trans ?_
    have h := levelsEmplace_keyedEntries (lyridx sf (ilh + (i : ℚ) * lh))
      { lref := sl, copies := copies } levels
    refine (List.Perm.append_right _ h).trans ?_
    simp [keyedSlices, List.enumFrom_cons]

theorem aggregateObject_keyedEntries (sf ilh : ℚ) (levels : Levels) (o : SLAPrintObject) :
    List.Perm (Levels.keyedEntries (aggregateObject sf ilh levels o))
      (Levels.keyedEntries levels ++ keyedContributors sf ilh o) := by
  unfold aggregateObject keyedContributors
  cases h : o.m_supportdata with
  | none =>
    simp only [List.append_nil]
    exact addSlices_keyedEntries _ _ _ _ _ _ _
  | some sd =>
    simp only
    refine (addSlices_keyedEntries _ _ _ _ _ _ _).trans ?_
    rw [← List.append_assoc]
    exact List.Perm.append_right _ (addSlices_keyedEntries _ _ _ _ _ _ _)

theorem foldl_aggregateObject_keyedEntries (sf ilh : ℚ) (objs : List SLAPrintObject) :
    ∀ levels : Levels,
      List.Perm (Levels.keyedEntries (objs.foldl (aggregateObject sf ilh) levels))
        (Levels.keyedEntries levels ++ objs.flatMap (keyedContributors sf ilh)) := by
  induction objs with
  | nil => intro levels; simp
  | cons o rest ih =>
    intro levels
    simp only [List.foldl_cons, List.flatMap_cons]
    refine (ih _).trans ?_
    rw [← List.append_assoc]
    exact List.Perm.append_right _ (aggregateObject_keyedEntries sf ilh levels o)

theorem keyedEntries_length (levels : Levels) :
    (Levels.keyedEntries levels).length = Levels.entryCount levels := by
  induction levels with
  | nil => rfl
  | cons e rest ih =>
    simp only [Levels.keyedEntries, List.flatMap_cons, List.length_append, List.length_map,
      Levels.entryCount, List.map_cons, List.sum_cons] at ih ⊢
    rw [ih]

theorem levelsEmplace_ne_nil (k : Int) (r : LayerRef) (levels : Levels)
    (h : ∀ e ∈ levels, e.2 ≠ []) : ∀ e ∈ levelsEmplace k r levels, e.2 ≠ [] := by
  induction levels with
  | nil =>
    intro e he
    simp only [levelsEmplace, List.mem_singleton] at he
    subst he
    simp
  | cons e0 rest ih =>
    obtain ⟨k1, b⟩ := e0
    intro e he
    unfold levelsEmplace at he
    by_cases h1 : k < k1
    · simp only [h1, if_true, List.mem_cons] at he
      rcases he with rfl | rfl | he
      · simp
      · exact h _ (List.mem_cons_self _ _)
      · exact h _ (List.mem_cons_of_mem _ he)
    · by_cases h2 : k = k1
      · subst h2
        simp only [lt_self_iff_false, if_false, if_true, List.mem_cons] at he
        rcases he with rfl | he
        · simp
        · exact h _ (List.mem_cons_of_mem _ he)
      · simp only [h1, h2, if_false, List.mem_cons] at he
        rcases he with rfl | he
        · exact h _ (List.mem_cons_self _ _)
        · exact ih (fun x hx => h x (List.mem_cons_of_mem _ hx)) e he

theorem addSlices_ne_nil (sf ilh lh : ℚ) (copies : List Instance) (slices : List ExPolygons) :
    ∀ (i : Nat) (levels : Levels), (∀ e ∈ levels, e.2 ≠ []) →
      ∀ e ∈ addSlices sf ilh lh copies i slices levels, e.2 ≠ [] := by
  induction slices with
  | nil => intro i levels h; exact h
  | cons sl rest ih =>
    intro i levels h
    simp only [addSlices]
    exact ih _ _ (levelsEmplace_ne_nil _ _ _ h)

theorem aggregate_buckets_ne_nil (sf ilh : ℚ) (objs : List SLAPrintObject) :
    ∀ e ∈ aggregate sf ilh objs, e.2 ≠ [] := by
  have key : ∀ (objs : List SLAPrintObject) (levels : Levels), (∀ e ∈ levels, e.2 ≠ []) →
      ∀ e ∈ objs.foldl (aggregateObject sf ilh) levels, e.2 ≠ [] := by
    intro objs
    induction objs with
    | nil => intro levels h; exact h
    | cons o rest ih =>
      intro levels h
      simp only [List.foldl_cons]
      apply ih
      unfold aggregateObject
      dsimp only
      split
      · exact addSlices_ne_nil _ _ _ _ _ _ _ (addSlices_ne_nil _ _ _ _ _ _ _ h)
      · exact addSlices_ne_nil _ _ _ _ _ _ _ h
  exact key objs [] (by simp)

/-- C6: the buckets built by the layer aggregator hold, in total, one entry per
model slice of every object plus one entry per support slice of every object
that has support data; and no contributor is lost or duplicated: the entries
of all buckets, each taken with the key of its bucket, are, up to their order,
exactly the contributors of all objects, every model slice and every support
slice of index `i` with the instance list of its object under the key of the
height `initial_height + i * layer_height`; and no bucket is empty. -/
theorem aggregate_contributors_complete (SCALING_FACTOR ilh : ℚ)
    (objs : List SLAPrintObject) :
    Levels.entryCount (aggregate SCALING_FACTOR ilh objs)
      = (objs.map (fun o => o.m_model_slices.length)).sum
        + (objs.map (fun o => match o.m_supportdata with
            | some sd => sd.support_slices.length
            | none => 0)).sum ∧
    List.Perm (Levels.keyedEntries (aggregate SCALING_FACTOR ilh objs))
      (objs.flatMap (keyedContributors SCALING_FACTOR ilh)) ∧
    (Levels.keys (aggregate SCALING_FACTOR ilh objs)).Pairwise (· < ·) ∧
    ∀ e ∈ aggregate SCALING_FACTOR ilh objs, e.2 ≠ [] := by
  refine ⟨aggregate_entryCount_complete SCALING_FACTOR ilh objs, ?_,
    aggregate_sorted SCALING_FACTOR ilh objs, ?_⟩
  · have h := foldl_aggregateObject_keyedEntries SCALING_FACTOR ilh objs []
    simpa [aggregate, Levels.keyedEntries] using h
  · exact aggregate_buckets_ne_nil SCALING_FACTOR ilh objs

/-! ## Canvases: the calls of the rasterizer -/

theorem modify_append_append (l : List (List CanvasCall)) (a b : List CanvasCall) (id : Nat) :
    (l.modify (fun c => c ++ a) id).modify (fun c => c ++ b) id
      = l.modify (fun c => c ++ (a ++ b)) id := by
  apply List.ext_getElem?
  intro m
  rw [List.getElem?_modify, List.getElem?_modify, List.getElem?_modify]
  cases l[m]? <;> by_cases hm : id = m <;> simp [hm]

theorem modify_append_nil (l : List (List CanvasCall)) (id : Nat) :
    l.modify (fun c => c ++ []) id = l := by
  apply List.ext_getElem?
  intro m
  rw [List.getElem?_modify]
  cases l[m]? <;> simp

theorem foldl_draw_polygon (level_id : Nat) (ds : List DrawnPolygon) :
    ∀ pr : SLAPrinter,
      ds.foldl (fun pr1 d => pr1.draw_polygon d level_id) pr
        = { pr with
            layers := pr.layers.modify (fun c => c ++ ds.map CanvasCall.draw_polygon)
              level_id } := by
  induction ds with
  | nil =>
    intro pr
    simp only [List.foldl_nil, List.map_nil, modify_append_nil]
  | cons d ds ih =>
    intro pr
    rw [List.foldl_cons, ih]
    simp only [SLAPrinter.draw_polygon, modify_append_append, List.map_cons,
      List.singleton_append]

/-- The calls for one entry of a bucket go to canvas `level_id`. -/
theorem lvlfn_entry (level_id : Nat) (lyrref : LayerRef) (pr : SLAPrinter) :
    ((drawnOfLayerRef lyrref).foldl (fun pr1 d => pr1.draw_polygon d level_id)
        (pr.begin_layer level_id)).finish_layer level_id
      = { pr with
          layers := pr.layers.modify (fun c => c ++ callsOfLayerRef lyrref) level_id } := by
  rw [foldl_draw_polygon]
  simp only [SLAPrinter.begin_layer, SLAPrinter.finish_layer, modify_append_append,
    callsOfLayerRef, List.append_assoc]

theorem foldl_lrange (level_id : Nat) (lrange : List LayerRef) :
    ∀ pr : SLAPrinter,
      lrange.foldl (fun pr lyrref =>
          ((drawnOfLayerRef lyrref).foldl (fun pr1 d => pr1.draw_polygon d level_id)
            (pr.begin_layer level_id)).finish_layer level_id) pr
        = { pr with
            layers := pr.layers.modify (fun c => c ++ callsOfBucket lrange) level_id } := by
  induction lrange with
  | nil =>
    intro pr
    simp only [List.foldl_nil, callsOfBucket, List.flatMap_nil, modify_append_nil]
  | cons lyrref rest ih =>
    intro pr
    rw [List.foldl_cons, lvlfn_entry, ih]
    simp only [modify_append_append, callsOfBucket, List.flatMap_cons]

/-- The task of `level_id` puts the calls for the bucket found under
`keys[level_id]` on canvas `level_id` and touches nothing else. -/
theorem lvlfn_eq (keys : List Int) (levels : Levels) (pr : SLAPrinter) (level_id : Nat) :
    lvlfn keys levels pr level_id
      = { pr with
          layers := pr.layers.modify
            (fun c => c ++ callsOfBucket ((levels.lookup (keys.getD level_id 0)).getD []))
            level_id } := by
  unfold lvlfn
  exact foldl_lrange level_id _ pr

theorem foldl_lvlfn_length (keys : List Int) (levels : Levels) (ids : List Nat) :
    ∀ pr : SLAPrinter,
      (ids.foldl (lvlfn keys levels) pr).layers.length = pr.layers.length := by
  induction ids with
  | nil => intro pr; rfl
  | cons id ids ih =>
    intro pr
    rw [List.foldl_cons, ih, lvlfn_eq]
    simp

/-- The number of canvases that `rasterize` allocates is the number of buckets
narrowed to `unsigned`. -/
theorem rasterize_layers_length (sf ilh : ℚ) (objs : List SLAPrintObject)
    (matcfg : SLAMaterialConfig) (printcfg : SLAPrinterConfig) (hne : objs ≠ []) :
    ∃ printer, rasterize sf ilh objs matcfg printcfg = some printer ∧
      printer.layers.length = toUnsigned ((aggregate sf ilh objs).length : Int) := by
  cases objs with
  | nil => exact absurd rfl hne
  | cons front rest =>
    refine ⟨_, rfl, ?_⟩
    rw [foldl_lvlfn_length]
    simp

/-- Method `apply` gives every print object the layer height of the
configuration. -/
theorem apply_layer_height (G : Collaborators) (defaults : SLAPrintObjectConfig)
    (p : SLAPrint) (model : Model) (config_in : DynamicPrintConfig) :
    ∀ o ∈ (apply G defaults p model config_in).2.m_objects,
      o.m_config.layer_height = config_in.layer_height := by
  intro o ho
  unfold apply at ho
  by_cases h : (p.m_objects.isEmpty && model.objects.isEmpty) = true
  · rw [if_pos h] at ho
    simp only [Bool.and_eq_true, List.isEmpty_iff] at h
    rw [h.1] at ho
    simp at ho
  · rw [if_neg h] at ho
    simp only [List.mem_map] at ho
    obtain ⟨mo, -, rfl⟩ := ho
    rfl

theorem pobj_program_config (G : Collaborators) (ilh : ℚ) (stop : Bool)
    (s : SLAPrintObjectStep) (po po2 : SLAPrintObject)
    (h : pobj_program G ilh stop s po = some po2) : po2.m_config = po.m_config := by
  cases s
  · simp only [pobj_program, Option.some.injEq] at h; subst h; rfl
  · simp only [pobj_program, Option.some.injEq] at h; subst h; rfl
  · simp only [pobj_program, Option.some.injEq, support_points] at h
    subst h; split_ifs <;> rfl
  · simp only [pobj_program, support_tree] at h
    split at h
    · exact absurd h (by simp)
    · split_ifs at h <;> simp only [Option.some.injEq] at h <;> subst h <;> rfl
  · simp only [pobj_program, Option.some.injEq, base_pool] at h
    subst h
    split
    · split <;> rfl
    · rfl
  · simp only [pobj_program, Option.some.injEq, slice_supports] at h
    subst h
    split
    · split <;> rfl
    · rfl

theorem objIter_config (G : Collaborators) (ilh : ℚ) (ev : CancelEvent) (i : Nat)
    (s : SLAPrintObjectStep) (sh : Shared) (po : SLAPrintObject) :
    (objIter G ilh ev i s sh po).2.2.m_config = po.m_config := by
  unfold objIter
  split_ifs
  · rfl
  · dsimp only
    split
    · rfl
    · next po2 hp =>
      have hc := pobj_program_config G ilh _ s _ po2 hp
      split
      · exact hc
      · next po3 hd =>
        obtain ⟨-, rfl⟩ := SLAPrintObject.set_done_some _ _ _ _ hd
        exact hc
  · rfl

theorem objSteps_config (G : Collaborators) (ilh : ℚ) (env : CancelEnv) (i : Nat)
    (ss : List SLAPrintObjectStep) :
    ∀ (sh : Shared) (po : SLAPrintObject),
      (objSteps G ilh env i ss sh po).2.2.m_config = po.m_config := by
  induction ss with
  | nil => intro sh po; rfl
  | cons s ss ih =>
    intro sh po
    have h1 := objIter_config G ilh (env.obj i s) i s sh po
    simp only [objSteps]
    rcases hi : objIter G ilh (env.obj i s) i s sh po with ⟨o, sh1, po1⟩
    rw [hi] at h1
    cases o
    · exact (ih sh1 po1).trans h1
    all_goals exact h1

theorem objLoop_config (G : Collaborators) (ilh : ℚ) (env : CancelEnv)
    (objs : List SLAPrintObject) :
    ∀ (i : Nat) (sh : Shared),
      (objLoop G ilh env i objs sh).2.2.map (fun o => o.m_config)
        = objs.map (fun o => o.m_config) := by
  induction objs with
  | nil => intro i sh; rfl
  | cons po rest ih =>
    intro i sh
    have h1 := objSteps_config G ilh env i objectsteps sh po
    simp only [objLoop]
    rcases hs : objSteps G ilh env i objectsteps sh po with ⟨o, sh1, po1⟩
    rw [hs] at h1
    cases o
    · have := ih (i + 1) sh1
      simp only [List.map_cons, this]
      rw [h1]
    all_goals
      simp only [List.map_cons]
      rw [h1]

/-- Method `process` leaves the configuration of every print object as it is:
after `apply` and any number of `process` calls all print objects have the
layer height of the applied configuration. -/
theorem process_keeps_config (G : Collaborators) (env : CancelEnv) (p : SLAPrint) :
    (process G env p).2.m_objects.map (fun o => o.m_config)
      = p.m_objects.map (fun o => o.m_config) := by
  rw [(process_frame G env p 0 slaposObjectSlice).1]
  exact objLoop_config G _ env p.m_objects 0 p.shared

/-! ## Buckets and canvases: the rasterizer -/

theorem Double.ordFloorAux_range (q : ℚ) :
    ∀ k n : Nat, n ≤ Double.ordFloorAux q k n ∧ Double.ordFloorAux q k n < n + 2 ^ k := by
  intro k
  induction k with
  | zero => intro n; simp [Double.ordFloorAux]
  | succ k ih =>
    intro n
    simp only [Double.ordFloorAux]
    have h2 : 2 ^ (k + 1) = 2 ^ k + 2 ^ k := by rw [pow_succ]; omega
    split_ifs
    · obtain ⟨h1, h3⟩ := ih (n + 2 ^ k)
      omega
    · obtain ⟨h1, h3⟩ := ih n
      have : 0 < 2 ^ k := Nat.two_pow_pos k
      omega

theorem Double.ordFloorAux_le (q : ℚ) :
    ∀ k n : Nat, Double.magValue n ≤ q → Double.magValue (Double.ordFloorAux q k n) ≤ q := by
  intro k
  induction k with
  | zero => intro n h; simpa [Double.ordFloorAux] using h
  | succ k ih =>
    intro n h
    simp only [Double.ordFloorAux]
    split_ifs with hc
    · exact ih _ hc
    · exact ih _ h

theorem Double.ordFloorAux_max (q : ℚ) :
    ∀ k n m : Nat, n ≤ m → m < n + 2 ^ k → Double.magValue m ≤ q →
      m ≤ Double.ordFloorAux q k n := by
  intro k
  induction k with
  | zero =>
    intro n m h1 h2 _
    simp only [Double.ordFloorAux]
    omega
  | succ k ih =>
    intro n m h1 h2 h3
    simp only [Double.ordFloorAux]
    have hp : 2 ^ (k + 1) = 2 ^ k + 2 ^ k := by rw [pow_succ]; omega
    split_ifs with hc
    · by_cases hm : n + 2 ^ k ≤ m
      · exact ih _ m hm (by omega) h3
      · have := (Double.ordFloorAux_range q k (n + 2 ^ k)).1
        omega
    · have hm : m < n + 2 ^ k := by
        by_contra hge
        have := Double.magValue_strictMono.monotone (not_lt.mp hge)
        exact hc (le_trans this h3)
      exact ih _ m h1 hm h3

theorem Double.ordFloor_le (q : ℚ) (h : 0 ≤ q) : Double.magValue (Double.ordFloor q) ≤ q :=
  Double.ordFloorAux_le q 63 0 (by rw [Double.magValue_zero]; exact h)

theorem Double.ordFloor_lt (q : ℚ) : Double.ordFloor q < 2 ^ 63 := by
  have := (Double.ordFloorAux_range q 63 0).2
  simpa [Double.ordFloor] using this

theorem Double.ordFloor_max (q : ℚ) (m : Nat) (hm : m < 2 ^ 63)
    (h : Double.magValue m ≤ q) : m ≤ Double.ordFloor q :=
  Double.ordFloorAux_max q 63 0 m (Nat.zero_le _) (by simpa using hm) h

theorem Double.lt_succ_ordFloor (q : ℚ) (h : Double.ordFloor q + 1 < 2 ^ 63) :
    q < Double.magValue (Double.ordFloor q + 1) := by
  by_contra hge
  have := Double.ordFloor_max q _ h (not_lt.mp hge)
  omega

theorem Double.ordFloor_eq (q : ℚ) (n : Nat) (hn : n < 2 ^ 63)
    (h1 : Double.magValue n ≤ q) (h2 : q < Double.magValue (n + 1)) :
    Double.ordFloor q = n := by
  have hle := Double.ordFloor_max q n hn h1
  have h0 : 0 ≤ q := by
    have := Double.magValue_strictMono.monotone (Nat.zero_le n)
    rw [Double.magValue_zero] at this
    linarith
  by_contra hne
  have hlt : n + 1 ≤ Double.ordFloor q := by omega
  have := Double.magValue_strictMono.monotone hlt
  have := Double.ordFloor_le q h0
  linarith

theorem Double.ordFloor_mono (q q' : ℚ) (h0 : 0 ≤ q) (h : q ≤ q') :
    Double.ordFloor q ≤ Double.ordFloor q' :=
  Double.ordFloor_max q' _ (Double.ordFloor_lt q) (le_trans (Double.ordFloor_le q h0) h)

theorem Double.ordFloor_magValue (n : Nat) (hn : n < 2 ^ 63) :
    Double.ordFloor (Double.magValue n) = n :=
  Double.ordFloor_eq _ n hn (le_refl _) (Double.magValue_lt_succ n)

/-- The rounded ordinal is the ordinal below or the ordinal above, whichever
is nearer, and the even one of the two in the middle between them. -/
theorem Double.roundMag_cases (q : ℚ) :
    Double.roundMag q = 0x7FF0000000000000 ∧ 0x7FF0000000000000 ≤ Double.ordFloor q ∨
    Double.ordFloor q < 0x7FF0000000000000 ∧
      (Double.roundMag q = Double.ordFloor q ∧
          (q - Double.magValue (Double.ordFloor q)
              < Double.magValue (Double.ordFloor q + 1) - q ∨
            q - Double.magValue (Double.ordFloor q)
                = Double.magValue (Double.ordFloor q + 1) - q ∧
              Double.ordFloor q % 2 = 0) ∨
        Double.roundMag q = Double.ordFloor q + 1 ∧
          (Double.magValue (Double.ordFloor q + 1) - q
              < q - Double.magValue (Double.ordFloor q) ∨
            q - Double.magValue (Double.ordFloor q)
                = Double.magValue (Double.ordFloor q + 1) - q ∧
              Double.ordFloor q % 2 = 1)) := by
  unfold Double.roundMag
  dsimp only
  by_cases h : 0x7FF0000000000000 ≤ Double.ordFloor q
  · left
    rw [if_pos h]
    exact ⟨rfl, h⟩
  · right
    rw [if_neg h]
    refine ⟨by omega, ?_⟩
    by_cases h1 : q - Double.magValue (Double.ordFloor q)
        < Double.magValue (Double.ordFloor q + 1) - q
    · rw [if_pos h1]
      exact Or.inl ⟨rfl, Or.inl h1⟩
    · rw [if_neg h1]
      by_cases h2 : Double.magValue (Double.ordFloor q + 1) - q
          < q - Double.magValue (Double.ordFloor q)
      · rw [if_pos h2]
        exact Or.inr ⟨rfl, Or.inl h2⟩
      · rw [if_neg h2]
        have he : q - Double.magValue (Double.ordFloor q)
            = Double.magValue (Double.ordFloor q + 1) - q :=
          le_antisymm (not_lt.mp h2) (not_lt.mp h1)
        by_cases h3 : Double.ordFloor q % 2 = 0
        · rw [if_pos h3]
          exact Or.inl ⟨rfl, Or.inr ⟨he, h3⟩⟩
        · rw [if_neg h3]
          exact Or.inr ⟨rfl, Or.inr ⟨he, by omega⟩⟩

theorem Double.roundMag_le_inf (q : ℚ) : Double.roundMag q ≤ 0x7FF0000000000000 := by
  rcases Double.roundMag_cases q with ⟨h, -⟩ | ⟨hlt, ⟨h, -⟩ | ⟨h, -⟩⟩ <;> omega

theorem Double.roundMag_mono (q q' : ℚ) (h0 : 0 ≤ q) (h : q ≤ q') :
    Double.roundMag q ≤ Double.roundMag q' := by
  have hm := Double.ordFloor_mono q q' h0 h
  rcases Double.roundMag_cases q' with ⟨h', -⟩ | ⟨hlt', hc'⟩
  · rw [h']; exact Double.roundMag_le_inf q
  · rcases Double.roundMag_cases q with ⟨-, hge⟩ | ⟨-, hc⟩
    · omega
    · by_cases heq : Double.ordFloor q = Double.ordFloor q'
      · rw [← heq] at hc'
        rcases hc with ⟨e, -⟩ | ⟨e, c⟩
        · rcases hc' with ⟨e', -⟩ | ⟨e', -⟩ <;> omega
        · rcases hc' with ⟨e', c'⟩ | ⟨e', -⟩
          · exfalso
            rcases c with c | ⟨c, par⟩ <;> rcases c' with c' | ⟨c', par'⟩
            · linarith
            · linarith
            · linarith
            · omega
          · omega
      · have hlt2 : Double.ordFloor q < Double.ordFloor q' := by omega
        rcases hc with ⟨e, -⟩ | ⟨e, -⟩ <;> rcases hc' with ⟨e', -⟩ | ⟨e', -⟩ <;> omega

theorem Double.roundMag_magValue (n : Nat) (hn : n ≤ 0x7FF0000000000000) :
    Double.roundMag (Double.magValue n) = n := by
  unfold Double.roundMag
  dsimp only
  rw [Double.ordFloor_magValue n (by omega)]
  by_cases h : 0x7FF0000000000000 ≤ n
  · rw [if_pos h]; omega
  · rw [if_neg h, if_pos]
    have := Double.magValue_lt_succ n
    linarith

/-- The rounded value is a double nearest to `q`. -/
theorem Double.roundMag_nearest (q : ℚ) (h0 : 0 ≤ q)
    (hfin : Double.ordFloor q < 0x7FF0000000000000) (m : Nat) :
    |q - Double.magValue (Double.roundMag q)| ≤ |q - Double.magValue m| := by
  have hlo := Double.ordFloor_le q h0
  have hhi := Double.lt_succ_ordFloor q (by omega)
  have hother : q - Double.magValue (Double.ordFloor q) ≤ |q - Double.magValue m| ∨
      Double.magValue (Double.ordFloor q + 1) - q ≤ |q - Double.magValue m| := by
    by_cases hm : m ≤ Double.ordFloor q
    · left
      have := Double.magValue_strictMono.monotone hm
      rw [abs_of_nonneg (by linarith)]
      linarith
    · right
      have := Double.magValue_strictMono.monotone (show Double.ordFloor q + 1 ≤ m by omega)
      rw [abs_of_nonpos (by linarith)]
      linarith
  rcases Double.roundMag_cases q with ⟨-, hge⟩ | ⟨-, ⟨e, hc⟩ | ⟨e, hc⟩⟩
  · omega
  · rw [e, abs_of_nonneg (by linarith)]
    rcases hother with h | h <;> rcases hc with c | ⟨c, -⟩ <;> linarith
  · rw [e, abs_of_nonpos (by linarith)]
    rcases hother with h | h <;> rcases hc with c | ⟨c, -⟩ <;> linarith

/-! ## The doubles among the rationals -/

theorem Double.magValue_of_lt (M : Nat) (hM : M < 2 ^ 53) :
    Double.magValue M = (M : ℚ) / 2 ^ 1074 := by
  have h52 : (2 : Nat) ^ 52 = 4503599627370496 := by norm_num
  have h53 : (2 : Nat) ^ 53 = 9007199254740992 := by norm_num
  unfold Double.magValue
  rw [h52]
  rw [h53] at hM
  by_cases h : M < 4503599627370496
  · have e1 : M / 4503599627370496 = 0 := by omega
    have e2 : M % 4503599627370496 = M := by omega
    rw [if_pos e1, e2]
  · have e1 : M / 4503599627370496 = 1 := by omega
    have e2 : 4503599627370496 + M % 4503599627370496 = M := by omega
    rw [if_neg (by omega), e1, e2, pow_one]
    have h75 : (2 : ℚ) ^ 1075 = 2 ^ 1074 * 2 := by rw [← pow_succ]
    have hP : (2 : ℚ) ^ 1074 ≠ 0 := by positivity
    rw [h75]
    generalize (2 : ℚ) ^ 1074 = P at hP
    field_simp
    ring

/-- Every rational `M * 2^n / 2^1074` with `M < 2^53` is the value of an
ordinal. -/
theorem Double.exists_magValue (n : Nat) :
    ∀ M : Nat, M < 2 ^ 53 → ∃ m : Nat, Double.magValue m = (M : ℚ) * 2 ^ n / 2 ^ 1074 := by
  have h52 : (2 : Nat) ^ 52 = 4503599627370496 := by norm_num
  have h53 : (2 : Nat) ^ 53 = 9007199254740992 := by norm_num
  induction n with
  | zero =>
    intro M hM
    exact ⟨M, by rw [Double.magValue_of_lt M hM, pow_zero, mul_one]⟩
  | succ n ih =>
    intro M hM
    by_cases h : M < 2 ^ 52
    · obtain ⟨m, hm⟩ := ih (2 * M) (by rw [h53]; rw [h52] at h; omega)
      refine ⟨m, ?_⟩
      rw [hm, pow_succ]
      push_cast
      ring
    · refine ⟨(n + 2) * 2 ^ 52 + (M - 2 ^ 52), ?_⟩
      rw [h52] at h ⊢
      rw [h53] at hM
      unfold Double.magValue
      rw [h52]
      have e1 : ((n + 2) * 4503599627370496 + (M - 4503599627370496)) / 4503599627370496
          = n + 2 := by omega
      have e2 : 4503599627370496
          + ((n + 2) * 4503599627370496 + (M - 4503599627370496)) % 4503599627370496 = M := by
        omega
      rw [if_neg (by omega), e1, e2]
      have h75 : (2 : ℚ) ^ 1075 = 2 ^ 1074 * 2 := by rw [← pow_succ]
      have hP : (2 : ℚ) ^ 1074 ≠ 0 := by positivity
      rw [h75, pow_succ, pow_succ]
      generalize (2 : ℚ) ^ 1074 = P at hP
      field_simp
      ring

/-- Every value of an ordinal has the form `M * 2^n / 2^1074` with
`M < 2^53`. -/
theorem Double.magValue_form (m : Nat) :
    ∃ M n : Nat, M < 2 ^ 53 ∧ Double.magValue m = (M : ℚ) * 2 ^ n / 2 ^ 1074 := by
  have h52 : (2 : Nat) ^ 52 = 4503599627370496 := by norm_num
  have h53 : (2 : Nat) ^ 53 = 9007199254740992 := by norm_num
  unfold Double.magValue
  rw [h52, h53]
  by_cases h : m / 4503599627370496 = 0
  · refine ⟨m % 4503599627370496, 0, by omega, ?_⟩
    rw [if_pos h, pow_zero, mul_one]
  · refine ⟨4503599627370496 + m % 4503599627370496, m / 4503599627370496 - 1, by omega, ?_⟩
    rw [if_neg h]
    have hp : m / 4503599627370496 = (m / 4503599627370496 - 1) + 1 := by omega
    have h75 : (2 : ℚ) ^ 1075 = 2 ^ 1074 * 2 := by rw [← pow_succ]
    have hP : (2 : ℚ) ^ 1074 ≠ 0 := by positivity
    rw [h75]
    nth_rewrite 1 [hp]
    rw [pow_succ]
    generalize (2 : ℚ) ^ 1074 = P at hP
    generalize (2 : ℚ) ^ (m / 4503599627370496 - 1) = Q
    field_simp
    ring

/-- The natural numbers up to 2^53 are doubles. -/
theorem Double.exists_magValue_nat (N : Nat) (h : N ≤ 2 ^ 53) :
    ∃ m : Nat, Double.magValue m = (N : ℚ) := by
  have hP : (2 : ℚ) ^ 1074 ≠ 0 := by positivity
  by_cases hlt : N < 2 ^ 53
  · obtain ⟨m, hm⟩ := Double.exists_magValue 1074 N hlt
    refine ⟨m, ?_⟩
    rw [hm]
    generalize (2 : ℚ) ^ 1074 = P at hP
    field_simp
  · have hN : N = 2 ^ 53 := by omega
    obtain ⟨m, hm⟩ := Double.exists_magValue 1075 (2 ^ 52) (by norm_num)
    refine ⟨m, ?_⟩
    have h75 : (2 : ℚ) ^ 1075 = 2 ^ 1074 * 2 := by rw [← pow_succ]
    rw [hm, hN, h75]
    generalize (2 : ℚ) ^ 1074 = P at hP
    push_cast
    field_simp
    ring

/-- Below 2^53 the doubles are closed under subtracting 1: the grid of the
doubles gets finer towards zero. -/
theorem Double.exists_magValue_sub_one (m : Nat) (h1 : 1 ≤ Double.magValue m)
    (h2 : Double.magValue m < 2 ^ 53) :
    ∃ m' : Nat, Double.magValue m' = Double.magValue m - 1 := by
  obtain ⟨M, n, hM, hv⟩ := Double.magValue_form m
  by_cases hn : n ≤ 1074
  · -- the value is M / 2^(1074 - n)
    have e : n + (1074 - n) = 1074 := by omega
    have hsplit : (2 : ℚ) ^ 1074 = 2 ^ n * 2 ^ (1074 - n) := by
      rw [← pow_add, e]
    have hA : (0 : ℚ) < 2 ^ n := by positivity
    have hB : (0 : ℚ) < 2 ^ (1074 - n) := by positivity
    rw [hsplit] at hv
    have hval : Double.magValue m = (M : ℚ) / 2 ^ (1074 - n) := by
      rw [hv]
      generalize (2 : ℚ) ^ n = A at hA
      generalize (2 : ℚ) ^ (1074 - n) = B at hB
      field_simp
      ring
    have hge : 2 ^ (1074 - n) ≤ M := by
      have h3 : (2 : ℚ) ^ (1074 - n) ≤ (M : ℚ) := by
        rw [hval, le_div_iff₀ hB, one_mul] at h1
        exact h1
      exact_mod_cast h3
    obtain ⟨m', hm'⟩ := Double.exists_magValue n (M - 2 ^ (1074 - n))
      (Nat.lt_of_le_of_lt (Nat.sub_le _ _) hM)
    refine ⟨m', ?_⟩
    rw [hm', hval, hsplit, Nat.cast_sub hge]
    push_cast
    generalize (2 : ℚ) ^ n = A at hA
    generalize (2 : ℚ) ^ (1074 - n) = B at hB
    field_simp
    ring
  · -- the value is the natural number M * 2^(n - 1074)
    have e : 1074 + (n - 1074) = n := by omega
    have hsplit : (2 : ℚ) ^ n = 2 ^ 1074 * 2 ^ (n - 1074) := by
      rw [← pow_add, e]
    have hP : (2 : ℚ) ^ 1074 ≠ 0 := by positivity
    have hval : Double.magValue m = ((M * 2 ^ (n - 1074) : Nat) : ℚ) := by
      rw [hv, hsplit]
      push_cast
      generalize (2 : ℚ) ^ 1074 = P at hP
      field_simp
      ring
    have hlt : M * 2 ^ (n - 1074) < 2 ^ 53 := by
      have : ((M * 2 ^ (n - 1074) : Nat) : ℚ) < ((2 ^ 53 : Nat) : ℚ) := by
        rw [← hval]; push_cast; exact h2
      exact_mod_cast this
    have hge : 1 ≤ M * 2 ^ (n - 1074) := by
      have : ((1 : Nat) : ℚ) ≤ ((M * 2 ^ (n - 1074) : Nat) : ℚ) := by
        rw [← hval]; push_cast; exact h1
      exact_mod_cast this
    obtain ⟨m', hm'⟩ := Double.exists_magValue_nat (M * 2 ^ (n - 1074) - 1)
      (le_trans (Nat.sub_le _ _) (le_of_lt hlt))
    refine ⟨m', ?_⟩
    rw [hm', hval, Nat.cast_sub hge]
    push_cast
    ring

/-! ## Binary64 arithmetic -/

theorem Double.ofRat_of_nonneg (q : ℚ) (h : 0 ≤ q) :
    Double.ofRat q = Double.ofOrd (Double.roundMag q) := by
  simp [Double.ofRat, h]

theorem Double.magValue_nonneg (m : Nat) : 0 ≤ Double.magValue m := by
  have := Double.magValue_strictMono.monotone (Nat.zero_le m)
  rwa [Double.magValue_zero] at this

theorem Double.magValue_pos (m : Nat) (h : 0 < m) : 0 < Double.magValue m := by
  have := Double.magValue_strictMono h
  rwa [Double.magValue_zero] at this

theorem Double.roundMag_zero : Double.roundMag 0 = 0 := by
  have := Double.roundMag_magValue 0 (by norm_num)
  rwa [Double.magValue_zero] at this

/-- Rounding is monotone. -/
theorem Double.ofRat_le (q q' : ℚ) (h : q ≤ q') :
    Double.le (Double.ofRat q) (Double.ofRat q') = true := by
  unfold Double.ofRat
  by_cases h0 : 0 ≤ q
  · have h0' : 0 ≤ q' := le_trans h0 h
    rw [if_pos h0, if_pos h0']
    simp only [Double.le, decide_eq_true_eq]
    exact_mod_cast Double.roundMag_mono q q' h0 h
  · rw [if_neg h0]
    by_cases h0' : 0 ≤ q'
    · rw [if_pos h0']
      simp only [Double.le, decide_eq_true_eq]
      omega
    · rw [if_neg h0']
      simp only [Double.le, decide_eq_true_eq]
      have := Double.roundMag_mono (-q') (-q) (by linarith) (by linarith)
      omega

/-- Rounding leaves the value of a finite double as it is. -/
theorem Double.ofRat_toRat (x : Double) (q : ℚ) (h : Double.toRat x = some q) :
    Double.ofRat q = x := by
  cases x with
  | nan => simp [Double.toRat] at h
  | ofOrd n =>
    have hq := Double.toRat_ofOrd n q h
    have hfin : n.natAbs < 0x7FF0000000000000 := by
      unfold Double.toRat at h
      dsimp only at h
      by_contra hge
      rw [if_pos (not_lt.mp hge)] at h
      exact absurd h (by simp)
    have hr := Double.roundMag_magValue n.natAbs (le_of_lt hfin)
    by_cases hn : n < 0
    · rw [if_pos hn] at hq
      have hpos := Double.magValue_pos n.natAbs (by omega)
      unfold Double.ofRat
      rw [if_neg (by rw [hq]; linarith), hq, neg_neg, hr]
      congr 1
      omega
    · rw [if_neg hn] at hq
      rw [Double.ofRat_of_nonneg q (by rw [hq]; exact Double.magValue_nonneg _), hq, hr]
      congr 1
      omega

theorem Double.magValue_inf : Double.magValue 0x7FF0000000000000 = 2 ^ 1024 := by
  have e1 : 0x7FF0000000000000 / 2 ^ 52 = 2047 := by norm_num
  have e2 : 0x7FF0000000000000 % 2 ^ 52 = 0 := by norm_num
  unfold Double.magValue
  rw [e1, e2, if_neg (by norm_num)]
  have h1 : (2 : ℚ) ^ 2047 = 2 ^ 1024 * 2 ^ 1023 := by rw [← pow_add]
  have h2 : (2 : ℚ) ^ 1075 = 2 ^ 1023 * 2 ^ 52 := by rw [← pow_add]
  have hA : (2 : ℚ) ^ 1023 ≠ 0 := by positivity
  rw [h1, h2]
  generalize (2 : ℚ) ^ 1023 = A at hA
  generalize (2 : ℚ) ^ 1024 = B
  push_cast
  field_simp
  ring

/-- A non-negative rational below 2^1024 lies between two finite doubles. -/
theorem Double.ordFloor_finite (q : ℚ) (h0 : 0 ≤ q) (h : q < 2 ^ 1024) :
    Double.ordFloor q < 0x7FF0000000000000 := by
  by_contra hge
  have h1 := Double.magValue_strictMono.monotone (not_lt.mp hge)
  have h2 := Double.ordFloor_le q h0
  rw [Double.magValue_inf] at h1
  linarith

theorem Double.roundMag_finite_of_lt (q : ℚ) (h0 : 0 ≤ q) (N : Nat) (hN : N ≤ 2 ^ 53)
    (h : q ≤ N) :
    Double.roundMag q < 0x7FF0000000000000 ∧ Double.magValue (Double.roundMag q) ≤ N := by
  obtain ⟨m, hm⟩ := Double.exists_magValue_nat N hN
  have hlt : (N : ℚ) < 2 ^ 1024 := by
    have h1 : (N : ℚ) ≤ 2 ^ 53 := by exact_mod_cast hN
    have h2 : (2 : ℚ) ^ 53 < 2 ^ 1024 := pow_lt_pow_right₀ (by norm_num) (by norm_num)
    linarith
  have hmfin : m < 0x7FF0000000000000 := by
    rw [← Double.magValue_strictMono.lt_iff_lt, hm, Double.magValue_inf]
    exact hlt
  have hr := Double.roundMag_mono q (Double.magValue m) h0 (by rw [hm]; exact h)
  rw [Double.roundMag_magValue m (le_of_lt hmfin)] at hr
  refine ⟨by omega, ?_⟩
  rw [← hm]
  exact Double.magValue_strictMono.monotone hr

/-- Two non-negative rationals below 2^53 that are more than 1 apart are
rounded to doubles with different integer parts. -/
theorem Double.roundMag_floor_lt (x1 x2 : ℚ) (h0 : 0 ≤ x1) (hfar : x1 + 1 < x2)
    (hr : x2 < 2 ^ 53) :
    ⌊Double.magValue (Double.roundMag x1)⌋ < ⌊Double.magValue (Double.roundMag x2)⌋ := by
  set v1 := Double.magValue (Double.roundMag x1) with hv1
  set v2 := Double.magValue (Double.roundMag x2) with hv2
  have h0' : 0 ≤ x2 := by linarith
  have hv1nn : 0 ≤ v1 := Double.magValue_nonneg _
  have hfl : 0 ≤ ⌊v1⌋ := Int.floor_nonneg.mpr hv1nn
  obtain ⟨N, hN⟩ : ∃ N : Nat, (N : Int) = ⌊v1⌋ := ⟨⌊v1⌋.toNat, Int.toNat_of_nonneg hfl⟩
  have hNle : (N : ℚ) ≤ v1 := by
    have := Int.floor_le v1
    rw [← hN] at this
    exact_mod_cast this
  have hmono : v1 ≤ v2 :=
    Double.magValue_strictMono.monotone (Double.roundMag_mono x1 x2 h0 (by linarith))
  -- the rounded values stay below 2^53
  have hx1 : x1 ≤ ((2 ^ 53 - 1 : Nat) : ℚ) := by
    have : ((2 ^ 53 - 1 : Nat) : ℚ) = 2 ^ 53 - 1 := by norm_num
    rw [this]; linarith
  obtain ⟨-, hv1le⟩ := Double.roundMag_finite_of_lt x1 h0 (2 ^ 53 - 1) (by norm_num) hx1
  have hN53 : N + 1 ≤ 2 ^ 53 := by
    have h1 : (N : ℚ) ≤ ((2 ^ 53 - 1 : Nat) : ℚ) := le_trans hNle hv1le
    have h2 : N ≤ 2 ^ 53 - 1 := by exact_mod_cast h1
    omega
  have hfin2 : Double.ordFloor x2 < 0x7FF0000000000000 :=
    Double.ordFloor_finite x2 h0' (lt_trans hr (pow_lt_pow_right₀ (by norm_num) (by norm_num)))
  have hfin1 : Double.ordFloor x1 < 0x7FF0000000000000 :=
    Double.ordFloor_finite x1 h0 (by
      have : (2 : ℚ) ^ 53 < 2 ^ 1024 := pow_lt_pow_right₀ (by norm_num) (by norm_num)
      linarith)
  -- it is enough that the second rounded value reaches N + 1
  suffices hgoal : ((N + 1 : Nat) : ℚ) ≤ v2 by
    have : ((N : Int) + 1 : Int) ≤ ⌊v2⌋ := by
      rw [Int.le_floor]
      push_cast at hgoal ⊢
      exact hgoal
    omega
  by_contra hlt
  rw [not_le] at hlt
  obtain ⟨mN, hmN⟩ := Double.exists_magValue_nat (N + 1) hN53
  have hmNfin : mN < 0x7FF0000000000000 := by
    rw [← Double.magValue_strictMono.lt_iff_lt, hmN, Double.magValue_inf]
    have h1 : ((N + 1 : Nat) : ℚ) ≤ 2 ^ 53 := by exact_mod_cast hN53
    have h2 : (2 : ℚ) ^ 53 < 2 ^ 1024 := pow_lt_pow_right₀ (by norm_num) (by norm_num)
    linarith
  -- the second rational is below N + 1
  have hx2 : x2 < ((N + 1 : Nat) : ℚ) := by
    by_contra hge
    rw [not_lt] at hge
    have := Double.roundMag_mono (Double.magValue mN) x2 (Double.magValue_nonneg _)
      (by rw [hmN]; exact hge)
    rw [Double.roundMag_magValue mN (le_of_lt hmNfin)] at this
    have := Double.magValue_strictMono.monotone this
    rw [hmN] at this
    linarith
  push_cast at hx2 hlt
  -- nearest: the second rational
  have hnear2 := Double.roundMag_nearest x2 h0' hfin2 mN
  rw [hmN] at hnear2
  push_cast at hnear2
  rw [abs_of_nonpos (by linarith : x2 - ((N : ℚ) + 1) ≤ 0)] at hnear2
  have hnear2' := abs_le.mp hnear2
  -- the double one below the second rounded value
  have hNpos : (1 : ℚ) ≤ (N : ℚ) := by
    have : (0 : ℚ) < (N : ℚ) := by linarith
    have : 0 < N := by exact_mod_cast this
    exact_mod_cast this
  obtain ⟨m', hm'⟩ := Double.exists_magValue_sub_one (Double.roundMag x2)
    (by linarith) (by
      have h1 : ((N : ℚ) + 1) ≤ 2 ^ 53 := by exact_mod_cast hN53
      linarith)
  have hnear1 := Double.roundMag_nearest x1 h0 hfin1 m'
  rw [hm'] at hnear1
  have hlt1 : |x1 - (v2 - 1)| < (N : ℚ) - x1 := by
    rw [abs_lt]
    constructor <;> linarith [hnear2'.1, hnear2'.2]
  have hge1 : (N : ℚ) - x1 ≤ |x1 - v1| := by
    rw [abs_of_nonpos (by linarith)]
    linarith
  linarith

/-! ## Height keys in binary64 -/

theorem Double.toRat_ofOrd_nat (r : Nat) (h : r < 0x7FF0000000000000) :
    Double.toRat (Double.ofOrd (r : Int)) = some (Double.magValue r) := by
  unfold Double.toRat
  dsimp only
  rw [Int.natAbs_ofNat, if_neg (by omega), if_neg (by omega)]
  unfold Double.magValue
  split_ifs <;> rfl

theorem Double.roundMag_eq_lo (q : ℚ) (n : Nat) (hn : n < 0x7FF0000000000000)
    (h1 : Double.magValue n ≤ q)
    (h2 : q - Double.magValue n < Double.magValue (n + 1) - q) :
    Double.roundMag q = n := by
  have hf : Double.ordFloor q = n :=
    Double.ordFloor_eq q n (by omega) h1 (by linarith)
  unfold Double.roundMag
  dsimp only
  rw [hf, if_neg (by omega), if_pos h2]

theorem Double.roundMag_eq_hi (q : ℚ) (n : Nat) (hn : n < 0x7FF0000000000000)
    (h1 : q < Double.magValue (n + 1))
    (h2 : Double.magValue (n + 1) - q < q - Double.magValue n) :
    Double.roundMag q = n + 1 := by
  have hf : Double.ordFloor q = n :=
    Double.ordFloor_eq q n (by omega) (by linarith) h1
  unfold Double.roundMag
  dsimp only
  rw [hf, if_neg (by omega), if_neg (by linarith), if_pos h2]

/-- The key of a non-negative height over a positive grid unit, when the
rounded quotient is a finite double. -/
theorem Double.lyridx_binary64_nonneg (sf h : Double) (qs q : ℚ)
    (hs : Double.toRat sf = some qs) (hh : Double.toRat h = some q)
    (hpos : 0 < qs) (h0 : 0 ≤ q) (hfin : Double.roundMag (q / qs) < 0x7FF0000000000000) :
    Double.lyridx sf h =
      if ⌊Double.magValue (Double.roundMag (q / qs))⌋ < 2 ^ 63 then
        some ⌊Double.magValue (Double.roundMag (q / qs))⌋
      else none := by
  have hx : 0 ≤ q / qs := div_nonneg h0 (le_of_lt hpos)
  have hv := Double.magValue_nonneg (Double.roundMag (q / qs))
  have hfl : 0 ≤ ⌊Double.magValue (Double.roundMag (q / qs))⌋ := Int.floor_nonneg.mpr hv
  simp only [Double.lyridx, Double.scale_, Double.div, Double.classify, hs, hh,
    ne_of_gt hpos, if_false, Double.ofRat_of_nonneg _ hx, Double.toLongLong,
    Double.toRat_ofOrd_nat _ hfin, hv, if_true]
  by_cases hlt : ⌊Double.magValue (Double.roundMag (q / qs))⌋ < 2 ^ 63
  · rw [if_pos hlt, if_pos ⟨by omega, hlt⟩]
  · rw [if_neg hlt, if_neg (fun h => hlt h.2)]

/-- Of two non-negative heights more than a grid unit apart, with scaled values
below 2^53, the higher one has the larger key. -/
theorem Double.lyridx_lt_of_far (SCALING_FACTOR h1 h2 : Double) (qs q1 q2 : ℚ)
    (hs : Double.toRat SCALING_FACTOR = some qs)
    (hh1 : Double.toRat h1 = some q1) (hh2 : Double.toRat h2 = some q2)
    (hpos : 0 < qs) (h0 : 0 ≤ q1) (hfar : q1 + qs < q2) (hrange : q2 / qs < 2 ^ 53) :
    ∃ k1 k2 : Int,
      Double.lyridx SCALING_FACTOR h1 = some k1 ∧
      Double.lyridx SCALING_FACTOR h2 = some k2 ∧ k1 < k2 := by
  have hx1 : 0 ≤ q1 / qs := div_nonneg h0 (le_of_lt hpos)
  have hq2 : 0 ≤ q2 := by linarith
  have hx2 : 0 ≤ q2 / qs := div_nonneg hq2 (le_of_lt hpos)
  have hx12 : q1 / qs + 1 < q2 / qs := by
    rw [← sub_pos]
    have : q2 / qs - (q1 / qs + 1) = (q2 - (q1 + qs)) / qs := by field_simp
    rw [this]
    exact div_pos (by linarith) hpos
  have h53 : ((2 ^ 53 : Nat) : ℚ) = 2 ^ 53 := by norm_num
  obtain ⟨f2, b2⟩ := Double.roundMag_finite_of_lt (q2 / qs) hx2 (2 ^ 53) (le_refl _)
    (by rw [h53]; exact le_of_lt hrange)
  obtain ⟨f1, b1⟩ := Double.roundMag_finite_of_lt (q1 / qs) hx1 (2 ^ 53) (le_refl _)
    (by rw [h53]; linarith)
  rw [h53] at b1 b2
  have hlt := Double.roundMag_floor_lt (q1 / qs) (q2 / qs) hx1 hx12 hrange
  have hsmall : ∀ v : ℚ, v ≤ 2 ^ 53 → ⌊v⌋ < 2 ^ 63 := by
    intro v hv
    rw [Int.floor_lt]
    have : (2 : ℚ) ^ 53 < ((2 ^ 63 : Int) : ℚ) := by norm_num
    linarith
  refine ⟨_, _, ?_, ?_, hlt⟩
  · rw [Double.lyridx_binary64_nonneg _ _ qs q1 hs hh1 hpos h0 f1, if_pos (hsmall _ b1)]
  · rw [Double.lyridx_binary64_nonneg _ _ qs q2 hs hh2 hpos hq2 f2, if_pos (hsmall _ b2)]

theorem Double.toRat_micro :
    Double.toRat Double.micro = some (4722366482869645 / 2 ^ 72) := by
  norm_num [Double.toRat, Double.micro]

/-- C8 (amended): for a grid unit that is a positive finite double and every
two non-negative slice heights, finite doubles, whose difference is larger than
the grid unit and whose scaled values are below 2^53, the aggregator's height
keys, computed in binary64 as the source does (the quotient rounded to a double
and then converted to long long), are defined and different, so the two slices
land in different buckets. -/
theorem lyridx_far_heights_differ_in_range (SCALING_FACTOR h1 h2 : Double) (qs q1 q2 : ℚ)
    (hs : Double.toRat SCALING_FACTOR = some qs)
    (hh1 : Double.toRat h1 = some q1) (hh2 : Double.toRat h2 = some q2)
    (hpos : 0 < qs) (hnn1 : 0 ≤ q1) (hnn2 : 0 ≤ q2) (hfar : qs < |q1 - q2|)
    (hrange1 : q1 / qs < 2 ^ 53) (hrange2 : q2 / qs < 2 ^ 53) :
    ∃ k1 k2 : Int,
      Double.lyridx SCALING_FACTOR h1 = some k1 ∧
      Double.lyridx SCALING_FACTOR h2 = some k2 ∧ k1 ≠ k2 := by
  rcases lt_abs.mp hfar with h | h
  · obtain ⟨k2, k1, e2, e1, hlt⟩ := Double.lyridx_lt_of_far SCALING_FACTOR h2 h1 qs q2 q1
      hs hh2 hh1 hpos hnn2 (by linarith) hrange1
    exact ⟨k1, k2, e1, e2, by omega⟩
  · obtain ⟨k1, k2, e1, e2, hlt⟩ := Double.lyridx_lt_of_far SCALING_FACTOR h1 h2 qs q1 q2
      hs hh1 hh2 hpos hnn1 (by linarith) hrange2
    exact ⟨k1, k2, e1, e2, by omega⟩

/-- Witness of `lyridx_far_heights_differ_in_range`: the heights 0 and 1 over
the grid unit 0.000001. -/
theorem lyridx_far_heights_differ_in_range_witness :
    ∃ k1 k2 : Int,
      Double.lyridx Double.micro Double.zero = some k1 ∧
      Double.lyridx Double.micro Double.one = some k2 ∧ k1 ≠ k2 :=
  lyridx_far_heights_differ_in_range Double.micro Double.zero Double.one
    (4722366482869645 / 2 ^ 72) 0 1 Double.toRat_micro
    (by norm_num [Double.toRat, Double.zero]) (by norm_num [Double.toRat, Double.one])
    (by norm_num) (by norm_num) (by norm_num) (by rw [lt_abs]; right; norm_num)
    (by norm_num) (by norm_num)

theorem Double.lyridx_heightA :
    Double.lyridx Double.micro Double.heightA = some 9007199254741012 := by
  have hv0 : Double.magValue 4845873199050653705 = 9007199254741010 := by
    norm_num [Double.magValue]
  have hv1 : Double.magValue (4845873199050653705 + 1) = 9007199254741012 := by
    norm_num [Double.magValue]
  have hr : Double.roundMag ((4722366482869655 / 524288) / (4722366482869645 / 2 ^ 72))
      = 4845873199050653705 + 1 := by
    apply Double.roundMag_eq_hi _ _ (by norm_num)
    · rw [hv1]; norm_num
    · rw [hv0, hv1]; norm_num
  rw [Double.lyridx_binary64_nonneg Double.micro Double.heightA (4722366482869645 / 2 ^ 72)
    (4722366482869655 / 524288) Double.toRat_micro
    (by norm_num [Double.toRat, Double.heightA]) (by norm_num) (by norm_num)
    (by rw [hr]; norm_num)]
  rw [hr, hv1]
  norm_num

theorem Double.lyridx_heightB :
    Double.lyridx Double.micro Double.heightB = some 9007199254741012 := by
  have hv0 : Double.magValue 4845873199050653706 = 9007199254741012 := by
    norm_num [Double.magValue]
  have hv1 : Double.magValue (4845873199050653706 + 1) = 9007199254741014 := by
    norm_num [Double.magValue]
  have hr : Double.roundMag ((590295810358707 / 65536) / (4722366482869645 / 2 ^ 72))
      = 4845873199050653706 := by
    apply Double.roundMag_eq_lo _ _ (by norm_num)
    · rw [hv0]; norm_num
    · rw [hv0, hv1]; norm_num
  rw [Double.lyridx_binary64_nonneg Double.micro Double.heightB (4722366482869645 / 2 ^ 72)
    (590295810358707 / 65536) Double.toRat_micro
    (by norm_num [Double.toRat, Double.heightB]) (by norm_num) (by norm_num)
    (by rw [hr]; norm_num)]
  rw [hr, hv0]
  norm_num

theorem Double.lyridx_tenTera :
    Double.lyridx Double.micro Double.tenTera = none := by
  have hv0 : Double.magValue 4891288408196988160 = 10000000000000000000 := by
    norm_num [Double.magValue]
  have hv1 : Double.magValue (4891288408196988160 + 1) = 10000000000000002048 := by
    norm_num [Double.magValue]
  have hr : Double.roundMag (10000000000000 / (4722366482869645 / 2 ^ 72))
      = 4891288408196988160 := by
    apply Double.roundMag_eq_lo _ _ (by norm_num)
    · rw [hv0]; norm_num
    · rw [hv0, hv1]; norm_num
  rw [Double.lyridx_binary64_nonneg Double.micro Double.tenTera (4722366482869645 / 2 ^ 72)
    10000000000000 Double.toRat_micro
    (by norm_num [Double.toRat, Double.tenTera]) (by norm_num) (by norm_num)
    (by rw [hr]; norm_num)]
  rw [hr, hv0]
  norm_num

theorem Double.lyridx_twentyTera :
    Double.lyridx Double.micro Double.twentyTera = none := by
  have hv0 : Double.magValue 4895792007824358656 = 20000000000000000000 := by
    norm_num [Double.magValue]
  have hv1 : Double.magValue (4895792007824358656 + 1) = 20000000000000004096 := by
    norm_num [Double.magValue]
  have hr : Double.roundMag (20000000000000 / (4722366482869645 / 2 ^ 72))
      = 4895792007824358656 := by
    apply Double.roundMag_eq_lo _ _ (by norm_num)
    · rw [hv0]; norm_num
    · rw [hv0, hv1]; norm_num
  rw [Double.lyridx_binary64_nonneg Double.micro Double.twentyTera (4722366482869645 / 2 ^ 72)
    20000000000000 Double.toRat_micro
    (by norm_num [Double.toRat, Double.twentyTera]) (by norm_num) (by norm_num)
    (by rw [hr]; norm_num)]
  rw [hr, hv0]
  norm_num

/-- A sum whose exact value is a double is that double. -/
theorem Double.add_exact (a b r : Double) (x y : ℚ) (ha : Double.toRat a = some x)
    (hb : Double.toRat b = some y) (hr : Double.toRat r = some (x + y)) :
    Double.add a b = r := by
  simp only [Double.add, Double.classify, ha, hb]
  exact Double.ofRat_toRat r _ hr

/-- A product whose exact value is a double is that double. -/
theorem Double.mul_exact (a b r : Double) (x y : ℚ) (ha : Double.toRat a = some x)
    (hb : Double.toRat b = some y) (hr : Double.toRat r = some (x * y)) :
    Double.mul a b = r := by
  simp only [Double.mul, Double.classify, ha, hb]
  exact Double.ofRat_toRat r _ hr

/-- The height of slice `i` when the product and the sum are exact. -/
theorem Double.sliceHeight_exact (ilh lh di p r : Double) (i : Int) (x y : ℚ)
    (hi : Double.toRat di = some (i : ℚ)) (hilh : Double.toRat ilh = some x)
    (hlh : Double.toRat lh = some y) (hp : Double.toRat p = some ((i : ℚ) * y))
    (hr : Double.toRat r = some (x + (i : ℚ) * y)) :
    Double.sliceHeight ilh i lh = r := by
  unfold Double.sliceHeight Double.ofInt
  rw [Double.ofRat_toRat di _ hi, Double.mul_exact di lh p _ _ hi hlh hp]
  exact Double.add_exact ilh p r _ _ hilh hp hr

/-- C8 as stated fails: over the grid unit 0.000001, with the initial layer
height 9007199232 (a `float`) and the layer height 2^-19 (about 0.0000019, more
than the grid unit), the slices of index 11922839 and 11922840 have the
heights 9007199254.74101 and 9007199254.741013, neighbouring doubles that
differ by the layer height, and the same height key 9007199254741012: both
quotients round to the same double, the doubles above 2^53 being 2 apart.  And
with the initial layer height 0 and the layer height 1e13 the slices of index
1 and 2 have the heights 1e13 and 2e13, whose scaled values 10^19 and 2 * 10^19
are outside the range of long long: their keys are not defined. -/
theorem lyridx_far_heights_collide :
    Double.toRat Double.micro = some (4722366482869645 / 2 ^ 72) ∧
    Double.toRat Double.farInitial = some (8796093 * 2 ^ 10) ∧
    Double.sliceHeight Double.farInitial 11922839 Double.fineLayer = Double.heightA ∧
    Double.sliceHeight Double.farInitial 11922840 Double.fineLayer = Double.heightB ∧
    Double.toRat Double.heightA = some (4722366482869655 / 524288) ∧
    Double.toRat Double.heightB = some (590295810358707 / 65536) ∧
    (0 : ℚ) ≤ 4722366482869655 / 524288 ∧
    (4722366482869655 / 524288 : ℚ) + 4722366482869645 / 2 ^ 72
      < 590295810358707 / 65536 ∧
    Double.lyridx Double.micro Double.heightA = some 9007199254741012 ∧
    Double.lyridx Double.micro Double.heightB = some 9007199254741012 ∧
    Double.lyridx Double.micro Double.heightA = Double.lyridx Double.micro Double.heightB ∧
    Double.sliceHeight Double.zero 1 Double.tenTera = Double.tenTera ∧
    Double.sliceHeight Double.zero 2 Double.tenTera = Double.twentyTera ∧
    Double.toRat Double.tenTera = some 10000000000000 ∧
    Double.toRat Double.twentyTera = some 20000000000000 ∧
    Double.lyridx Double.micro Double.tenTera = none ∧
    Double.lyridx Double.micro Double.twentyTera = none := by
  have hfar : Double.toRat Double.farInitial = some 9007199232 := by
    norm_num [Double.toRat, Double.farInitial]
  have hfine : Double.toRat Double.fineLayer = some (1 / 524288) := by
    norm_num [Double.toRat, Double.fineLayer]
  have hA : Double.toRat Double.heightA = some (4722366482869655 / 524288) := by
    norm_num [Double.toRat, Double.heightA]
  have hB : Double.toRat Double.heightB = some (590295810358707 / 65536) := by
    norm_num [Double.toRat, Double.heightB]
  have h0 : Double.toRat Double.zero = some 0 := by
    norm_num [Double.toRat, Double.zero]
  have h13 : Double.toRat Double.tenTera = some 10000000000000 := by
    norm_num [Double.toRat, Double.tenTera]
  have h213 : Double.toRat Double.twentyTera = some 20000000000000 := by
    norm_num [Double.toRat, Double.twentyTera]
  refine ⟨Double.toRat_micro, by rw [hfar]; norm_num, ?_, ?_, hA, hB, by norm_num,
    by norm_num, Double.lyridx_heightA, Double.lyridx_heightB, ?_, ?_, ?_, h13, h213,
    Double.lyridx_tenTera, Double.lyridx_twentyTera⟩
  · exact Double.sliceHeight_exact Double.farInitial Double.fineLayer
      (Double.ofOrd 0x4166BDB2E0000000) (Double.ofOrd 0x4036BDB2E0000000) Double.heightA
      11922839 9007199232 (1 / 524288) (by norm_num [Double.toRat]) hfar hfine
      (by norm_num [Double.toRat]) (by rw [hA]; norm_num)
  · exact Double.sliceHeight_exact Double.farInitial Double.fineLayer
      (Double.ofOrd 0x4166BDB300000000) (Double.ofOrd 0x4036BDB300000000) Double.heightB
      11922840 9007199232 (1 / 524288) (by norm_num [Double.toRat]) hfar hfine
      (by norm_num [Double.toRat]) (by rw [hB]; norm_num)
  · rw [Double.lyridx_heightA, Double.lyridx_heightB]
  · exact Double.sliceHeight_exact Double.zero Double.tenTera Double.one Double.tenTera
      Double.tenTera 1 0 10000000000000 (by norm_num [Double.toRat, Double.one]) h0 h13
      (by rw [h13]; norm_num) (by rw [h13]; norm_num)
  · exact Double.sliceHeight_exact Double.zero Double.tenTera Double.two Double.twentyTera
      Double.twentyTera 2 0 10000000000000 (by norm_num [Double.toRat, Double.two]) h0 h13
      (by rw [h213]; norm_num) (by rw [h213]; norm_num)

/-- The height of the slice of index 29 for the initial layer height 0 and the
layer height 0.01, as the source computes it, is the double nearest to 0.29,
and its key over the grid unit 0.000001 is 290000: the quotient, just below
290000, rounds to 290000 before the conversion. -/
theorem Double.lyridx_twentyNine_hundredth :
    Double.sliceHeight Double.zero 29 Double.hundredth = Double.ofOrd 0x3FD28F5C28F5C28F ∧
    Double.lyridx Double.micro (Double.sliceHeight Double.zero 29 Double.hundredth)
      = some 290000 := by
  have hm : Double.sliceHeight Double.zero 29 Double.hundredth
      = Double.ofOrd 0x3FD28F5C28F5C28F := by
    have ha : Double.toRat Double.twentyNine = some 29 := by
      norm_num [Double.toRat, Double.twentyNine]
    have hb : Double.toRat Double.hundredth = some (5764607523034235 / 2 ^ 59) := by
      norm_num [Double.toRat, Double.hundredth]
    have hv0 : Double.magValue 4598895795485655695 = 5224175567749775 / 2 ^ 54 := by
      norm_num [Double.magValue]
    have hv1 : Double.magValue (4598895795485655695 + 1) = 5224175567749776 / 2 ^ 54 := by
      norm_num [Double.magValue]
    have hr : Double.roundMag (29 * (5764607523034235 / 2 ^ 59)) = 4598895795485655695 := by
      apply Double.roundMag_eq_lo _ _ (by norm_num)
      · rw [hv0]; norm_num
      · rw [hv0, hv1]; norm_num
    have hprod : Double.mul Double.twentyNine Double.hundredth
        = Double.ofOrd 0x3FD28F5C28F5C28F := by
      simp only [Double.mul, Double.classify, ha, hb]
      rw [Double.ofRat_of_nonneg _ (by norm_num), hr]
      rfl
    have hint : Double.ofInt 29 = Double.twentyNine :=
      Double.ofRat_toRat Double.twentyNine _ (by rw [ha]; norm_num)
    unfold Double.sliceHeight
    rw [hint, hprod]
    exact Double.add_exact Double.zero _ _ 0 (5224175567749775 / 2 ^ 54)
      (by norm_num [Double.toRat, Double.zero]) (by norm_num [Double.toRat])
      (by norm_num [Double.toRat])
  refine ⟨hm, ?_⟩
  rw [hm]
  have hv0 : Double.magValue 4688725774528675839 = 4982162063359999 / 17179869184 := by
    norm_num [Double.magValue]
  have hv1 : Double.magValue (4688725774528675839 + 1) = 290000 := by
    norm_num [Double.magValue]
  have hr : Double.roundMag ((5224175567749775 / 2 ^ 54) / (4722366482869645 / 2 ^ 72))
      = 4688725774528675839 + 1 := by
    apply Double.roundMag_eq_hi _ _ (by norm_num)
    · rw [hv1]; norm_num
    · rw [hv0, hv1]; norm_num
  rw [Double.lyridx_binary64_nonneg Double.micro _ (4722366482869645 / 2 ^ 72)
    (5224175567749775 / 2 ^ 54) Double.toRat_micro
    (by norm_num [Double.toRat]) (by norm_num) (by norm_num)
    (by rw [hr]; norm_num)]
  rw [hr, hv1]
  norm_num

/-! ## The flow modifier in binary64 -/

theorem Double.toRat_isSome_of_natAbs (n : Int) (h : n.natAbs < 0x7FF0000000000000) :
    ∃ q, Double.toRat (Double.ofOrd n) = some q := by
  unfold Double.toRat
  dsimp only
  rw [if_neg (by omega)]
  exact ⟨_, rfl⟩

theorem Double.natAbs_of_toRat (n : Int) (q : ℚ) (h : Double.toRat (Double.ofOrd n) = some q) :
    n.natAbs < 0x7FF0000000000000 := by
  unfold Double.toRat at h
  dsimp only at h
  by_contra hc
  rw [if_pos (by omega)] at h
  exact Option.noConfusion h

/-- A double between a finite double and 1.0 is unchanged by the product with
1.0. -/
theorem Double.one_mul_of_between (f r : Double) (fq : ℚ) (hf : Double.toRat f = some fq)
    (h1 : Double.le f r = true) (h2 : Double.le r Double.one = true) :
    Double.mul Double.one r = r := by
  cases f with
  | nan => simp [Double.toRat] at hf
  | ofOrd nf =>
  cases r with
  | nan => simp [Double.le] at h1
  | ofOrd nr =>
    have hfin := Double.natAbs_of_toRat nf fq hf
    simp only [Double.le, Double.one, decide_eq_true_eq] at h1 h2
    obtain ⟨v, hv⟩ := Double.toRat_isSome_of_natAbs nr (by omega)
    have h1q : Double.toRat Double.one = some 1 := by
      norm_num [Double.toRat, Double.one]
    simp only [Double.mul, Double.classify, h1q, hv, one_mul]
    exact Double.ofRat_toRat _ _ hv

/-- Evaluation of `modify_flow(x, 1.0, solid infill)` on a two-point table
[(0,f),(L,1.0)] at a length strictly between 0 and L: the table is accepted,
the result is the double nearest to the interpolated factor, and it lies
between f and 1.0. -/
theorem Double.modify_flow_two_point (f L x : Double) (fq Lq xq : ℚ)
    (hf : Double.toRat f = some fq) (hL : Double.toRat L = some Lq)
    (hx : Double.toRat x = some xq)
    (hf1 : Double.lt f Double.one = true) (hx0 : Double.lt Double.zero x = true)
    (hxL : Double.lt x L = true) :
    (tableOf [(Double.zero, f), (L, Double.one)]).accepted = true ∧
    Double.modify_flow (tableOf [(Double.zero, f), (L, Double.one)]) x Double.one
        ExtrusionRole.erSolidInfill = some (Double.ofRat (fq + (1 - fq) * xq / Lq)) ∧
    Double.le f (Double.ofRat (fq + (1 - fq) * xq / Lq)) = true ∧
    Double.le (Double.ofRat (fq + (1 - fq) * xq / Lq)) Double.one = true := by
  have h1 : Double.toRat Double.one = some 1 := by
    norm_num [Double.toRat, Double.one]
  have h0 : Double.toRat Double.zero = some 0 := by
    norm_num [Double.toRat, Double.zero]
  have qf1 : fq < 1 := by
    cases f with
    | nan => simp [Double.lt] at hf1
    | ofOrd nf =>
      simp only [Double.lt, Double.one, decide_eq_true_eq] at hf1
      exact Double.toRat_lt nf _ fq 1 hf h1 hf1
  have qx0 : 0 < xq := by
    cases x with
    | nan => simp [Double.lt] at hx0
    | ofOrd nx =>
      simp only [Double.lt, Double.zero, decide_eq_true_eq] at hx0
      exact Double.toRat_lt 0 nx 0 xq h0 hx hx0
  have qxL : xq < Lq := by
    cases x with
    | nan => simp [Double.lt] at hx0
    | ofOrd nx =>
    cases L with
    | nan => simp [Double.lt] at hxL
    | ofOrd nL =>
      simp only [Double.lt, decide_eq_true_eq] at hxL
      exact Double.toRat_lt nx nL xq Lq hx hL hxL
  have qL0 : 0 < Lq := lt_trans qx0 qxL
  have hfrac0 : 0 < xq / Lq := div_pos qx0 qL0
  have hfrac1 : xq / Lq < 1 := (div_lt_one qL0).mpr qxL
  have hlo : fq ≤ fq + (1 - fq) * xq / Lq := by
    have : 0 < (1 - fq) * (xq / Lq) := mul_pos (by linarith) hfrac0
    rw [mul_div_assoc]
    linarith
  have hhi : fq + (1 - fq) * xq / Lq ≤ 1 := by
    have : (1 - fq) * (xq / Lq) < (1 - fq) * 1 :=
      mul_lt_mul_of_pos_left hfrac1 (by linarith)
    rw [mul_div_assoc]
    linarith
  have hle1 : Double.le f (Double.ofRat (fq + (1 - fq) * xq / Lq)) = true := by
    have := Double.ofRat_le _ _ hlo
    rwa [Double.ofRat_toRat f fq hf] at this
  have hle2 : Double.le (Double.ofRat (fq + (1 - fq) * xq / Lq)) Double.one = true := by
    have := Double.ofRat_le _ _ hhi
    rwa [Double.ofRat_toRat Double.one 1 h1] at this
  have hLgt : Double.lt (Double.ofOrd 1) L = true := by
    cases x with
    | nan => simp [Double.lt] at hx0
    | ofOrd nx =>
    cases L with
    | nan => simp [Double.lt] at hxL
    | ofOrd nL =>
      simp only [Double.lt, Double.zero, decide_eq_true_eq] at hx0 hxL ⊢
      omega
  refine ⟨two_point_table_accepted _ _ hLgt, ?_, hle1, hle2⟩
  have hbranch : (Double.eq x Double.zero || Double.gt x L) = false := by
    cases x with
    | nan => simp [Double.lt] at hx0
    | ofOrd nx =>
    cases L with
    | nan => simp [Double.lt] at hxL
    | ofOrd nL =>
      simp only [Double.lt, Double.zero, decide_eq_true_eq] at hx0 hxL
      simp only [Double.eq, Double.zero, Double.gt, Double.lt, Bool.or_eq_false_iff,
        decide_eq_false_iff_not]
      constructor <;> omega
  have hmodel : Double.flowModel (tableOf [(Double.zero, f), (L, Double.one)]) x
      = Double.ofRat (fq + (1 - fq) * xq / Lq) := by
    simp only [Double.flowModel, tableOf, List.map_cons, List.map_nil, Double.toRats,
      hx, h0, hL, hf, h1, List.zip_cons_cons, List.zip_nil_right, interpolated_factor,
      or_true, if_true, sub_zero]
    rw [if_pos (Or.inl qxL.le)]
  simp only [Double.modify_flow, true_or, if_true, Double.flow_comp_model,
    SmallAreaInfillFlowCompensator.max_modified_length, tableOf, List.map_cons,
    List.map_nil, List.getLast?_cons_cons, List.getLast?_singleton, hbranch,
    Bool.false_eq_true, if_false, Option.map_some', Option.some.injEq]
  have hm2 := hmodel
  simp only [tableOf, List.map_cons, List.map_nil] at hm2
  rw [hm2]
  exact Double.one_mul_of_between f _ fq hf hle1 hle2

/-- C12 as stated fails: with the curve [(0,0.5),(5,1.0)] and the length
1e-17, which is strictly between 0 and 5, `modify_flow(1e-17, 1.0, solid
infill)` is exactly 0.5: the interpolated factor 0.5 + 1e-18 is not a double
and rounds to 0.5, so the result is not strictly above the first factor. -/
theorem modify_flow_rounds_to_first_factor :
    Double.lt Double.zero Double.tiny = true ∧
    Double.lt Double.tiny Double.five = true ∧
    Double.lt Double.half Double.one = true ∧
    Double.modify_flow sampleCurve Double.tiny Double.one ExtrusionRole.erSolidInfill
      = some Double.half ∧
    Double.lt Double.half Double.half = false := by
  refine ⟨by decide, by decide, by decide, ?_, by decide⟩
  have hx : Double.toRat Double.tiny = some (6490371073168535 / 2 ^ 109) := by
    norm_num [Double.toRat, Double.tiny]
  have h := (Double.modify_flow_two_point Double.half Double.five Double.tiny (1 / 2) 5
    (6490371073168535 / 2 ^ 109)
    (by norm_num [Double.toRat, Double.half]) (by norm_num [Double.toRat, Double.five])
    hx (by decide) (by decide) (by decide)).2.1
  have hv0 : Double.magValue 4602678819172646912 = 1 / 2 := by
    norm_num [Double.magValue]
  have hv1 : Double.magValue (4602678819172646912 + 1) = 1 / 2 + 1 / 2 ^ 53 := by
    norm_num [Double.magValue]
  have hr : Double.roundMag (1 / 2 + (1 - 1 / 2) * (6490371073168535 / 2 ^ 109) / 5)
      = 4602678819172646912 := by
    apply Double.roundMag_eq_lo _ _ (by norm_num)
    · rw [hv0]; norm_num
    · rw [hv0, hv1]; norm_num
  rw [sampleCurve, h, Double.ofRat_of_nonneg _ (by norm_num), hr]
  rfl

/-- C12 (amended): with the curve [(0,0.5),(5,1.0)], `modify_flow(2.5, 1.0,
solid infill)` is 0.75, strictly between 0.5 and 1.0; for every two-point table
[(0,f),(L,1.0)] of finite doubles with f < 1 and every finite length x with
0 < x < L, the table passes the validation and `modify_flow(x, 1.0, solid
infill)` is the double nearest to the interpolated factor f + (1 - f) * x / L,
which lies between f and 1.0, both included. -/
theorem modify_flow_interpolates_rounded :
    (Double.modify_flow sampleCurve Double.twoAndHalf Double.one ExtrusionRole.erSolidInfill
        = some Double.threeQuarters ∧
      Double.lt Double.half Double.threeQuarters = true ∧
      Double.lt Double.threeQuarters Double.one = true) ∧
    (∀ (f L x : Double) (fq Lq xq : ℚ),
      Double.toRat f = some fq → Double.toRat L = some Lq → Double.toRat x = some xq →
      Double.lt f Double.one = true → Double.lt Double.zero x = true →
      Double.lt x L = true →
      (tableOf [(Double.zero, f), (L, Double.one)]).accepted = true ∧
      Double.modify_flow (tableOf [(Double.zero, f), (L, Double.one)]) x Double.one
          ExtrusionRole.erSolidInfill = some (Double.ofRat (fq + (1 - fq) * xq / Lq)) ∧
      Double.le f (Double.ofRat (fq + (1 - fq) * xq / Lq)) = true ∧
      Double.le (Double.ofRat (fq + (1 - fq) * xq / Lq)) Double.one = true) := by
  refine ⟨⟨?_, by decide, by decide⟩, Double.modify_flow_two_point⟩
  have h := (Double.modify_flow_two_point Double.half Double.five Double.twoAndHalf (1 / 2) 5
    (5 / 2)
    (by norm_num [Double.toRat, Double.half]) (by norm_num [Double.toRat, Double.five])
    (by norm_num [Double.toRat, Double.twoAndHalf]) (by decide) (by decide) (by decide)).2.1
  rw [sampleCurve, h]
  have e : (1 / 2 + (1 - 1 / 2) * (5 / 2) / 5 : ℚ) = 3 / 4 := by norm_num
  rw [e, Double.ofRat_toRat Double.threeQuarters (3 / 4)
    (by norm_num [Double.toRat, Double.threeQuarters])]

/-- Witness of `modify_flow_interpolates_rounded`: the table [(0,0.5),(10,1.0)]
at the length 2.5. -/
theorem modify_flow_interpolates_rounded_witness :
    (tableOf [(Double.zero, Double.half), (Double.ten, Double.one)]).accepted = true ∧
    Double.modify_flow (tableOf [(Double.zero, Double.half), (Double.ten, Double.one)])
        Double.twoAndHalf Double.one ExtrusionRole.erSolidInfill
      = some (Double.ofRat (1 / 2 + (1 - 1 / 2) * (5 / 2) / 10)) ∧
    Double.le Double.half (Double.ofRat (1 / 2 + (1 - 1 / 2) * (5 / 2) / 10)) = true ∧
    Double.le (Double.ofRat (1 / 2 + (1 - 1 / 2) * (5 / 2) / 10)) Double.one = true :=
  modify_flow_interpolates_rounded.2 Double.half Double.ten Double.twoAndHalf (1 / 2) 10 (5 / 2)
    (by norm_num [Double.toRat, Double.half]) (by norm_num [Double.toRat, Double.ten])
    (by norm_num [Double.toRat, Double.twoAndHalf]) (by decide) (by decide) (by decide)

end Slic3r
